import Mathlib

/-!
# GoalPercentageCounter: statistics counter, state machine and statistics files

A shallow embedding of

* `src/GoalPercentageCounter.cpp` (the counter: `reset`, `update`, `recalculateStats`,
  `handleGoal`, `handleShotReset` and the event hooks registered in `onLoad`),
* `src/Plugin/Core/CustomTrainingStateMachine.cpp` (the state machine and the calls it makes
  on its stat updater),
* `src/Plugin/Storage/StatFileReader.cpp` (the reader of statistics files and the file
  discovery),
* `src/Plugin/Data/PlayerStats.h` (the counters and their differences).

Modelling conventions.

* A C++ `int` counter is an `Int`.  The counters only ever move by one per game event, so
  a run of fewer than `2 ^ 31` events never leaves the range of `int`; signed overflow
  (undefined behaviour in C++) is outside the model.
* A C++ `double` is the rational number it denotes.  Every arithmetic operation on doubles
  is followed by `toDouble`, the IEEE-754 binary64 rounding (53 significant bits, round to
  nearest, ties to even), as the operations of a 64-bit build round each result to double.
  The exponent range is not bounded: the values that occur (quotients of counters, times
  `10000`, over `100`) are far from overflow and underflow.  A decimal such as 66.67 names
  the double nearest to it, `toDouble (6667 / 100)`.
* Calls on external collaborators (the stat updater of the state machine, the log) are
  recorded as lists, oldest call first.
-/

/-! ## binary64 arithmetic -/

/-- Nearest integer, a tie going to the even neighbour. -/
def roundToEven (x : ℚ) : ℤ :=
  if x - ⌊x⌋ < 1 / 2 then ⌊x⌋
  else if 1 / 2 < x - ⌊x⌋ then ⌊x⌋ + 1
  else if ⌊x⌋ % 2 = 0 then ⌊x⌋
  else ⌊x⌋ + 1

/-- The binary64 value nearest to `x` (ties to even): with `e = ⌊log₂ |x|⌋` the spacing of
doubles around `x` is `2 ^ (e - 52)`, and `x` is rounded to a multiple of it. -/
def toDouble (x : ℚ) : ℚ :=
  if x = 0 then 0
  else roundToEven (x / 2 ^ (Int.log 2 |x| - 52)) * 2 ^ (Int.log 2 |x| - 52)

/-- The C library function `round` on a double: nearest integer, a tie going away from
zero.  The result is an integer-valued double, so no rounding error is involved. -/
def cRound (x : ℚ) : ℤ :=
  if 0 ≤ x then ⌊x + 1 / 2⌋ else ⌈x - 1 / 2⌉

/-! ## The statistics snapshot and the counter (`GoalPercentageCounter.cpp`) -/

/-- The fields of `_stats` that `GoalPercentageCounter.cpp` reads and writes. -/
structure StatSnapshot where
  Attempts : Int
  Goals : Int
  GoalStreakCounter : Int
  MissStreakCounter : Int
  LongestGoalStreak : Int
  LongestMissStreak : Int
  IgnoreNextShotReset : Bool
  SuccessPercentage : ℚ
  PeakSuccessPercentage : ℚ
  deriving DecidableEq

/-- The member variables of the plugin class that the event handlers use. -/
structure GoalPercentageCounter where
  _stats : StatSnapshot
  _isFirstSpawn : Bool
  _enabled : Bool
  _goalReplayIsActive : Bool
  deriving DecidableEq

namespace GoalPercentageCounter

/-- `GoalPercentageCounter::reset` (lines 73-84). -/
def reset (c : GoalPercentageCounter) : GoalPercentageCounter :=
  { c with _stats :=
      { Attempts := 0
        Goals := 0
        GoalStreakCounter := 0
        MissStreakCounter := 0
        LongestGoalStreak := 0
        LongestMissStreak := 0
        IgnoreNextShotReset := false
        SuccessPercentage := 0
        PeakSuccessPercentage := 0 } }

/-- `GoalPercentageCounter::handleGoal` (lines 118-131). -/
def handleGoal (c : GoalPercentageCounter) : GoalPercentageCounter :=
  let s := c._stats
  let s := { s with MissStreakCounter := 0 }
  let s := { s with GoalStreakCounter := s.GoalStreakCounter + 1 }
  let s := { s with Goals := s.Goals + 1 }
  let s := { s with IgnoreNextShotReset := true }
  if s.GoalStreakCounter > s.LongestGoalStreak then
    { c with _stats := { s with LongestGoalStreak := s.GoalStreakCounter } }
  else
    { c with _stats := s }

/-- `GoalPercentageCounter::handleShotReset` (lines 133-160). -/
def handleShotReset (c : GoalPercentageCounter) : GoalPercentageCounter :=
  if c._isFirstSpawn then
    { c with _isFirstSpawn := false }
  else
    let s := c._stats
    let s := { s with Attempts := s.Attempts + 1 }
    if s.IgnoreNextShotReset then
      { c with _stats := { s with IgnoreNextShotReset := false } }
    else
      let s := { s with MissStreakCounter := s.MissStreakCounter + 1 }
      let s := { s with GoalStreakCounter := 0 }
      if s.MissStreakCounter > s.LongestMissStreak then
        { c with _stats := { s with LongestMissStreak := s.MissStreakCounter } }
      else
        { c with _stats := s }

/-- The percentage computed at the end of `recalculateStats` (lines 110-115):
`round(((double)Goals / (double)Attempts) * 10000.0) / 100.0` when `Attempts > 0`, else 0. -/
def computeSuccessPercentage (s : StatSnapshot) : ℚ :=
  if s.Attempts > 0 then
    toDouble (cRound (toDouble (toDouble (toDouble s.Goals / toDouble s.Attempts) * 10000)) / 100)
  else 0

/-- `GoalPercentageCounter::recalculateStats` (lines 99-116); the reference parameter
`successPercentage` is returned as the second component. -/
def recalculateStats (c : GoalPercentageCounter) (isGoal : Bool) : GoalPercentageCounter × ℚ :=
  let c := if isGoal then c.handleGoal else c.handleShotReset
  (c, computeSuccessPercentage c._stats)

/-- The end of `update` (lines 93-97): store the percentage and raise the peak. -/
def storeSuccessPercentage (c : GoalPercentageCounter) (successPercentage : ℚ) :
    GoalPercentageCounter :=
  let s := { c._stats with SuccessPercentage := successPercentage }
  if s.SuccessPercentage > s.PeakSuccessPercentage then
    { c with _stats := { s with PeakSuccessPercentage := s.SuccessPercentage } }
  else
    { c with _stats := s }

/-- `GoalPercentageCounter::update` (lines 85-98). -/
def update (c : GoalPercentageCounter) (isGoal isReset : Bool) : GoalPercentageCounter :=
  if !isReset then
    let r := c.recalculateStats isGoal
    r.1.storeSuccessPercentage r.2
  else
    c.storeSuccessPercentage 0

/-! ### The event handlers registered in `onLoad`

`inCustomTraining` is the answer of `gameWrapper->IsInCustomTraining()` at the time of the
event. -/

/-- Handler of `Function TAGame.Ball_TA.OnHitGoal` (lines 20-26). -/
def onHitGoal (c : GoalPercentageCounter) (inCustomTraining : Bool) : GoalPercentageCounter :=
  if !inCustomTraining then c
  else if c._goalReplayIsActive then c
  else if !c._enabled then c
  else c.update true false

/-- Handler of `Function TAGame.GameEvent_TA.AddCar` (lines 29-35). -/
def onAddCar (c : GoalPercentageCounter) (inCustomTraining : Bool) : GoalPercentageCounter :=
  if !inCustomTraining then c
  else if c._goalReplayIsActive then c
  else if !c._enabled then c
  else c.update false false

/-- Notifier `goalpercentagecounter_reset` (lines 38-44). -/
def onResetNotifier (c : GoalPercentageCounter) (inCustomTraining : Bool) :
    GoalPercentageCounter :=
  if !inCustomTraining then c
  else c.reset.update false true

/-- Handler of `Function TAGame.GameEvent_TrainingEditor_TA.OnInit` (lines 47-52). -/
def onInit (c : GoalPercentageCounter) : GoalPercentageCounter :=
  if !c._enabled then c
  else { c.reset.update false true with _isFirstSpawn := true }

/-- Handler of `ReplayPlayback.BeginState` (lines 55-57). -/
def onReplayBegin (c : GoalPercentageCounter) : GoalPercentageCounter :=
  { c with _goalReplayIsActive := true }

/-- Handler of `ReplayPlayback.EndState` (lines 58-60). -/
def onReplayEnd (c : GoalPercentageCounter) : GoalPercentageCounter :=
  { c with _goalReplayIsActive := false }

/-- Handler of the cvar `goalpercentagecounter_enabled` changing (lines 15-17). -/
def onEnabledChanged (c : GoalPercentageCounter) (value : Bool) : GoalPercentageCounter :=
  { c with _enabled := value }

end GoalPercentageCounter

/-! ### Driving the counter with attempts -/

/-- One attempt as the hooks deliver it to the counter: a goal attempt is the goal event
`update(true,false)` followed by the car respawn `update(false,false)`, a miss attempt is
the respawn alone. -/
def playAttempt (c : GoalPercentageCounter) (isGoal : Bool) : GoalPercentageCounter :=
  if isGoal then (c.update true false).update false false else c.update false false

/-- A sequence of attempts, `true` for a goal attempt and `false` for a miss attempt. -/
def playAttempts (c : GoalPercentageCounter) (attempts : List Bool) : GoalPercentageCounter :=
  attempts.foldl playAttempt c

/-- The counter right after a training pack was loaded and the initial car spawn was
consumed: the `OnInit` handler followed by the first `update(false,false)`. -/
def afterPackLoadAndSpawn (c : GoalPercentageCounter) : GoalPercentageCounter :=
  c.onInit.update false false

/-- A counter with the plugin enabled and arbitrary leftovers of an earlier session. -/
def usedCounter : GoalPercentageCounter :=
  { _stats :=
      { Attempts := 7, Goals := 4, GoalStreakCounter := 0, MissStreakCounter := 2,
        LongestGoalStreak := 3, LongestMissStreak := 2, IgnoreNextShotReset := false,
        SuccessPercentage := 50, PeakSuccessPercentage := 100 }
    _isFirstSpawn := false
    _enabled := true
    _goalReplayIsActive := false }

/-! ## The custom-training state machine (`CustomTrainingStateMachine.cpp`) -/

/-- The states named by the state machine. -/
inductive CustomTrainingState where
  | NotInCustomTraining
  | Resetting
  | PreparingNewShot
  | AttemptInProgress
  | ProcessingGoal
  | ProcessingMiss
  deriving DecidableEq, Repr

/-- A call the state machine makes on `_statUpdater`. -/
inductive StatUpdaterCall where
  | processReset (totalRounds : Int)
  | processAttempt
  | processInitialBallHit
  | processGoal
  | processMiss
  | updateData
  deriving DecidableEq, Repr

/-- A line the state machine writes to the log of `_cvarManager`. -/
inductive LogLine where
  | unexpectedShotReset
  | ignoringTrainingShotAttempt (state : CustomTrainingState)
  | transitioning (oldState newState : CustomTrainingState)
  deriving DecidableEq, Repr

/-- The fields of the shared plugin state that the state machine writes. -/
structure PluginState where
  TotalRounds : Int
  CurrentRoundIndex : Int
  deriving DecidableEq, Repr

/-- The member variables of the state machine; `_statUpdater` and `_cvarManager` hold the
calls made on these collaborators so far, oldest first. -/
structure CustomTrainingStateMachine where
  _currentState : CustomTrainingState
  _goalWasScoredInCurrentAttempt : Bool
  _ballWasHitInCurrentAttempt : Bool
  _pluginState : PluginState
  _statUpdater : List StatUpdaterCall
  _cvarManager : List LogLine
  deriving DecidableEq, Repr

namespace CustomTrainingStateMachine

/-- The state machine as its constructor leaves it (lines 7-16).  The in-class initial
values of the two attempt flags and of the plugin state are declared in headers that are
not among the sources, so they are parameters. -/
def construct (goalWasScored ballWasHit : Bool) (pluginState : PluginState) :
    CustomTrainingStateMachine :=
  { _currentState := CustomTrainingState.NotInCustomTraining
    _goalWasScoredInCurrentAttempt := goalWasScored
    _ballWasHitInCurrentAttempt := ballWasHit
    _pluginState := pluginState
    _statUpdater := []
    _cvarManager := [] }

/-- `CustomTrainingStateMachine::setCurrentState` (lines 164-172).  `DEBUG_STATE_MACHINE`
is the preprocessor switch of that name, which is defined outside the sources. -/
def setCurrentState (DEBUG_STATE_MACHINE : Bool) (m : CustomTrainingStateMachine)
    (newState : CustomTrainingState) : CustomTrainingStateMachine :=
  let m :=
    if DEBUG_STATE_MACHINE then
      { m with _cvarManager := m._cvarManager ++ [LogLine.transitioning m._currentState newState] }
    else m
  { m with _currentState := newState }

/-- `CustomTrainingStateMachine::processOnTrainingModeLoaded` (lines 75-84);
`totalRounds` is the answer of `trainingWrapper.GetTotalRounds()`. -/
def processOnTrainingModeLoaded (DEBUG_STATE_MACHINE : Bool) (m : CustomTrainingStateMachine)
    (totalRounds : Int) : CustomTrainingStateMachine :=
  let m := setCurrentState DEBUG_STATE_MACHINE m CustomTrainingState.Resetting
  let m := { m with _pluginState := { m._pluginState with TotalRounds := totalRounds } }
  let m := { m with _pluginState := { m._pluginState with CurrentRoundIndex := -1 } }
  { m with _statUpdater :=
      m._statUpdater ++ [StatUpdaterCall.processReset m._pluginState.TotalRounds] }

/-- `CustomTrainingStateMachine::processsEventRoundChanged` (lines 86-125);
`newRoundIndex` is the answer of `trainingWrapper.GetActiveRoundNumber()`. -/
def processsEventRoundChanged (DEBUG_STATE_MACHINE : Bool) (m : CustomTrainingStateMachine)
    (newRoundIndex : Int) : CustomTrainingStateMachine :=
  let m :=
    if m._currentState = CustomTrainingState.Resetting then
      setCurrentState DEBUG_STATE_MACHINE m CustomTrainingState.PreparingNewShot
    else if m._currentState = CustomTrainingState.PreparingNewShot then
      if m._pluginState.CurrentRoundIndex = newRoundIndex then
        { m with _cvarManager := m._cvarManager ++ [LogLine.unexpectedShotReset] }
      else m
    else if m._currentState = CustomTrainingState.AttemptInProgress then
      let m :=
        if m._goalWasScoredInCurrentAttempt then
          let m := setCurrentState DEBUG_STATE_MACHINE m CustomTrainingState.ProcessingGoal
          { m with _statUpdater := m._statUpdater ++ [StatUpdaterCall.processGoal] }
        else
          let m := setCurrentState DEBUG_STATE_MACHINE m CustomTrainingState.ProcessingMiss
          { m with _statUpdater := m._statUpdater ++ [StatUpdaterCall.processMiss] }
      let m := { m with _statUpdater := m._statUpdater ++ [StatUpdaterCall.updateData] }
      setCurrentState DEBUG_STATE_MACHINE m CustomTrainingState.PreparingNewShot
    else m
  { m with _pluginState := { m._pluginState with CurrentRoundIndex := newRoundIndex } }

/-- `CustomTrainingStateMachine::processTrainingShotAttempt` (lines 127-141). -/
def processTrainingShotAttempt (DEBUG_STATE_MACHINE : Bool) (m : CustomTrainingStateMachine) :
    CustomTrainingStateMachine :=
  if DEBUG_STATE_MACHINE && m._currentState != CustomTrainingState.PreparingNewShot then
    { m with _cvarManager :=
        m._cvarManager ++ [LogLine.ignoringTrainingShotAttempt m._currentState] }
  else
    let m := setCurrentState DEBUG_STATE_MACHINE m CustomTrainingState.AttemptInProgress
    let m := { m with _goalWasScoredInCurrentAttempt := false }
    let m := { m with _ballWasHitInCurrentAttempt := false }
    { m with _statUpdater := m._statUpdater ++ [StatUpdaterCall.processAttempt] }

/-- `CustomTrainingStateMachine::processOnCarTouch` (lines 143-151). -/
def processOnCarTouch (m : CustomTrainingStateMachine) : CustomTrainingStateMachine :=
  if !m._ballWasHitInCurrentAttempt then
    let m := { m with _ballWasHitInCurrentAttempt := true }
    { m with _statUpdater := m._statUpdater ++ [StatUpdaterCall.processInitialBallHit] }
  else m

/-- `CustomTrainingStateMachine::processOnHitGoal` (lines 153-162). -/
def processOnHitGoal (m : CustomTrainingStateMachine) : CustomTrainingStateMachine :=
  if !m._goalWasScoredInCurrentAttempt then
    { m with _goalWasScoredInCurrentAttempt := true }
  else m

end CustomTrainingStateMachine

/-- A raw game event delivered to the state machine, with the value the handler reads from
the training wrapper. -/
inductive TrainingEvent where
  | trainingModeLoaded (totalRounds : Int)
  | roundChanged (activeRoundNumber : Int)
  | trainingShotAttempt
  | carTouch
  | hitGoal
  deriving DecidableEq, Repr

/-- Dispatch of one event to the member function that processes it. -/
def CustomTrainingStateMachine.processEvent (DEBUG_STATE_MACHINE : Bool)
    (m : CustomTrainingStateMachine) : TrainingEvent → CustomTrainingStateMachine
  | TrainingEvent.trainingModeLoaded totalRounds =>
      m.processOnTrainingModeLoaded DEBUG_STATE_MACHINE totalRounds
  | TrainingEvent.roundChanged activeRoundNumber =>
      m.processsEventRoundChanged DEBUG_STATE_MACHINE activeRoundNumber
  | TrainingEvent.trainingShotAttempt => m.processTrainingShotAttempt DEBUG_STATE_MACHINE
  | TrainingEvent.carTouch => m.processOnCarTouch
  | TrainingEvent.hitGoal => m.processOnHitGoal

/-- A sequence of events, processed in order. -/
def CustomTrainingStateMachine.processEvents (DEBUG_STATE_MACHINE : Bool)
    (m : CustomTrainingStateMachine) (events : List TrainingEvent) :
    CustomTrainingStateMachine :=
  events.foldl (CustomTrainingStateMachine.processEvent DEBUG_STATE_MACHINE) m

/-- Modelled from the spec: the stat updater that the state machine calls (`processReset`,
`processAttempt`, `processInitialBallHit`, `processGoal`, `processMiss`, `updateData`) is
not among the sources.  Following sections 4.1 and 4.2 of the specification, a pack load
resets the snapshot and sets the first-spawn flag, a goal is `handleGoal`, a miss is the
shot reset `handleShotReset`, the start of an attempt and the initial hit change no
counter, and `updateData` recomputes the success percentage and the peak. -/
def applyStatUpdaterCall (c : GoalPercentageCounter) : StatUpdaterCall → GoalPercentageCounter
  | StatUpdaterCall.processReset _ => { c.reset.update false true with _isFirstSpawn := true }
  | StatUpdaterCall.processAttempt => c
  | StatUpdaterCall.processInitialBallHit => c
  | StatUpdaterCall.processGoal => c.handleGoal
  | StatUpdaterCall.processMiss => c.handleShotReset
  | StatUpdaterCall.updateData =>
      c.storeSuccessPercentage (GoalPercentageCounter.computeSuccessPercentage c._stats)

/-- The calls of a trace applied in order. -/
def applyStatUpdaterCalls (c : GoalPercentageCounter) (calls : List StatUpdaterCall) :
    GoalPercentageCounter :=
  calls.foldl applyStatUpdaterCall c

/-- The events of the end-to-end scenario: a pack of three rounds is loaded, the first
attempt scores, the second misses, the third scores. -/
def scenarioEvents : List TrainingEvent :=
  [ TrainingEvent.trainingModeLoaded 3,
    TrainingEvent.trainingShotAttempt, TrainingEvent.carTouch, TrainingEvent.hitGoal,
    TrainingEvent.roundChanged 1,
    TrainingEvent.trainingShotAttempt,
    TrainingEvent.roundChanged 2,
    TrainingEvent.trainingShotAttempt, TrainingEvent.carTouch, TrainingEvent.hitGoal,
    TrainingEvent.roundChanged 0 ]

/-- The state machine before the scenario: freshly constructed, flags unset. -/
def scenarioMachine : CustomTrainingStateMachine :=
  CustomTrainingStateMachine.construct false false { TotalRounds := 0, CurrentRoundIndex := 0 }

/-! ### Driving the counter with events -/

/-- An event that changes the statistics: a goal, a shot reset (car spawn), or a reset of
the statistics. -/
inductive CounterEvent where
  | goal
  | shotReset
  | statReset
  deriving DecidableEq, Repr

/-- The calls an event leads to: `update(true,false)` for a goal, `update(false,false)` for
a shot reset, and `reset(); update(false,true)` for a reset of the statistics. -/
def applyCounterEvent (c : GoalPercentageCounter) : CounterEvent → GoalPercentageCounter
  | CounterEvent.goal => c.update true false
  | CounterEvent.shotReset => c.update false false
  | CounterEvent.statReset => c.reset.update false true

/-- A sequence of events, applied in order. -/
def applyCounterEvents (c : GoalPercentageCounter) (events : List CounterEvent) :
    GoalPercentageCounter :=
  events.foldl applyCounterEvent c

/-- Whether every goal of the sequence arrives while `IgnoreNextShotReset` is clear, that
is, whether a counted shot reset separates any two goals. -/
def goalsArriveUnlatched (c : GoalPercentageCounter) : List CounterEvent → Bool
  | [] => true
  | e :: events =>
      (e != CounterEvent.goal || !c._stats.IgnoreNextShotReset) &&
        goalsArriveUnlatched (applyCounterEvent c e) events

/-- A sequence of `update(isGoal, isReset)` calls, applied in order. -/
def updates (c : GoalPercentageCounter) (calls : List (Bool × Bool)) : GoalPercentageCounter :=
  calls.foldl (fun c call => c.update call.1 call.2) c

/-- The values of `SuccessPercentage` that a sequence of `update` calls produces, one per
call, in order. -/
def producedPercentages (c : GoalPercentageCounter) : List (Bool × Bool) → List ℚ
  | [] => []
  | call :: calls =>
      (c.update call.1 call.2)._stats.SuccessPercentage ::
        producedPercentages (c.update call.1 call.2) calls

/-! ### Attempts at the level of the two handlers, and runs of equal outcomes -/

/-- One attempt as a sequence of handler calls: a goal attempt is `handleGoal` followed by
`handleShotReset`, a miss attempt is `handleShotReset` alone. -/
def handleAttempt (c : GoalPercentageCounter) (isGoal : Bool) : GoalPercentageCounter :=
  if isGoal then c.handleGoal.handleShotReset else c.handleShotReset

/-- A sequence of attempts, `true` for a goal attempt and `false` for a miss attempt. -/
def handleAttempts (c : GoalPercentageCounter) (attempts : List Bool) : GoalPercentageCounter :=
  attempts.foldl handleAttempt c

/-- The number `n` is the length of the longest run of consecutive attempts with the given
outcome: a run of `n` occurs in the sequence, and no longer one does. -/
def IsLongestRun (outcome : Bool) (attempts : List Bool) (n : Nat) : Prop :=
  List.replicate n outcome <:+: attempts ∧
    ∀ k : Nat, List.replicate k outcome <:+: attempts → k ≤ n

/-- The number `n` is the length of the run of attempts with the given outcome that ends
the sequence. -/
def IsTrailingRun (outcome : Bool) (attempts : List Bool) (n : Nat) : Prop :=
  List.replicate n outcome <:+ attempts ∧
    ∀ k : Nat, List.replicate k outcome <:+ attempts → k ≤ n

/-- A counter after 799 attempts with 57 goals, the last attempt a miss. -/
def tieCounter : GoalPercentageCounter :=
  { _stats :=
      { Attempts := 799, Goals := 57, GoalStreakCounter := 0, MissStreakCounter := 1,
        LongestGoalStreak := 3, LongestMissStreak := 40, IgnoreNextShotReset := false,
        SuccessPercentage := 7, PeakSuccessPercentage := 100 }
    _isFirstSpawn := false
    _enabled := true
    _goalReplayIsActive := false }

/-! ### Machines used as examples -/

/-- A state machine that waits for the next attempt, with both attempt flags still set
from an earlier attempt. -/
def preparingMachine : CustomTrainingStateMachine :=
  { _currentState := CustomTrainingState.PreparingNewShot
    _goalWasScoredInCurrentAttempt := true
    _ballWasHitInCurrentAttempt := true
    _pluginState := { TotalRounds := 3, CurrentRoundIndex := 1 }
    _statUpdater := [StatUpdaterCall.processReset 3]
    _cvarManager := [] }

/-- A state machine right after a pack load (state `Resetting`), flags unset. -/
def resettingMachine : CustomTrainingStateMachine :=
  { _currentState := CustomTrainingState.Resetting
    _goalWasScoredInCurrentAttempt := false
    _ballWasHitInCurrentAttempt := false
    _pluginState := { TotalRounds := 3, CurrentRoundIndex := -1 }
    _statUpdater := [StatUpdaterCall.processReset 3]
    _cvarManager := [] }

/-- A state machine in the middle of an attempt in which the ball was hit and a goal was
scored. -/
def scoringMachine : CustomTrainingStateMachine :=
  { _currentState := CustomTrainingState.AttemptInProgress
    _goalWasScoredInCurrentAttempt := true
    _ballWasHitInCurrentAttempt := true
    _pluginState := { TotalRounds := 3, CurrentRoundIndex := 1 }
    _statUpdater :=
      [StatUpdaterCall.processReset 3, StatUpdaterCall.processAttempt,
        StatUpdaterCall.processInitialBallHit]
    _cvarManager := [] }


/-! ## The statistics file reader (`StatFileReader.cpp`)

A `std::string` is a list of characters.  The file behind the `std::ifstream` is the
sequence of lines that successive `std::getline` calls return, or nothing at all when the
file cannot be opened.  An exception thrown by a library function and not caught in the
reader is the `Except.error` outcome. -/

/-- The binary32 value nearest to `x` (ties to even), the result of a `(float)`
conversion; as for `toDouble` the exponent range is not bounded. -/
def toFloat (x : ℚ) : ℚ :=
  if x = 0 then 0
  else roundToEven (x / 2 ^ (Int.log 2 |x| - 23)) * 2 ^ (Int.log 2 |x| - 23)

/-- An exception of the standard library that `std::stoi`, `std::stod` and `std::stof`
throw. -/
inductive StdException where
  | invalid_argument
  | out_of_range
  deriving DecidableEq, Repr

deriving instance DecidableEq for Except

/-- The characters that `std::stoi` skips at the start: `isspace` in the C locale. -/
def isSpace (c : Char) : Bool :=
  c = ' ' || c = '\t' || c = '\n' || c = Char.ofNat 11 || c = Char.ofNat 12 || c = '\r'

/-- The number that a sequence of decimal digits denotes. -/
def digitsValue (digits : List Char) : Nat :=
  digits.foldl (fun value c => 10 * value + (c.toNat - 48)) 0

/-- The library function `std::stoi(text)` (base 10, no position output): leading
whitespace is skipped, one sign is accepted, the longest run of digits is converted and
whatever follows is ignored; without a digit it throws `std::invalid_argument`, and a value
outside the range of a 32-bit `int` throws `std::out_of_range`. -/
def stoi (text : List Char) : Except StdException Int :=
  let rest := text.dropWhile isSpace
  let negative : Bool := rest.head? = some '-'
  let rest := if rest.head? = some '-' ∨ rest.head? = some '+' then rest.tail else rest
  let digits := rest.takeWhile Char.isDigit
  if digits = [] then Except.error StdException.invalid_argument
  else
    let value : Int := if negative then -(digitsValue digits : Int) else digitsValue digits
    if value < -2147483648 ∨ 2147483647 < value then Except.error StdException.out_of_range
    else Except.ok value

/-- The library functions `std::stod` and `std::stof`.  Their grammar (decimal and
hexadecimal notation, exponents, infinities, NaN) is not modelled: they are parameters that
give, for a text, the value of the double or float they return or the exception they
throw. -/
structure FloatParsing where
  stod : List Char → Except StdException ℚ
  stof : List Char → Except StdException ℚ

/-- The constants of `StatFileDefs.h`, a header that is not among the sources; they are
parameters of the reader. -/
structure StatFileDefs where
  Version : List Char
  NumberOfShots : List Char
  Attempts : List Char
  ImpactLocations : List Char
  SupportedVersionNumbers : List (List Char)

/-- The helper `indexInVector` (lines 15-27). -/
def indexInVector {α : Type} [DecidableEq α] (vector : List α) (searchValue : α) : Int :=
  if searchValue ∈ vector then (vector.indexOf searchValue : Int) else -1

/-- The helper `getLineValues` (lines 60-71): the texts before and after the first tab, or
two empty texts when the line has no tab. -/
def getLineValues (line : List Char) : List Char × List Char :=
  if '\t' ∈ line then
    (line.takeWhile (fun c => c != '\t'), (line.dropWhile (fun c => c != '\t')).drop 1)
  else ([], [])

/-- The member function `std::string::find(c, offset)`: the position of the first `c` at
or after `offset`, if there is one. -/
def findFrom (c : Char) (text : List Char) (offset : Nat) : Option Nat :=
  if c ∈ text.drop offset then some (offset + (text.drop offset).indexOf c) else none

/-- The member function `std::string::substr(pos, count)` for `pos` within the text. -/
def substr (text : List Char) (pos count : Nat) : List Char :=
  (text.drop pos).take count

/-- A location in space, the `Vector` of the game SDK with its three `float` components. -/
structure Vector where
  X : ℚ
  Y : ℚ
  Z : ℚ
  deriving DecidableEq

/-- The counters of `PlayerStats.h` with their in-class initial values.  The goal-speed
members, which the reader does not touch, are left out. -/
structure PlayerStats where
  Attempts : Int := 0
  Goals : Int := 0
  Last50Shots : List Bool := []
  GoalStreakCounter : Int := 0
  MissStreakCounter : Int := 0
  LongestGoalStreak : Int := 0
  LongestMissStreak : Int := 0
  InitialHits : Int := 0
  MaxAirDribbleTouches : Int := 0
  MaxAirDribbleTime : ℚ := 0
  MaxGroundDribbleTime : ℚ := 0
  DoubleTapGoals : Int := 0
  TotalFlipResets : Int := 0
  MaxFlipResets : Int := 0
  FlipResetAttemptsScored : Int := 0
  CloseMisses : Int := 0
  deriving DecidableEq

/-- Modelled from the spec: the class behind `StatsData::Data` is declared in a header that
is not among the sources.  These are the members that the reader fills, the derived
percentages and averages of section 4.3 as `double` and the peak shot number as `int`,
each initially 0. -/
structure CalculatedData where
  InitialHitPercentage : ℚ := 0
  SuccessPercentage : ℚ := 0
  PeakSuccessPercentage : ℚ := 0
  PeakShotNumber : Int := 0
  DoubleTapGoalPercentage : ℚ := 0
  AverageFlipResetsPerAttempt : ℚ := 0
  FlipResetGoalPercentage : ℚ := 0
  CloseMissPercentage : ℚ := 0
  deriving DecidableEq

/-- Modelled from the spec: `StatsData` is declared in a header that is not among the
sources; the reader uses its members `Stats` and `Data`. -/
structure StatsData where
  Stats : PlayerStats := {}
  Data : CalculatedData := {}
  deriving DecidableEq

/-- Modelled from the spec: `ShotStats` is declared in a header that is not among the
sources; it holds the overall snapshot and one snapshot per shot. -/
structure ShotStats where
  AllShotStats : StatsData := {}
  PerShotStats : List StatsData := []
  deriving DecidableEq

/-- What the reader works on: the lines of the file that have not been read yet, and the
impact locations registered with the shot distribution tracker so far, oldest first. -/
structure ReaderState where
  lines : List (List Char)
  registered : List Vector
  deriving DecidableEq

/-- A piece of the reader: from a state it either throws, or it ends in a new state with a
value or with nothing; nothing stands for the early `return false` (or `return {}`,
`return 0`) of the source. -/
def Reader (α : Type) : Type :=
  ReaderState → Except StdException (Option α × ReaderState)

namespace Reader

/-- Go on with a value. -/
def ret {α : Type} (a : α) : Reader α :=
  fun s => Except.ok (some a, s)

/-- The early failure return. -/
def fail {α : Type} : Reader α :=
  fun s => Except.ok (none, s)

/-- The outcome of a library call: its value, or its exception passed on. -/
def ofExcept {α : Type} (r : Except StdException α) : Reader α :=
  fun s =>
    match r with
    | Except.ok a => Except.ok (some a, s)
    | Except.error e => Except.error e

/-- Sequencing: an exception or an early return of the first piece ends the whole. -/
def andThen {α β : Type} (r : Reader α) (f : α → Reader β) : Reader β :=
  fun s =>
    match r s with
    | Except.error e => Except.error e
    | Except.ok (none, s1) => Except.ok (none, s1)
    | Except.ok (some a, s1) => f a s1

instance : Monad Reader where
  pure := ret
  bind := andThen

end Reader

/-- The call `std::getline(fileStream, currentLine)`: the next line, or failure at the end
of the file. -/
def getline : Reader (List Char) :=
  fun s =>
    match s.lines with
    | [] => Except.ok (none, s)
    | line :: rest => Except.ok (some line, { s with lines := rest })

/-- The call `_shotDistributionTracker->registerImpactLocation(vector)`. -/
def registerImpactLocation (vector : Vector) : Reader Unit :=
  fun s => Except.ok (some (), { s with registered := s.registered ++ [vector] })

/-- The overload `readValueIntoField(std::ifstream&, int*)` (lines 110-126); the value
written through the pointer is the value returned. -/
def readValueIntoField_int : Reader Int := do
  let currentLine ← getline
  if currentLine = [] then Reader.fail
  else
    let keyValue := getLineValues currentLine
    if keyValue.1 = [] ∨ keyValue.2 = [] then Reader.fail
    else do
      let valueAsInt ← Reader.ofExcept (stoi keyValue.2)
      if valueAsInt < 0 then Reader.fail
      else pure valueAsInt

/-- The overload `readValueIntoField(std::ifstream&, double*)` (lines 127-143). -/
def readValueIntoField_double (std : FloatParsing) : Reader ℚ := do
  let currentLine ← getline
  if currentLine = [] then Reader.fail
  else
    let keyValue := getLineValues currentLine
    if keyValue.1 = [] ∨ keyValue.2 = [] then Reader.fail
    else do
      let valueAsFloat ← Reader.ofExcept (std.stod keyValue.2)
      if valueAsFloat < 0 then Reader.fail
      else pure valueAsFloat

/-- The overload `readValueIntoField(std::ifstream&, float*)` (lines 144-154). -/
def readValueIntoField_float (std : FloatParsing) : Reader ℚ := do
  let tmp ← readValueIntoField_double std
  pure (toFloat tmp)

/-- One statement of a block reader: each reads one line and returns `false` from the
block reader when the line is missing or not acceptable.  The `store` argument is the
member of the snapshot that the statement writes. -/
inductive FieldReader where
  /-- The statement `if (!std::getline(fileStream, currentLine)) return false;`. -/
  | skipLine
  /-- A call of `readValueIntoField` with a pointer to an `int` member. -/
  | intField (store : StatsData → Int → StatsData)
  /-- A call of `readValueIntoField` with a pointer to a `double` member. -/
  | doubleField (store : StatsData → ℚ → StatsData)
  /-- A call of `readValueIntoField` with a pointer to a `float` member. -/
  | floatField (store : StatsData → ℚ → StatsData)
  /-- The line of the last shots (lines 226-234): one entry per character after the tab,
  `true` for the character `1`, appended to `Last50Shots`. -/
  | last50Shots

/-- What one statement of a block reader does to the snapshot being filled. -/
def FieldReader.run (std : FloatParsing) : FieldReader → StatsData → Reader StatsData
  | FieldReader.skipLine, data => do
      let _ ← getline
      pure data
  | FieldReader.intField store, data => do
      let value ← readValueIntoField_int
      pure (store data value)
  | FieldReader.doubleField store, data => do
      let value ← readValueIntoField_double std
      pure (store data value)
  | FieldReader.floatField store, data => do
      let value ← readValueIntoField_float std
      pure (store data value)
  | FieldReader.last50Shots, data => do
      let currentLine ← getline
      let boolArrayString := (getLineValues currentLine).2
      pure { data with Stats := { data.Stats with
        Last50Shots := data.Stats.Last50Shots ++ boolArrayString.map (fun c => c == '1') } }

/-- The statements of a block reader, one after the other. -/
def runFields (std : FloatParsing) : List FieldReader → StatsData → Reader StatsData
  | [], data => pure data
  | field :: fields, data => do
      let data ← field.run std data
      runFields std fields data

/-- The statements of `readVersion_1_0` (lines 217-246), in order. -/
def fields_1_0 : List FieldReader :=
  [ FieldReader.intField (fun d v => { d with Stats := { d.Stats with Attempts := v } }),
    FieldReader.intField (fun d v => { d with Stats := { d.Stats with Goals := v } }),
    FieldReader.intField (fun d v => { d with Stats := { d.Stats with InitialHits := v } }),
    FieldReader.intField
      (fun d v => { d with Stats := { d.Stats with GoalStreakCounter := v } }),
    FieldReader.intField
      (fun d v => { d with Stats := { d.Stats with MissStreakCounter := v } }),
    FieldReader.intField
      (fun d v => { d with Stats := { d.Stats with LongestGoalStreak := v } }),
    FieldReader.intField
      (fun d v => { d with Stats := { d.Stats with LongestMissStreak := v } }),
    FieldReader.last50Shots,
    FieldReader.skipLine,
    FieldReader.skipLine,
    FieldReader.skipLine,
    FieldReader.skipLine,
    FieldReader.skipLine,
    FieldReader.doubleField
      (fun d v => { d with Data := { d.Data with InitialHitPercentage := v } }),
    FieldReader.doubleField
      (fun d v => { d with Data := { d.Data with SuccessPercentage := v } }),
    FieldReader.doubleField
      (fun d v => { d with Data := { d.Data with PeakSuccessPercentage := v } }),
    FieldReader.intField (fun d v => { d with Data := { d.Data with PeakShotNumber := v } }) ]

/-- The statements of `readVersion_1_1_additions` (lines 253-263), in order. -/
def fields_1_1 : List FieldReader :=
  [ FieldReader.intField
      (fun d v => { d with Stats := { d.Stats with MaxAirDribbleTouches := v } }),
    FieldReader.floatField
      (fun d v => { d with Stats := { d.Stats with MaxAirDribbleTime := v } }),
    FieldReader.floatField
      (fun d v => { d with Stats := { d.Stats with MaxGroundDribbleTime := v } }),
    FieldReader.intField (fun d v => { d with Stats := { d.Stats with DoubleTapGoals := v } }),
    FieldReader.doubleField
      (fun d v => { d with Data := { d.Data with DoubleTapGoalPercentage := v } }),
    FieldReader.intField (fun d v => { d with Stats := { d.Stats with MaxFlipResets := v } }),
    FieldReader.intField
      (fun d v => { d with Stats := { d.Stats with TotalFlipResets := v } }),
    FieldReader.doubleField
      (fun d v => { d with Data := { d.Data with AverageFlipResetsPerAttempt := v } }),
    FieldReader.doubleField
      (fun d v => { d with Data := { d.Data with FlipResetGoalPercentage := v } }),
    FieldReader.intField (fun d v => { d with Stats := { d.Stats with CloseMisses := v } }),
    FieldReader.doubleField
      (fun d v => { d with Data := { d.Data with CloseMissPercentage := v } }) ]

/-- `StatFileReader::readVersion_1_0` (lines 215-249); the snapshot behind the pointer is
passed in and the filled snapshot is returned. -/
def readVersion_1_0 (std : FloatParsing) (statsData : StatsData) : Reader StatsData :=
  runFields std fields_1_0 statsData

/-- `StatFileReader::readVersion_1_1_additions` (lines 251-266). -/
def readVersion_1_1_additions (std : FloatParsing) (statsData : StatsData) :
    Reader StatsData :=
  runFields std fields_1_1 statsData

/-- The loop of `readVersion_1_2_additions` (lines 289-313) with `remaining` vectors still
to be read from position `offset` of the text `allShotLocations`. -/
def readImpactLocations (std : FloatParsing) (allShotLocations : List Char) :
    Nat → Nat → Reader Unit
  | 0, _ => pure ()
  | remaining + 1, offset =>
      match findFrom ',' allShotLocations offset with
      | none => Reader.fail
      | some xEnd => do
          let x ← Reader.ofExcept (std.stof (substr allShotLocations offset xEnd))
          match findFrom ',' allShotLocations (xEnd + 1) with
          | none => Reader.fail
          | some yEnd => do
              let y ← Reader.ofExcept (std.stof (substr allShotLocations (xEnd + 1) yEnd))
              match findFrom '|' allShotLocations (yEnd + 1) with
              | none => Reader.fail
              | some zEnd => do
                  let z ← Reader.ofExcept
                    (std.stof (substr allShotLocations (yEnd + 1) zEnd))
                  registerImpactLocation { X := x, Y := y, Z := z }
                  readImpactLocations std allShotLocations remaining (zEnd + 1)

/-- `StatFileReader::readVersion_1_2_additions` (lines 268-318). -/
def readVersion_1_2_additions (std : FloatParsing) (defs : StatFileDefs) : Reader Unit := do
  let currentLine ← getline
  if currentLine = [] then Reader.fail
  else
    let keyValue := getLineValues currentLine
    if keyValue.1 = [] ∨ keyValue.2 = [] then Reader.fail
    else if keyValue.1 ≠ defs.ImpactLocations then Reader.fail
    else
      match findFrom '|' keyValue.2 0 with
      | none => Reader.fail
      | some separatorPos => do
          let size ← Reader.ofExcept (stoi (substr keyValue.2 0 separatorPos))
          if size > 0 then
            readImpactLocations std keyValue.2 size.toNat (separatorPos + 1)
          else pure ()

/-- The snapshot that `statsDataObjectsToBeFilled[vectorIndex]` points to: the overall
snapshot at index 0, then the per-shot snapshots. -/
def ShotStats.objectToBeFilled (stats : ShotStats) (vectorIndex : Nat) : StatsData :=
  match vectorIndex with
  | 0 => stats.AllShotStats
  | shot + 1 => stats.PerShotStats.getD shot {}

/-- The structure with the snapshot at `vectorIndex` replaced, the effect of filling it
through the pointer. -/
def ShotStats.fill (stats : ShotStats) (vectorIndex : Nat) (data : StatsData) : ShotStats :=
  match vectorIndex with
  | 0 => { stats with AllShotStats := data }
  | shot + 1 => { stats with PerShotStats := stats.PerShotStats.set shot data }

/-- The body of the loop over the blocks in `readStats` (lines 201-210). -/
def readBlock (std : FloatParsing) (defs : StatFileDefs) (versionIndex : Int)
    (statsData : StatsData) : Reader StatsData := do
  let _ ← getline
  let statsData ← readVersion_1_0 std statsData
  let statsData ←
    if versionIndex > 0 then readVersion_1_1_additions std statsData else pure statsData
  if versionIndex > 1 then readVersion_1_2_additions std defs else pure ()
  pure statsData

/-- The loop over the blocks in `readStats` (lines 199-211) with `remaining` iterations
to go, the next one at `vectorIndex`. -/
def readBlocks (std : FloatParsing) (defs : StatFileDefs) (versionIndex : Int) :
    Nat → Nat → ShotStats → Reader ShotStats
  | 0, _, stats => pure stats
  | remaining + 1, vectorIndex, stats => do
      let statsData ← readBlock std defs versionIndex (stats.objectToBeFilled vectorIndex)
      readBlocks std defs versionIndex remaining (vectorIndex + 1)
        (stats.fill vectorIndex statsData)

/-- `StatFileReader::readStats` after the file was opened (lines 163-212); the early
`return {}` is the failure of the reader. -/
def readStatsFromStream (std : FloatParsing) (defs : StatFileDefs) : Reader ShotStats := do
  let currentLine ← getline
  let versionNumber := (getLineValues currentLine).2
  let versionIndex := indexInVector defs.SupportedVersionNumbers versionNumber
  if versionIndex < 0 then Reader.fail
  else do
    let currentLine ← getline
    let numberOfShotsTag := (getLineValues currentLine).1
    let numberOfShotsValue := (getLineValues currentLine).2
    let numberOfShots ← Reader.ofExcept (stoi numberOfShotsValue)
    if numberOfShotsTag ≠ defs.NumberOfShots ∨ numberOfShots ≤ 0 then Reader.fail
    else
      readBlocks std defs versionIndex (numberOfShots.toNat + 1) 0
        { AllShotStats := {}, PerShotStats := List.replicate numberOfShots.toNat {} }

/-- `StatFileReader::readStats` (lines 157-213).  The file is `none` when it cannot be
opened; `registered` is what the tracker holds before the call.  The result is the returned
`ShotStats` together with what the tracker holds afterwards, or the exception that leaves
the function. -/
def readStats (std : FloatParsing) (defs : StatFileDefs) (file : Option (List (List Char)))
    (registered : List Vector) : Except StdException (ShotStats × List Vector) :=
  match file with
  | none => Except.ok ({}, registered)
  | some lines =>
      match readStatsFromStream std defs { lines := lines, registered := registered } with
      | Except.error e => Except.error e
      | Except.ok (none, s) => Except.ok ({}, s.registered)
      | Except.ok (some stats, s) => Except.ok (stats, s.registered)

/-- `StatFileReader::peekAttemptAmount` after the file was opened (lines 80-107); the
early `return 0` is the failure of the reader. -/
def peekAttemptAmountFromStream (defs : StatFileDefs) : Reader Int := do
  let currentLine ← getline
  let versionTag := (getLineValues currentLine).1
  let versionNumber := (getLineValues currentLine).2
  let versionIndex := indexInVector defs.SupportedVersionNumbers versionNumber
  if versionTag ≠ defs.Version ∨ versionIndex < 0 then Reader.fail
  else do
    let _ ← getline
    let _ ← getline
    let currentLine ← getline
    let attemptsTag := (getLineValues currentLine).1
    let attemptAmount := (getLineValues currentLine).2
    let attempts ← Reader.ofExcept (stoi attemptAmount)
    if attemptsTag ≠ defs.Attempts ∨ attempts < 0 then Reader.fail
    else pure attempts

/-- `StatFileReader::peekAttemptAmount` (lines 74-108). -/
def peekAttemptAmount (defs : StatFileDefs) (file : Option (List (List Char))) :
    Except StdException Int :=
  match file with
  | none => Except.ok 0
  | some lines =>
      match peekAttemptAmountFromStream defs { lines := lines, registered := [] } with
      | Except.error e => Except.error e
      | Except.ok (none, _) => Except.ok 0
      | Except.ok (some attempts, _) => Except.ok attempts

/-! ### An example of the parameters and of a file -/

/-- The value of a text in plain decimal notation: whitespace, one sign, digits, and
optionally a point followed by digits; nothing if there is no digit.  A text whose digits
are all zero has the value 0. -/
def plainDecimalValue (text : List Char) : Option ℚ :=
  let rest := text.dropWhile isSpace
  let negative : Bool := rest.head? = some '-'
  let rest := if rest.head? = some '-' ∨ rest.head? = some '+' then rest.tail else rest
  let whole := rest.takeWhile Char.isDigit
  let afterWhole := rest.dropWhile Char.isDigit
  let fraction :=
    if afterWhole.head? = some '.' then afterWhole.tail.takeWhile Char.isDigit else []
  if whole = [] ∧ fraction = [] then none
  else if digitsValue whole = 0 ∧ digitsValue fraction = 0 then some 0
  else
    let magnitude : ℚ := digitsValue whole + digitsValue fraction / 10 ^ fraction.length
    some (if negative then -magnitude else magnitude)

/-- Floating-point parsing that agrees with the library on texts in plain decimal
notation: the nearest double or float of the decimal value. -/
def plainDecimalParsing : FloatParsing where
  stod text :=
    match plainDecimalValue text with
    | none => Except.error StdException.invalid_argument
    | some value => Except.ok (toDouble value)
  stof text :=
    match plainDecimalValue text with
    | none => Except.error StdException.invalid_argument
    | some value => Except.ok (toFloat value)

/-- Example constants of the file format. -/
def exampleDefs : StatFileDefs where
  Version := "Version".toList
  NumberOfShots := "NumberOfShots".toList
  Attempts := "Attempts".toList
  ImpactLocations := "ImpactLocations".toList
  SupportedVersionNumbers := ["1.0".toList, "1.1".toList, "1.2".toList]

/-- A version-1.0 block: the separator line, seven counters, the last shots, five legacy
speed lines, three percentages and the peak shot number.  Three misses, no ball touch. -/
def exampleBlock : List (List Char) :=
  [ "----".toList,
    "Attempts\t3".toList,
    "Goals\t0".toList,
    "InitialHits\t0".toList,
    "GoalStreak\t0".toList,
    "MissStreak\t3".toList,
    "LongestGoalStreak\t0".toList,
    "LongestMissStreak\t3".toList,
    "Last50Shots\t000".toList,
    "LatestGoalSpeed\t0".toList,
    "MaxGoalSpeed\t0".toList,
    "MinGoalSpeed\t0".toList,
    "MedianGoalSpeed\t0".toList,
    "MeanGoalSpeed\t0".toList,
    "InitialHitPercentage\t0".toList,
    "SuccessPercentage\t0".toList,
    "PeakSuccessPercentage\t0".toList,
    "PeakShotNumber\t0".toList ]

/-- The line has the form `Tag<TAB>value` with a tag and a value that are not empty. -/
def HasKeyAndValue (line : List Char) : Prop :=
  (getLineValues line).1 ≠ [] ∧ (getLineValues line).2 ≠ []

instance (line : List Char) : Decidable (HasKeyAndValue line) := by
  unfold HasKeyAndValue; infer_instance

/-- The line holds the non-negative integer `n` as its value. -/
def IsIntLine (line : List Char) (n : Int) : Prop :=
  HasKeyAndValue line ∧ stoi (getLineValues line).2 = Except.ok n ∧ 0 ≤ n

instance (line : List Char) (n : Int) : Decidable (IsIntLine line n) := by
  unfold IsIntLine; infer_instance

/-- The line holds the non-negative floating-point number `v` as its value. -/
def IsDoubleLine (std : FloatParsing) (line : List Char) (v : ℚ) : Prop :=
  HasKeyAndValue line ∧ std.stod (getLineValues line).2 = Except.ok v ∧ 0 ≤ v

instance (std : FloatParsing) (line : List Char) (v : ℚ) :
    Decidable (IsDoubleLine std line v) := by
  unfold IsDoubleLine; infer_instance

/-- The line holds a negative integer as its value. -/
def IsNegativeIntLine (line : List Char) : Prop :=
  HasKeyAndValue line ∧ ∃ n : Int, stoi (getLineValues line).2 = Except.ok n ∧ n < 0

/-- The line holds a negative floating-point number as its value. -/
def IsNegativeDoubleLine (std : FloatParsing) (line : List Char) : Prop :=
  HasKeyAndValue line ∧ ∃ v : ℚ, std.stod (getLineValues line).2 = Except.ok v ∧ v < 0

/-- The line is one that the statement reads and goes on: any line where a line is only
skipped or decoded into the last shots, a non-negative number where a number is read. -/
def FieldReader.Accepts (std : FloatParsing) : FieldReader → List Char → Prop
  | FieldReader.skipLine, _ => True
  | FieldReader.last50Shots, _ => True
  | FieldReader.intField _, line => ∃ n : Int, IsIntLine line n
  | FieldReader.doubleField _, line => ∃ v : ℚ, IsDoubleLine std line v
  | FieldReader.floatField _, line => ∃ v : ℚ, IsDoubleLine std line v

/-- The statement reads a counter or a floating-point value and the line holds a negative
one. -/
def FieldReader.HoldsNegative (std : FloatParsing) : FieldReader → List Char → Prop
  | FieldReader.skipLine, _ => False
  | FieldReader.last50Shots, _ => False
  | FieldReader.intField _, line => IsNegativeIntLine line
  | FieldReader.doubleField _, line => IsNegativeDoubleLine std line
  | FieldReader.floatField _, line => IsNegativeDoubleLine std line

/-- What reads a line of a block: a statement of a block reader, or
`readVersion_1_2_additions`. -/
inductive LineReader where
  | field (reader : FieldReader)
  | impactLocations

/-- The readers of the lines of one block, in order, for a file whose version has the
given index among the supported versions: the separator line, the version-1.0 lines, from
the second version on the version-1.1 lines, from the third on the impact locations. -/
def blockLines (versionIndex : Int) : List LineReader :=
  (FieldReader.skipLine :: fields_1_0).map LineReader.field ++
    (if versionIndex > 0 then fields_1_1.map LineReader.field else []) ++
    (if versionIndex > 1 then [LineReader.impactLocations] else [])

/-- The readers of the lines that follow the two header lines of a file with
`numberOfShots` shots: the overall block and one block per shot. -/
def bodyLines (versionIndex : Int) (numberOfShots : Nat) : List LineReader :=
  (List.replicate (numberOfShots + 1) (blockLines versionIndex)).flatten

/-- The line is one that its reader reads and goes on; for the impact locations this
means that `readVersion_1_2_additions` succeeds on it. -/
def LineReader.Accepts (std : FloatParsing) (defs : StatFileDefs) :
    LineReader → List Char → Prop
  | LineReader.field reader, line => reader.Accepts std line
  | LineReader.impactLocations, line =>
      ∃ vectors : List Vector,
        readVersion_1_2_additions std defs { lines := [line], registered := [] } =
          Except.ok (some (), { lines := [], registered := vectors })

/-- The line is read as a counter or a floating-point value and holds a negative one. -/
def LineReader.HoldsNegative (std : FloatParsing) : LineReader → List Char → Prop
  | LineReader.field reader, line => reader.HoldsNegative std line
  | LineReader.impactLocations, _ => False

/-- The lines are accepted, one by one, by the first readers of the list. -/
def AcceptedPrefix (std : FloatParsing) (defs : StatFileDefs) (readers : List LineReader)
    (lines : List (List Char)) : Prop :=
  List.Forall₂ (LineReader.Accepts std defs) (readers.take lines.length) lines

/-- What the reader of a line does to the snapshot being filled. -/
def LineReader.run (std : FloatParsing) (defs : StatFileDefs) :
    LineReader → StatsData → Reader StatsData
  | LineReader.field reader, data => reader.run std data
  | LineReader.impactLocations, data => do
      readVersion_1_2_additions std defs
      pure data

/-- The readers of a list of lines, one after the other. -/
def runLines (std : FloatParsing) (defs : StatFileDefs) :
    List LineReader → StatsData → Reader StatsData
  | [], data => pure data
  | reader :: readers, data => do
      let data ← reader.run std defs data
      runLines std defs readers data

/-- The snapshot that a version-1.0 block holds: the lines are the separator, seven
counters, the last shots, five legacy speed lines, three percentages and the peak shot
number; the snapshot has the values of these lines, and every other member is at its
initial value. -/
def IsBlock_1_0 (std : FloatParsing) (lines : List (List Char)) (data : StatsData) : Prop :=
  lines.length = 18 ∧
  IsIntLine (lines.getD 1 []) data.Stats.Attempts ∧
  IsIntLine (lines.getD 2 []) data.Stats.Goals ∧
  IsIntLine (lines.getD 3 []) data.Stats.InitialHits ∧
  IsIntLine (lines.getD 4 []) data.Stats.GoalStreakCounter ∧
  IsIntLine (lines.getD 5 []) data.Stats.MissStreakCounter ∧
  IsIntLine (lines.getD 6 []) data.Stats.LongestGoalStreak ∧
  IsIntLine (lines.getD 7 []) data.Stats.LongestMissStreak ∧
  data.Stats.Last50Shots = (getLineValues (lines.getD 8 [])).2.map (fun c => c == '1') ∧
  IsDoubleLine std (lines.getD 14 []) data.Data.InitialHitPercentage ∧
  IsDoubleLine std (lines.getD 15 []) data.Data.SuccessPercentage ∧
  IsDoubleLine std (lines.getD 16 []) data.Data.PeakSuccessPercentage ∧
  IsIntLine (lines.getD 17 []) data.Data.PeakShotNumber ∧
  data.Stats.MaxAirDribbleTouches = 0 ∧ data.Stats.MaxAirDribbleTime = 0 ∧
  data.Stats.MaxGroundDribbleTime = 0 ∧ data.Stats.DoubleTapGoals = 0 ∧
  data.Stats.TotalFlipResets = 0 ∧ data.Stats.MaxFlipResets = 0 ∧
  data.Stats.FlipResetAttemptsScored = 0 ∧ data.Stats.CloseMisses = 0 ∧
  data.Data.DoubleTapGoalPercentage = 0 ∧ data.Data.AverageFlipResetsPerAttempt = 0 ∧
  data.Data.FlipResetGoalPercentage = 0 ∧ data.Data.CloseMissPercentage = 0

instance (std : FloatParsing) (lines : List (List Char)) (data : StatsData) :
    Decidable (IsBlock_1_0 std lines data) := by
  unfold IsBlock_1_0; infer_instance

/-- The snapshot that `exampleBlock` holds. -/
def exampleData : StatsData :=
  { Stats :=
      { Attempts := 3, MissStreakCounter := 3, LongestMissStreak := 3,
        Last50Shots := [false, false, false] } }

/-- Defects of a statistics file (its lines, the two header lines first) that `readStats`
answers with `return {}`: the file ends early, the version number is not a supported
one, `std::stoi` reads a shot count that is not positive, or, after blocks that are
complete, the file ends or a line holds a negative value that `std::stoi` or `std::stod`
reads where a counter or a floating-point value is stored, this line being the first one
that its reader does not accept.  A value that these functions do not read, such as an
integer below the range of `int`, is not among these defects: it makes them throw. -/
inductive Defect (std : FloatParsing) (defs : StatFileDefs) : List (List Char) → Prop where
  | endsBeforeVersion : Defect std defs []
  | unsupportedVersion (versionLine : List Char) (rest : List (List Char))
      (h : indexInVector defs.SupportedVersionNumbers (getLineValues versionLine).2 < 0) :
      Defect std defs (versionLine :: rest)
  | endsBeforeShotCount (versionLine : List Char) : Defect std defs [versionLine]
  | noShots (versionLine shotCountLine : List Char) (rest : List (List Char))
      (numberOfShots : Int)
      (hn : stoi (getLineValues shotCountLine).2 = Except.ok numberOfShots)
      (h : numberOfShots ≤ 0) :
      Defect std defs (versionLine :: shotCountLine :: rest)
  | brokenBlock (versionLine shotCountLine : List Char) (numberOfShots : Int)
      (complete : List (List (List Char))) (reader : LineReader)
      (good rest : List (List Char))
      (hn : stoi (getLineValues shotCountLine).2 = Except.ok numberOfShots)
      (hcomplete : (complete.length : Int) ≤ numberOfShots)
      (hblocks : ∀ block ∈ complete,
        List.Forall₂ (LineReader.Accepts std defs)
          (blockLines (indexInVector defs.SupportedVersionNumbers
            (getLineValues versionLine).2)) block)
      (hgood : AcceptedPrefix std defs
        (blockLines (indexInVector defs.SupportedVersionNumbers
          (getLineValues versionLine).2)) good)
      (hreader : (blockLines (indexInVector defs.SupportedVersionNumbers
        (getLineValues versionLine).2))[good.length]? = some reader)
      (hrest : rest = [] ∨
        ∃ bad tail, rest = bad :: tail ∧ reader.HoldsNegative std bad) :
      Defect std defs (versionLine :: shotCountLine :: (complete.flatten ++ (good ++ rest)))

/-- The statement of a block reader stores into a member other than `Stats.Attempts`. -/
def FieldReader.KeepsAttempts : FieldReader → Prop
  | FieldReader.skipLine => True
  | FieldReader.last50Shots => True
  | FieldReader.intField store =>
      ∀ (d : StatsData) (v : Int), (store d v).Stats.Attempts = d.Stats.Attempts
  | FieldReader.doubleField store =>
      ∀ (d : StatsData) (v : ℚ), (store d v).Stats.Attempts = d.Stats.Attempts
  | FieldReader.floatField store =>
      ∀ (d : StatsData) (v : ℚ), (store d v).Stats.Attempts = d.Stats.Attempts

/-- The reader of the line leaves `Stats.Attempts` of the snapshot alone. -/
def LineReader.KeepsAttempts : LineReader → Prop
  | LineReader.field reader => reader.KeepsAttempts
  | LineReader.impactLocations => True

/-- A version-1.0 file whose attempts line holds a text that is not a number. -/
def unparseableAttemptsFile : List (List Char) :=
  ["Version\t1.0".toList, "NumberOfShots\t1".toList, "----".toList, "Attempts\tabc".toList,
    "Goals\t0".toList]

/-- What a reader does in a state, given what it does on an empty file with nothing
registered: the same outcome, the lines untouched and the new registrations appended. -/
def Reader.framed {α : Type} (outcome : Except StdException (Option α × ReaderState))
    (lines : List (List Char)) (reg : List Vector) :
    Except StdException (Option α × ReaderState) :=
  match outcome with
  | Except.error e => Except.error e
  | Except.ok (o, s) => Except.ok (o, { lines := lines, registered := reg ++ s.registered })


/-- The second line is the first with another label: the values are the same, both lines
or neither are empty, both labels or neither are empty, and both labels or neither are
the shot-count tag and the impact-locations tag, the two tags that `readStats` compares. -/
def SameButLabel (defs : StatFileDefs) (line other : List Char) : Prop :=
  (getLineValues line).2 = (getLineValues other).2 ∧
  (line = [] ↔ other = []) ∧
  ((getLineValues line).1 = [] ↔ (getLineValues other).1 = []) ∧
  ((getLineValues line).1 = defs.NumberOfShots ↔
    (getLineValues other).1 = defs.NumberOfShots) ∧
  ((getLineValues line).1 = defs.ImpactLocations ↔
    (getLineValues other).1 = defs.ImpactLocations)

instance (defs : StatFileDefs) (line other : List Char) :
    Decidable (SameButLabel defs line other) := by
  unfold SameButLabel; infer_instance

/-- Two states of the reader whose lines are the same but for their labels. -/
def ReaderState.Alike (defs : StatFileDefs) (s t : ReaderState) : Prop :=
  List.Forall₂ (SameButLabel defs) s.lines t.lines ∧ s.registered = t.registered

/-- Two outcomes of a reader of the same kind, with related values and alike states. -/
def Reader.AlikeOutcome {α β : Type} (defs : StatFileDefs) (R : α → β → Prop) :
    Except StdException (Option α × ReaderState) →
    Except StdException (Option β × ReaderState) → Prop
  | Except.ok (some a, s), Except.ok (some b, t) => R a b ∧ s.Alike defs t
  | Except.ok (none, s), Except.ok (none, t) => s.Alike defs t
  | Except.error e, Except.error f => e = f
  | _, _ => False

/-- Two readers that from alike states reach alike outcomes. -/
def Reader.Alike {α β : Type} (defs : StatFileDefs) (R : α → β → Prop)
    (r : Reader α) (q : Reader β) : Prop :=
  ∀ s t : ReaderState, s.Alike defs t → Reader.AlikeOutcome defs R (r s) (q t)

/-- The texts of the three components of one vector of an impact-locations line. -/
structure VectorText where
  X : List Char
  Y : List Char
  Z : List Char

/-- The text of one vector: `x,y,z|`. -/
def VectorText.chars (text : VectorText) : List Char :=
  text.X ++ ',' :: (text.Y ++ ',' :: (text.Z ++ ['|']))

/-- The line `ImpactLocations<TAB>count|x1,y1,z1|...|xn,yn,zn|`. -/
def impactLocationsLine (defs : StatFileDefs) (countText : List Char)
    (texts : List VectorText) : List Char :=
  defs.ImpactLocations ++ '\t' :: (countText ++ '|' :: (texts.map VectorText.chars).flatten)

/-- The text holds no separator and `std::stof` reads the value from it wherever it stands
before a separator: whatever follows the separator is ignored. -/
def IsComponent (std : FloatParsing) (separator : Char) (text : List Char) (value : ℚ) :
    Prop :=
  separator ∉ text ∧
  ∀ tail : List Char, std.stof (text ++ separator :: tail) = Except.ok value

/-- The three texts of a vector are read as the components of the vector. -/
def IsVectorText (std : FloatParsing) (text : VectorText) (vector : Vector) : Prop :=
  IsComponent std ',' text.X vector.X ∧ IsComponent std ',' text.Y vector.Y ∧
    IsComponent std '|' text.Z vector.Z

/-- The version-1.1 lines of a block, all values 0. -/
def exampleAdditions_1_1 : List (List Char) :=
  [ "MaxAirDribbleTouches\t0".toList,
    "MaxAirDribbleTime\t0".toList,
    "MaxGroundDribbleTime\t0".toList,
    "DoubleTapGoals\t0".toList,
    "DoubleTapGoalPercentage\t0".toList,
    "MaxFlipResets\t0".toList,
    "TotalFlipResets\t0".toList,
    "AverageFlipResetsPerAttempt\t0".toList,
    "FlipResetGoalPercentage\t0".toList,
    "CloseMisses\t0".toList,
    "CloseMissPercentage\t0".toList ]

/-- A version-1.2 file for one shot that ends after its overall block, which is complete
and holds one impact location. -/
def truncatedImpactFile : List (List Char) :=
  "Version\t1.2".toList :: "NumberOfShots\t1".toList ::
    ((exampleBlock ++ exampleAdditions_1_1) ++ ["ImpactLocations\t1|1,2,3|".toList])

/-! ## File discovery (`StatFileReader::getAvailableResourcePaths`)

The file system is outside the program.  A folder is described by what
`std::filesystem` answers: whether the folder exists, the entries that a
`directory_iterator` delivers, in its order, and the position, if any, at which the
iteration throws a `filesystem_error`.  A path is the text that `u8string()` returns;
texts are compared as `std::string` compares them, character by character, a proper
beginning of a text being less than the text. -/

/-- An entry of a directory: the path and the answer of `is_regular_file()`. -/
structure DirectoryEntry where
  path : List Char
  isRegularFile : Bool

/-- The folder of a training pack as `std::filesystem` presents it. -/
structure ResourceFolder where
  /-- The answer of `std::filesystem::exists(folderPath)`. -/
  folderExists : Bool
  /-- What the iteration over the folder delivers when nothing fails. -/
  entries : List DirectoryEntry
  /-- The number of entries after which the iteration throws, if it does. -/
  failsAfter : Option Nat

/-- The entries that the loop body of lines 41-47 runs on before the loop ends, normally or
through the `catch` of lines 49-52. -/
def ResourceFolder.visited (folder : ResourceFolder) : List DirectoryEntry :=
  match folder.failsAfter with
  | none => folder.entries
  | some count => folder.entries.take count

/-- The call `std::sort(filePaths.begin(), filePaths.end(), std::greater<>())`.  Equal
texts cannot be told apart, so every sorting algorithm gives the same result; sorting by
insertion stands for the algorithm of the library. -/
def sortDescending (filePaths : List (List Char)) : List (List Char) :=
  filePaths.insertionSort (fun a b => a ≥ b)

/-- `StatFileReader::getAvailableResourcePaths` (lines 29-58): the paths of the regular
files among the visited entries, sorted; what was collected before a `filesystem_error`
stays in the vector. -/
def getAvailableResourcePaths (folder : ResourceFolder) : List (List Char) :=
  let filePaths : List (List Char) :=
    if folder.folderExists then
      (folder.visited.filter (fun entry => entry.isRegularFile)).map (fun entry => entry.path)
    else []
  sortDescending filePaths

/-- A folder with two statistics files and a sub-folder. -/
def exampleFolder : ResourceFolder :=
  { folderExists := true
    entries :=
      [ { path := "A1B2/2023-01-05.txt".toList, isRegularFile := true },
        { path := "A1B2/backup".toList, isRegularFile := false },
        { path := "A1B2/2023-02-11.txt".toList, isRegularFile := true } ]
    failsAfter := none }

/-! ## Differences of two statistics (`PlayerStats.h`) -/

/-- `PlayerStats::getDifferences` (lines 66-82).  The result starts as a default-constructed
`PlayerStats`; a difference of two `float` members is rounded to `float`.  The assignment
of `GoalSpeedDifference` is left out with the goal-speed members. -/
def PlayerStats.getDifferences (self other : PlayerStats) : PlayerStats :=
  let diff : PlayerStats := {}
  let diff := { diff with Goals := self.Goals - other.Goals }
  let diff := { diff with LongestGoalStreak := self.LongestGoalStreak - other.LongestGoalStreak }
  let diff := { diff with LongestMissStreak := other.LongestMissStreak - self.LongestMissStreak }
  let diff := { diff with InitialHits := self.InitialHits - other.InitialHits }
  let diff := { diff with
    MaxAirDribbleTouches := self.MaxAirDribbleTouches - other.MaxAirDribbleTouches }
  let diff := { diff with
    MaxAirDribbleTime := toFloat (self.MaxAirDribbleTime - other.MaxAirDribbleTime) }
  let diff := { diff with
    MaxGroundDribbleTime := toFloat (self.MaxGroundDribbleTime - other.MaxGroundDribbleTime) }
  let diff := { diff with DoubleTapGoals := self.DoubleTapGoals - other.DoubleTapGoals }
  let diff := { diff with TotalFlipResets := self.TotalFlipResets - other.TotalFlipResets }
  let diff := { diff with MaxFlipResets := self.MaxFlipResets - other.MaxFlipResets }
  { diff with
    FlipResetAttemptsScored := self.FlipResetAttemptsScored - other.FlipResetAttemptsScored }

/-- The `int` members of a `PlayerStats`, in the order of their declaration. -/
def PlayerStats.intMembers (stats : PlayerStats) : List Int :=
  [stats.Attempts, stats.Goals, stats.GoalStreakCounter, stats.MissStreakCounter,
    stats.LongestGoalStreak, stats.LongestMissStreak, stats.InitialHits,
    stats.MaxAirDribbleTouches, stats.DoubleTapGoals, stats.TotalFlipResets,
    stats.MaxFlipResets, stats.FlipResetAttemptsScored, stats.CloseMisses]

/-- Every `int` member is a count: not negative and within the range of a 32-bit `int`. -/
def PlayerStats.HoldsCounts (stats : PlayerStats) : Prop :=
  ∀ member ∈ stats.intMembers, 0 ≤ member ∧ member < 2 ^ 31

/-- Statistics of a session: 12 attempts, 7 goals. -/
def examplePlayerStats : PlayerStats :=
  { Attempts := 12, Goals := 7, Last50Shots := [true, false], GoalStreakCounter := 2,
    LongestGoalStreak := 4, LongestMissStreak := 3, InitialHits := 10, CloseMisses := 1 }

/-- Statistics of another session: 9 attempts, 8 goals. -/
def otherPlayerStats : PlayerStats :=
  { Attempts := 9, Goals := 8, MissStreakCounter := 1, LongestGoalStreak := 5,
    LongestMissStreak := 1, InitialHits := 9, MaxFlipResets := 2, TotalFlipResets := 3 }

/-! ### The game events hooked in `onLoad` -/

/-- The game events that `GoalPercentageCounter::onLoad` hooks for the statistics: a goal,
a car spawn, and the initialisation of a training pack. -/
inductive HookedEvent where
  | OnHitGoal
  | AddCar
  | OnInit
  deriving DecidableEq, Repr

/-- The handler that `onLoad` registers for the event (lines 20, 29 and 47);
`inCustomTraining` is the answer of `gameWrapper->IsInCustomTraining()` when the event
arrives, which the handler of `OnInit` does not ask for. -/
def GoalPercentageCounter.onHookedEvent (c : GoalPercentageCounter) (inCustomTraining : Bool) :
    HookedEvent → GoalPercentageCounter
  | HookedEvent.OnHitGoal => c.onHitGoal inCustomTraining
  | HookedEvent.AddCar => c.onAddCar inCustomTraining
  | HookedEvent.OnInit => c.onInit

/-! ### Properties of the calls made on the stat updater -/

/-- Every `processGoal` and every `processMiss` of the trace is immediately followed by
`updateData`. -/
def OutcomesAreUpdated (calls : List StatUpdaterCall) : Prop :=
  ∀ (i : Nat) (call : StatUpdaterCall), calls[i]? = some call →
    call = StatUpdaterCall.processGoal ∨ call = StatUpdaterCall.processMiss →
    calls[i + 1]? = some StatUpdaterCall.updateData

/-- At every point of the trace, the `processGoal` and `processMiss` calls made so far are
not more than the `processAttempt` calls made so far. -/
def OutcomesAreBounded (calls : List StatUpdaterCall) : Prop :=
  ∀ emitted : List StatUpdaterCall, emitted <+: calls →
    emitted.count StatUpdaterCall.processGoal + emitted.count StatUpdaterCall.processMiss ≤
      emitted.count StatUpdaterCall.processAttempt

/-- The two properties of the trace of a state machine, and room for one more outcome
while an attempt is in progress. -/
def CustomTrainingStateMachine.TraceInvariant (m : CustomTrainingStateMachine) : Prop :=
  OutcomesAreUpdated m._statUpdater ∧ OutcomesAreBounded m._statUpdater ∧
  (m._currentState = CustomTrainingState.AttemptInProgress →
    m._statUpdater.count StatUpdaterCall.processGoal +
        m._statUpdater.count StatUpdaterCall.processMiss + 1 ≤
      m._statUpdater.count StatUpdaterCall.processAttempt)

/-- The text is a negative integer below the range of a 32-bit `int`: a minus sign
followed by decimal digits whose value exceeds `2^31`. -/
def IsIntBelowRange (text : List Char) : Prop :=
  text.head? = some '-' ∧ text.tail ≠ [] ∧ (∀ c ∈ text.tail, c.isDigit = true) ∧
    2147483648 < digitsValue text.tail

instance (text : List Char) : Decidable (IsIntBelowRange text) := by
  unfold IsIntBelowRange; infer_instance

/-- A version-1.0 file for one shot whose overall block holds the goal counter
`-2147483649`, one below the least `int`. -/
def belowRangeGoalsFile : List (List Char) :=
  ["Version\t1.0".toList, "NumberOfShots\t1".toList, "----".toList, "Attempts\t3".toList,
    "Goals\t-2147483649".toList, "InitialHits\t0".toList]

/-! ## Normal forms of the counter operations -/

namespace GoalPercentageCounter

theorem storeSuccessPercentage_eq (c : GoalPercentageCounter) (p : ℚ) :
    c.storeSuccessPercentage p =
      { c with _stats := { c._stats with
          SuccessPercentage := p
          PeakSuccessPercentage := max c._stats.PeakSuccessPercentage p } } := by
  unfold storeSuccessPercentage
  by_cases h : p > c._stats.PeakSuccessPercentage
  · simp [h, max_eq_right (le_of_lt h)]
  · simp [h, max_eq_left (not_lt.mp h)]

theorem handleGoal_eq (c : GoalPercentageCounter) :
    c.handleGoal =
      { c with _stats := { c._stats with
          MissStreakCounter := 0
          GoalStreakCounter := c._stats.GoalStreakCounter + 1
          Goals := c._stats.Goals + 1
          IgnoreNextShotReset := true
          LongestGoalStreak :=
            max c._stats.LongestGoalStreak (c._stats.GoalStreakCounter + 1) } } := by
  unfold handleGoal
  by_cases h : c._stats.GoalStreakCounter + 1 > c._stats.LongestGoalStreak
  · simp [h, max_eq_right (le_of_lt h)]
  · simp [h, max_eq_left (not_lt.mp h)]

theorem handleShotReset_firstSpawn (c : GoalPercentageCounter) (h : c._isFirstSpawn = true) :
    c.handleShotReset = { c with _isFirstSpawn := false } := by
  simp [handleShotReset, h]

theorem handleShotReset_latched (c : GoalPercentageCounter) (h : c._isFirstSpawn = false)
    (hl : c._stats.IgnoreNextShotReset = true) :
    c.handleShotReset =
      { c with _stats := { c._stats with
          Attempts := c._stats.Attempts + 1
          IgnoreNextShotReset := false } } := by
  simp [handleShotReset, h, hl]

theorem handleShotReset_miss (c : GoalPercentageCounter) (h : c._isFirstSpawn = false)
    (hl : c._stats.IgnoreNextShotReset = false) :
    c.handleShotReset =
      { c with _stats := { c._stats with
          Attempts := c._stats.Attempts + 1
          MissStreakCounter := c._stats.MissStreakCounter + 1
          GoalStreakCounter := 0
          LongestMissStreak :=
            max c._stats.LongestMissStreak (c._stats.MissStreakCounter + 1) } } := by
  unfold handleShotReset
  by_cases h2 : c._stats.MissStreakCounter + 1 > c._stats.LongestMissStreak
  · simp [h, hl, h2, max_eq_right (le_of_lt h2)]
  · simp [h, hl, h2, max_eq_left (not_lt.mp h2)]

theorem update_goal_eq (c : GoalPercentageCounter) :
    c.update true false =
      c.handleGoal.storeSuccessPercentage (computeSuccessPercentage c.handleGoal._stats) := by
  simp [update, recalculateStats]

theorem update_shotReset_eq (c : GoalPercentageCounter) :
    c.update false false =
      c.handleShotReset.storeSuccessPercentage
        (computeSuccessPercentage c.handleShotReset._stats) := by
  simp [update, recalculateStats]

theorem update_statReset_eq (c : GoalPercentageCounter) (isGoal : Bool) :
    c.update isGoal true = c.storeSuccessPercentage 0 := by
  simp [update]

/-- The goal event, field by field. -/
theorem update_goal_fields (c : GoalPercentageCounter) :
    (c.update true false)._stats.Attempts = c._stats.Attempts ∧
    (c.update true false)._stats.Goals = c._stats.Goals + 1 ∧
    (c.update true false)._stats.GoalStreakCounter = c._stats.GoalStreakCounter + 1 ∧
    (c.update true false)._stats.MissStreakCounter = 0 ∧
    (c.update true false)._stats.LongestGoalStreak =
      max c._stats.LongestGoalStreak (c._stats.GoalStreakCounter + 1) ∧
    (c.update true false)._stats.LongestMissStreak = c._stats.LongestMissStreak ∧
    (c.update true false)._stats.IgnoreNextShotReset = true ∧
    (c.update true false)._isFirstSpawn = c._isFirstSpawn := by
  simp [update_goal_eq, storeSuccessPercentage_eq, handleGoal_eq]

/-- The shot reset that consumes the first spawn, field by field. -/
theorem update_shotReset_firstSpawn_fields (c : GoalPercentageCounter)
    (h : c._isFirstSpawn = true) :
    (c.update false false)._stats.Attempts = c._stats.Attempts ∧
    (c.update false false)._stats.Goals = c._stats.Goals ∧
    (c.update false false)._stats.GoalStreakCounter = c._stats.GoalStreakCounter ∧
    (c.update false false)._stats.MissStreakCounter = c._stats.MissStreakCounter ∧
    (c.update false false)._stats.LongestGoalStreak = c._stats.LongestGoalStreak ∧
    (c.update false false)._stats.LongestMissStreak = c._stats.LongestMissStreak ∧
    (c.update false false)._stats.IgnoreNextShotReset = c._stats.IgnoreNextShotReset ∧
    (c.update false false)._isFirstSpawn = false := by
  simp [update_shotReset_eq, storeSuccessPercentage_eq, handleShotReset_firstSpawn c h]

/-- The shot reset right after a goal, field by field. -/
theorem update_shotReset_latched_fields (c : GoalPercentageCounter)
    (h : c._isFirstSpawn = false) (hl : c._stats.IgnoreNextShotReset = true) :
    (c.update false false)._stats.Attempts = c._stats.Attempts + 1 ∧
    (c.update false false)._stats.Goals = c._stats.Goals ∧
    (c.update false false)._stats.GoalStreakCounter = c._stats.GoalStreakCounter ∧
    (c.update false false)._stats.MissStreakCounter = c._stats.MissStreakCounter ∧
    (c.update false false)._stats.LongestGoalStreak = c._stats.LongestGoalStreak ∧
    (c.update false false)._stats.LongestMissStreak = c._stats.LongestMissStreak ∧
    (c.update false false)._stats.IgnoreNextShotReset = false ∧
    (c.update false false)._isFirstSpawn = false := by
  simp [update_shotReset_eq, storeSuccessPercentage_eq, handleShotReset_latched c h hl, h]

/-- The shot reset that counts as a miss, field by field. -/
theorem update_shotReset_miss_fields (c : GoalPercentageCounter)
    (h : c._isFirstSpawn = false) (hl : c._stats.IgnoreNextShotReset = false) :
    (c.update false false)._stats.Attempts = c._stats.Attempts + 1 ∧
    (c.update false false)._stats.Goals = c._stats.Goals ∧
    (c.update false false)._stats.GoalStreakCounter = 0 ∧
    (c.update false false)._stats.MissStreakCounter = c._stats.MissStreakCounter + 1 ∧
    (c.update false false)._stats.LongestGoalStreak = c._stats.LongestGoalStreak ∧
    (c.update false false)._stats.LongestMissStreak =
      max c._stats.LongestMissStreak (c._stats.MissStreakCounter + 1) ∧
    (c.update false false)._stats.IgnoreNextShotReset = false ∧
    (c.update false false)._isFirstSpawn = false := by
  simp [update_shotReset_eq, storeSuccessPercentage_eq, handleShotReset_miss c h hl, h, hl]

/-- The state the `OnInit` handler leaves when the plugin is enabled. -/
theorem onInit_enabled (c : GoalPercentageCounter) (h : c._enabled = true) :
    c.onInit =
      { c with
        _stats :=
          { Attempts := 0, Goals := 0, GoalStreakCounter := 0, MissStreakCounter := 0,
            LongestGoalStreak := 0, LongestMissStreak := 0, IgnoreNextShotReset := false,
            SuccessPercentage := 0, PeakSuccessPercentage := 0 }
        _isFirstSpawn := true } := by
  simp [onInit, h, update_statReset_eq, storeSuccessPercentage_eq, reset]

end GoalPercentageCounter

open GoalPercentageCounter

/-- The counter after a pack load and the consumed initial spawn: every counter is zero,
the latch and the first-spawn flag are clear. -/
theorem afterPackLoadAndSpawn_fields (c : GoalPercentageCounter) (h : c._enabled = true) :
    (afterPackLoadAndSpawn c)._stats.Attempts = 0 ∧
    (afterPackLoadAndSpawn c)._stats.Goals = 0 ∧
    (afterPackLoadAndSpawn c)._stats.GoalStreakCounter = 0 ∧
    (afterPackLoadAndSpawn c)._stats.MissStreakCounter = 0 ∧
    (afterPackLoadAndSpawn c)._stats.LongestGoalStreak = 0 ∧
    (afterPackLoadAndSpawn c)._stats.LongestMissStreak = 0 ∧
    (afterPackLoadAndSpawn c)._stats.IgnoreNextShotReset = false ∧
    (afterPackLoadAndSpawn c)._isFirstSpawn = false := by
  have h1 := update_shotReset_firstSpawn_fields c.onInit (by simp [onInit_enabled c h])
  simpa [afterPackLoadAndSpawn, onInit_enabled c h] using h1

/-- One attempt from a state with latch and first-spawn flag clear. -/
theorem playAttempt_fields (c : GoalPercentageCounter) (isGoal : Bool)
    (h : c._isFirstSpawn = false) (hl : c._stats.IgnoreNextShotReset = false) :
    (playAttempt c isGoal)._stats.Attempts = c._stats.Attempts + 1 ∧
    (playAttempt c isGoal)._stats.Goals = c._stats.Goals + (if isGoal then 1 else 0) ∧
    (playAttempt c isGoal)._stats.GoalStreakCounter =
      (if isGoal then c._stats.GoalStreakCounter + 1 else 0) ∧
    (playAttempt c isGoal)._stats.MissStreakCounter =
      (if isGoal then 0 else c._stats.MissStreakCounter + 1) ∧
    (playAttempt c isGoal)._stats.LongestGoalStreak =
      (if isGoal then max c._stats.LongestGoalStreak (c._stats.GoalStreakCounter + 1)
        else c._stats.LongestGoalStreak) ∧
    (playAttempt c isGoal)._stats.LongestMissStreak =
      (if isGoal then c._stats.LongestMissStreak
        else max c._stats.LongestMissStreak (c._stats.MissStreakCounter + 1)) ∧
    (playAttempt c isGoal)._stats.IgnoreNextShotReset = false ∧
    (playAttempt c isGoal)._isFirstSpawn = false := by
  cases isGoal with
  | false =>
    simpa [playAttempt] using update_shotReset_miss_fields c h hl
  | true =>
    obtain ⟨g1, g2, g3, g4, g5, g6, g7, g8⟩ := update_goal_fields c
    have h2 := update_shotReset_latched_fields (c.update true false) (by rw [g8, h]) g7
    simp only [playAttempt, if_true]
    rw [g1, g2, g3, g4, g5, g6] at h2
    simpa using h2

/-- The reset of the statistics, field by field. -/
theorem statReset_fields (c : GoalPercentageCounter) :
    (c.reset.update false true)._stats.Attempts = 0 ∧
    (c.reset.update false true)._stats.Goals = 0 ∧
    (c.reset.update false true)._stats.GoalStreakCounter = 0 ∧
    (c.reset.update false true)._stats.MissStreakCounter = 0 ∧
    (c.reset.update false true)._stats.LongestGoalStreak = 0 ∧
    (c.reset.update false true)._stats.LongestMissStreak = 0 ∧
    (c.reset.update false true)._stats.IgnoreNextShotReset = false ∧
    (c.reset.update false true)._isFirstSpawn = c._isFirstSpawn := by
  simp [update_statReset_eq, storeSuccessPercentage_eq, reset]

/-- The bound that every event keeps, provided goals arrive unlatched: `Goals` exceeds
`Attempts` by at most one, and only while the latch is set. -/
theorem goals_bound_step (c : GoalPercentageCounter) (e : CounterEvent)
    (he : e = CounterEvent.goal → c._stats.IgnoreNextShotReset = false)
    (hc : c._stats.Goals ≤ c._stats.Attempts + (if c._stats.IgnoreNextShotReset then 1 else 0)) :
    (applyCounterEvent c e)._stats.Goals ≤ (applyCounterEvent c e)._stats.Attempts +
      (if (applyCounterEvent c e)._stats.IgnoreNextShotReset then 1 else 0) := by
  cases e with
  | goal =>
    obtain ⟨g1, g2, -, -, -, -, g7, -⟩ := update_goal_fields c
    have hl := he rfl
    simp only [applyCounterEvent, g1, g2, g7]
    simp only [hl] at hc
    simp at hc ⊢
    exact hc
  | shotReset =>
    simp only [applyCounterEvent]
    cases hf : c._isFirstSpawn with
    | true =>
      obtain ⟨r1, r2, -, -, -, -, r7, -⟩ := update_shotReset_firstSpawn_fields c hf
      simp only [r1, r2, r7]; exact hc
    | false =>
      cases hl : c._stats.IgnoreNextShotReset with
      | true =>
        obtain ⟨r1, r2, -, -, -, -, r7, -⟩ := update_shotReset_latched_fields c hf hl
        simp only [r1, r2, r7]
        simp only [hl] at hc
        simp at hc ⊢
        exact hc
      | false =>
        obtain ⟨r1, r2, -, -, -, -, r7, -⟩ := update_shotReset_miss_fields c hf hl
        simp only [r1, r2, r7]
        simp only [hl] at hc
        simp at hc ⊢
        omega
  | statReset =>
    obtain ⟨r1, r2, -, -, -, -, r7, -⟩ := statReset_fields c
    simp only [applyCounterEvent, r1, r2, r7]
    simp

/-- The bound of `goals_bound_step` along a sequence of events. -/
theorem goals_bound_run (events : List CounterEvent) (c : GoalPercentageCounter)
    (hw : goalsArriveUnlatched c events = true)
    (hc : c._stats.Goals ≤ c._stats.Attempts + (if c._stats.IgnoreNextShotReset then 1 else 0)) :
    (applyCounterEvents c events)._stats.Goals ≤ (applyCounterEvents c events)._stats.Attempts +
      (if (applyCounterEvents c events)._stats.IgnoreNextShotReset then 1 else 0) := by
  induction events generalizing c with
  | nil => simpa [applyCounterEvents] using hc
  | cons e events ih =>
    simp only [goalsArriveUnlatched, Bool.and_eq_true, Bool.or_eq_true, bne_iff_ne, ne_eq,
      Bool.not_eq_true'] at hw
    have he : e = CounterEvent.goal → c._stats.IgnoreNextShotReset = false := by
      intro h
      rcases hw.1 with h1 | h1
      · exact absurd h h1
      · exact h1
    exact ih (applyCounterEvent c e) hw.2 (goals_bound_step c e he hc)

/-! ## Runs of equal outcomes -/

theorem replicate_suffix_concat (b a : Bool) (p : List Bool) (k : Nat) :
    List.replicate k b <:+ p ++ [a] ↔
      k = 0 ∨ (a = b ∧ ∃ j, k = j + 1 ∧ List.replicate j b <:+ p) := by
  rw [List.suffix_concat_iff]
  constructor
  · rintro (h | ⟨t, ht, hs⟩)
    · left
      cases k with
      | zero => rfl
      | succ k => simp [List.replicate_succ] at h
    · cases k with
      | zero => left; rfl
      | succ k =>
        right
        rw [List.replicate_succ'] at ht
        have hlen : (List.replicate k b).length = t.length := by
          have := congrArg List.length ht
          simpa using this
        obtain ⟨h1, h2⟩ := List.append_inj ht hlen
        refine ⟨?_, k, rfl, ?_⟩
        · simpa using h2.symm
        · rw [h1]; exact hs
  · rintro (h | ⟨hab, j, hk, hs⟩)
    · left; subst h; rfl
    · right
      refine ⟨List.replicate j b, ?_, hs⟩
      rw [hk, List.replicate_succ', hab]

theorem isTrailingRun_nil (b : Bool) : IsTrailingRun b [] 0 := by
  refine ⟨by simp, ?_⟩
  intro k hk
  have := List.eq_nil_of_suffix_nil hk
  cases k with
  | zero => exact le_rfl
  | succ k => simp [List.replicate_succ] at this

theorem isLongestRun_nil (b : Bool) : IsLongestRun b [] 0 := by
  refine ⟨by simp, ?_⟩
  intro k hk
  have := List.eq_nil_of_infix_nil hk
  cases k with
  | zero => exact le_rfl
  | succ k => simp [List.replicate_succ] at this

theorem isTrailingRun_concat_same (b : Bool) (p : List Bool) (g : Nat)
    (h : IsTrailingRun b p g) : IsTrailingRun b (p ++ [b]) (g + 1) := by
  constructor
  · exact (replicate_suffix_concat b b p (g + 1)).mpr (Or.inr ⟨rfl, g, rfl, h.1⟩)
  · intro k hk
    rcases (replicate_suffix_concat b b p k).mp hk with h0 | ⟨-, j, hj, hs⟩
    · omega
    · have := h.2 j hs
      omega

theorem isTrailingRun_concat_other (b a : Bool) (p : List Bool) (hab : a ≠ b) :
    IsTrailingRun b (p ++ [a]) 0 := by
  constructor
  · simp
  · intro k hk
    rcases (replicate_suffix_concat b a p k).mp hk with h0 | ⟨h1, -⟩
    · omega
    · exact absurd h1 hab

theorem isLongestRun_concat_same (b : Bool) (p : List Bool) (G g : Nat)
    (hG : IsLongestRun b p G) (hg : IsTrailingRun b p g) :
    IsLongestRun b (p ++ [b]) (max G (g + 1)) := by
  constructor
  · rcases le_total G (g + 1) with h | h
    · rw [max_eq_right h]
      exact (isTrailingRun_concat_same b p g hg).1.isInfix
    · rw [max_eq_left h]
      exact hG.1.trans (List.infix_append' [] p [b])
  · intro k hk
    rcases List.infix_concat_iff.mp hk with hs | hi
    · have := (isTrailingRun_concat_same b p g hg).2 k hs
      exact le_trans this (le_max_right _ _)
    · exact le_trans (hG.2 k hi) (le_max_left _ _)

theorem isLongestRun_concat_other (b a : Bool) (p : List Bool) (G : Nat) (hab : a ≠ b)
    (hG : IsLongestRun b p G) : IsLongestRun b (p ++ [a]) G := by
  constructor
  · exact hG.1.trans (List.infix_append' [] p [a])
  · intro k hk
    rcases List.infix_concat_iff.mp hk with hs | hi
    · have := (isTrailingRun_concat_other b a p hab).2 k hs
      omega
    · exact hG.2 k hi

theorem isLongestRun_mono (b : Bool) (p l : List Bool) (m n : Nat) (hp : p <+: l)
    (hm : IsLongestRun b p m) (hn : IsLongestRun b l n) : m ≤ n :=
  hn.2 m (hm.1.trans hp.isInfix)

/-- One attempt at handler level, from a state with latch and first-spawn flag clear. -/
theorem handleAttempt_fields (c : GoalPercentageCounter) (isGoal : Bool)
    (h : c._isFirstSpawn = false) (hl : c._stats.IgnoreNextShotReset = false) :
    (handleAttempt c isGoal)._stats.GoalStreakCounter =
      (if isGoal then c._stats.GoalStreakCounter + 1 else 0) ∧
    (handleAttempt c isGoal)._stats.MissStreakCounter =
      (if isGoal then 0 else c._stats.MissStreakCounter + 1) ∧
    (handleAttempt c isGoal)._stats.LongestGoalStreak =
      (if isGoal then max c._stats.LongestGoalStreak (c._stats.GoalStreakCounter + 1)
        else c._stats.LongestGoalStreak) ∧
    (handleAttempt c isGoal)._stats.LongestMissStreak =
      (if isGoal then c._stats.LongestMissStreak
        else max c._stats.LongestMissStreak (c._stats.MissStreakCounter + 1)) ∧
    (handleAttempt c isGoal)._stats.IgnoreNextShotReset = false ∧
    (handleAttempt c isGoal)._isFirstSpawn = false := by
  cases isGoal with
  | false =>
    simp [handleAttempt, handleShotReset_miss c h hl, h, hl]
  | true =>
    have e : c.handleGoal.handleShotReset =
        { c.handleGoal with _stats := { c.handleGoal._stats with
            Attempts := c.handleGoal._stats.Attempts + 1
            IgnoreNextShotReset := false } } :=
      handleShotReset_latched _ (by simp [handleGoal_eq, h]) (by simp [handleGoal_eq])
    simp only [handleAttempt, if_true]
    rw [e]
    simp [handleGoal_eq, h]

/-- The streak counters after a sequence of attempts are the run lengths of the sequence. -/
theorem handleAttempts_runs (p : List Bool) (c : GoalPercentageCounter)
    (h : c._enabled = true) :
    (handleAttempts (afterPackLoadAndSpawn c) p)._isFirstSpawn = false ∧
    (handleAttempts (afterPackLoadAndSpawn c) p)._stats.IgnoreNextShotReset = false ∧
    ∃ g m G M : Nat,
      (handleAttempts (afterPackLoadAndSpawn c) p)._stats.GoalStreakCounter = g ∧
      (handleAttempts (afterPackLoadAndSpawn c) p)._stats.MissStreakCounter = m ∧
      (handleAttempts (afterPackLoadAndSpawn c) p)._stats.LongestGoalStreak = G ∧
      (handleAttempts (afterPackLoadAndSpawn c) p)._stats.LongestMissStreak = M ∧
      IsTrailingRun true p g ∧ IsTrailingRun false p m ∧
      IsLongestRun true p G ∧ IsLongestRun false p M := by
  induction p using List.reverseRecOn with
  | nil =>
    obtain ⟨-, -, s3, s4, s5, s6, s7, s8⟩ := afterPackLoadAndSpawn_fields c h
    refine ⟨s8, s7, 0, 0, 0, 0, ?_⟩
    simp only [handleAttempts, List.foldl_nil, s3, s4, s5, s6]
    exact ⟨rfl, rfl, rfl, rfl, isTrailingRun_nil _, isTrailingRun_nil _,
      isLongestRun_nil _, isLongestRun_nil _⟩
  | append_singleton p a ih =>
    obtain ⟨hf, hl, g, m, G, M, e1, e2, e3, e4, t1, t2, l1, l2⟩ := ih
    have e : handleAttempts (afterPackLoadAndSpawn c) (p ++ [a]) =
        handleAttempt (handleAttempts (afterPackLoadAndSpawn c) p) a := by
      simp [handleAttempts, List.foldl_append]
    obtain ⟨f1, f2, f3, f4, f5, f6⟩ :=
      handleAttempt_fields (handleAttempts (afterPackLoadAndSpawn c) p) a hf hl
    rw [e]
    refine ⟨f6, f5, ?_⟩
    rw [f1, f2, f3, f4, e1, e2, e3, e4]
    cases a with
    | true =>
      refine ⟨g + 1, 0, max G (g + 1), M, by simp, by simp, by simp, by simp,
        isTrailingRun_concat_same true p g t1,
        isTrailingRun_concat_other false true p (by decide),
        isLongestRun_concat_same true p G g l1 t1,
        isLongestRun_concat_other false true p M (by decide) l2⟩
    | false =>
      refine ⟨0, m + 1, G, max M (m + 1), by simp, by simp, by simp, by simp,
        isTrailingRun_concat_other true false p (by decide),
        isTrailingRun_concat_same false p m t2,
        isLongestRun_concat_other true false p G (by decide) l1,
        isLongestRun_concat_same false p M m l2 t2⟩

/-! ## Properties of the binary64 rounding -/

theorem roundToEven_sub_le (x : ℚ) : |(roundToEven x : ℚ) - x| ≤ 1 / 2 := by
  have h1 : (⌊x⌋ : ℚ) ≤ x := Int.floor_le x
  have h2 : x < ⌊x⌋ + 1 := Int.lt_floor_add_one x
  unfold roundToEven
  rw [abs_le]
  split_ifs with a b c
  · constructor <;> linarith
  · push_cast; constructor <;> linarith
  · constructor <;> linarith
  · push_cast; constructor <;> linarith

theorem roundToEven_intCast (n : ℤ) : roundToEven (n : ℚ) = n := by
  unfold roundToEven
  simp

theorem roundToEven_nonneg (x : ℚ) (h : 0 ≤ x) : 0 ≤ roundToEven x := by
  have h1 : 0 ≤ ⌊x⌋ := Int.floor_nonneg.mpr h
  unfold roundToEven
  split_ifs <;> omega

theorem roundToEven_eq_of_lt (x : ℚ) (m : ℤ) (h1 : (m : ℚ) - 1 / 2 < x)
    (h2 : x < m + 1 / 2) : roundToEven x = m := by
  rcases lt_or_le x m with h | h
  · have hf : ⌊x⌋ = m - 1 := by
      rw [Int.floor_eq_iff]; push_cast; constructor <;> linarith
    unfold roundToEven
    rw [hf]
    have : ¬ (x - ((m - 1 : ℤ) : ℚ) < 1 / 2) := by push_cast; linarith
    have h3 : (1 : ℚ) / 2 < x - ((m - 1 : ℤ) : ℚ) := by push_cast; linarith
    simp only [this, h3, if_false, if_true]
    omega
  · have hf : ⌊x⌋ = m := by
      rw [Int.floor_eq_iff]; constructor <;> linarith
    unfold roundToEven
    rw [hf]
    have : x - (m : ℚ) < 1 / 2 := by linarith
    simp only [this, if_true]

theorem log_two_eq (x : ℚ) (e : ℤ) (hx : 0 < x) (h1 : (2 : ℚ) ^ e ≤ x)
    (h2 : x < (2 : ℚ) ^ (e + 1)) : Int.log 2 x = e := by
  have a : e ≤ Int.log 2 x := (Int.zpow_le_iff_le_log (by norm_num) hx).mp (by exact_mod_cast h1)
  have b : Int.log 2 x < e + 1 := (Int.lt_zpow_iff_log_lt (by norm_num) hx).mp (by exact_mod_cast h2)
  omega

theorem toDouble_eq_of_bounds (x : ℚ) (e m : ℤ) (hx : 0 < x) (h1 : (2 : ℚ) ^ e ≤ x)
    (h2 : x < (2 : ℚ) ^ (e + 1)) (h3 : (m : ℚ) - 1 / 2 < x / 2 ^ (e - 52))
    (h4 : x / 2 ^ (e - 52) < m + 1 / 2) : toDouble x = m * 2 ^ (e - 52) := by
  unfold toDouble
  rw [if_neg (ne_of_gt hx), abs_of_pos hx, log_two_eq x e hx h1 h2,
    roundToEven_eq_of_lt _ m h3 h4]

theorem toDouble_sub_le (x : ℚ) : |toDouble x - x| ≤ |x| / 2 ^ 53 := by
  unfold toDouble
  split_ifs with h
  · simp [h]
  · have hx : 0 < |x| := abs_pos.mpr h
    have hu : (0 : ℚ) < 2 ^ (Int.log 2 |x| - 52) := by positivity
    have hlog : ((2 : ℕ) : ℚ) ^ Int.log 2 |x| ≤ |x| := Int.zpow_log_le_self (by norm_num) hx
    have hr := roundToEven_sub_le (x / 2 ^ (Int.log 2 |x| - 52))
    have e1 : (roundToEven (x / 2 ^ (Int.log 2 |x| - 52)) : ℚ) * 2 ^ (Int.log 2 |x| - 52) - x
        = ((roundToEven (x / 2 ^ (Int.log 2 |x| - 52)) : ℚ) - x / 2 ^ (Int.log 2 |x| - 52))
          * 2 ^ (Int.log 2 |x| - 52) := by
      field_simp
    rw [e1, abs_mul, abs_of_pos hu]
    have e2 : (2 : ℚ) ^ (Int.log 2 |x| - 52) = 2 ^ Int.log 2 |x| / 2 ^ (52 : ℤ) := by
      rw [zpow_sub₀ (by norm_num)]
    have e3 : (2 : ℚ) ^ (52 : ℤ) = 2 ^ 52 := by norm_cast
    rw [e2, e3]
    have hlog2 : (2 : ℚ) ^ Int.log 2 |x| ≤ |x| := by exact_mod_cast hlog
    have hp : (0 : ℚ) < 2 ^ Int.log 2 |x| := by positivity
    calc |(roundToEven (x / (2 ^ Int.log 2 |x| / 2 ^ 52)) : ℚ) - x / (2 ^ Int.log 2 |x| / 2 ^ 52)|
          * (2 ^ Int.log 2 |x| / 2 ^ 52)
        ≤ 1 / 2 * (2 ^ Int.log 2 |x| / 2 ^ 52) := by
          rw [e2, e3] at hr
          exact mul_le_mul_of_nonneg_right hr (by positivity)
      _ = 2 ^ Int.log 2 |x| / 2 ^ 53 := by ring
      _ ≤ |x| / 2 ^ 53 := by
          apply div_le_div_of_nonneg_right hlog2 (by positivity)

theorem toDouble_nonneg (x : ℚ) (h : 0 ≤ x) : 0 ≤ toDouble x := by
  unfold toDouble
  split_ifs with h0
  · exact le_rfl
  · have hu : (0 : ℚ) < 2 ^ (Int.log 2 |x| - 52) := by positivity
    have := roundToEven_nonneg (x / 2 ^ (Int.log 2 |x| - 52)) (div_nonneg h hu.le)
    have h2 : (0 : ℚ) ≤ roundToEven (x / 2 ^ (Int.log 2 |x| - 52)) := by exact_mod_cast this
    exact mul_nonneg h2 hu.le

theorem toDouble_intCast (n : ℤ) (h : |n| < 2 ^ 53) : toDouble (n : ℚ) = n := by
  unfold toDouble
  split_ifs with h0
  · exact h0.symm
  · have hn : n ≠ 0 := by exact_mod_cast h0
    have hx : (0 : ℚ) < |(n : ℚ)| := abs_pos.mpr h0
    have h1 : (1 : ℚ) ≤ |(n : ℚ)| := by
      have : 1 ≤ |n| := Int.one_le_abs hn
      exact_mod_cast this
    have hlo : 0 ≤ Int.log 2 |(n : ℚ)| :=
      (Int.zpow_le_iff_le_log (by norm_num) hx).mp (by simpa using h1)
    have hhi : Int.log 2 |(n : ℚ)| < 53 :=
      (Int.lt_zpow_iff_log_lt (by norm_num) hx).mp (by
        have : (|n| : ℤ) < 2 ^ 53 := h
        have h2 : ((|n| : ℤ) : ℚ) < 2 ^ 53 := by exact_mod_cast this
        have h3 : |(n : ℚ)| < 2 ^ 53 := by simpa using h2
        have h4 : ((2 : ℕ) : ℚ) ^ (53 : ℤ) = 2 ^ 53 := by norm_cast
        rw [h4]; exact h3)
    obtain ⟨k, hk⟩ : ∃ k : ℕ, Int.log 2 |(n : ℚ)| - 52 = -(k : ℤ) :=
      ⟨(52 - Int.log 2 |(n : ℚ)|).toNat, by omega⟩
    rw [hk]
    have e1 : (n : ℚ) / 2 ^ (-(k : ℤ)) = ((n * 2 ^ k : ℤ) : ℚ) := by
      rw [zpow_neg, zpow_natCast]; push_cast; field_simp
    rw [e1, roundToEven_intCast, zpow_neg, zpow_natCast]
    push_cast
    field_simp

theorem cRound_nonneg (x : ℚ) (h : 0 ≤ x) : 0 ≤ cRound x := by
  unfold cRound
  rw [if_pos h]
  exact Int.floor_nonneg.mpr (by linarith)

theorem cRound_intCast (n : ℤ) : cRound (n : ℚ) = n := by
  unfold cRound
  split_ifs with h
  · rw [Int.floor_eq_iff]; constructor <;> linarith
  · rw [Int.ceil_eq_iff]; constructor <;> linarith

/-! ## The success percentage and its peak -/

theorem computeSuccessPercentage_nonneg (s : StatSnapshot) (hG : 0 ≤ s.Goals) :
    0 ≤ computeSuccessPercentage s := by
  unfold computeSuccessPercentage
  split_ifs with hA
  · have g : (0 : ℚ) ≤ toDouble s.Goals := toDouble_nonneg _ (by exact_mod_cast hG)
    have a : (0 : ℚ) ≤ toDouble s.Attempts := toDouble_nonneg _ (by exact_mod_cast hA.le)
    have q := toDouble_nonneg _ (div_nonneg g a)
    have y := toDouble_nonneg _ (mul_nonneg q (by norm_num : (0 : ℚ) ≤ 10000))
    have k : (0 : ℚ) ≤ cRound (toDouble (toDouble (toDouble s.Goals / toDouble s.Attempts)
        * 10000)) := by
      exact_mod_cast cRound_nonneg _ y
    exact toDouble_nonneg _ (div_nonneg k (by norm_num))
  · exact le_rfl

theorem computeSuccessPercentage_of_not_pos (s : StatSnapshot) (hA : s.Attempts ≤ 0) :
    computeSuccessPercentage s = 0 := by
  unfold computeSuccessPercentage
  rw [if_neg (by omega)]

/-- When `Goals` is a whole multiple `k` of `Attempts`, every double operation is exact and
the percentage is `100 * k`. -/
theorem computeSuccessPercentage_of_multiple (s : StatSnapshot) (k : ℤ)
    (hA : 0 < s.Attempts) (hA2 : s.Attempts < 2 ^ 53) (hk0 : 0 ≤ k) (hk : k < 2 ^ 39)
    (hG : s.Goals = k * s.Attempts) (hG2 : s.Goals < 2 ^ 53) :
    computeSuccessPercentage s = 100 * k := by
  have hG0 : 0 ≤ s.Goals := by rw [hG]; positivity
  unfold computeSuccessPercentage
  rw [if_pos hA, toDouble_intCast s.Goals (by rw [abs_of_nonneg hG0]; exact hG2),
    toDouble_intCast s.Attempts (by rw [abs_of_pos hA]; exact hA2)]
  have hAq : (s.Attempts : ℚ) ≠ 0 := by exact_mod_cast hA.ne'
  have e1 : (s.Goals : ℚ) / s.Attempts = (k : ℤ) := by
    rw [hG]; push_cast; field_simp
  rw [e1, toDouble_intCast k (by rw [abs_of_nonneg hk0]; omega)]
  have e2 : (k : ℚ) * 10000 = ((k * 10000 : ℤ) : ℚ) := by push_cast; ring
  rw [e2, toDouble_intCast (k * 10000) (by rw [abs_of_nonneg (by omega)]; omega),
    cRound_intCast]
  have e3 : ((k * 10000 : ℤ) : ℚ) / 100 = ((100 * k : ℤ) : ℚ) := by push_cast; ring
  rw [e3, toDouble_intCast (100 * k) (by rw [abs_of_nonneg (by omega)]; omega)]
  push_cast; ring

/-- A shot reset touches neither `Goals` nor the percentages. -/
theorem handleShotReset_untouched (c : GoalPercentageCounter) :
    c.handleShotReset._stats.Goals = c._stats.Goals ∧
    c.handleShotReset._stats.SuccessPercentage = c._stats.SuccessPercentage ∧
    c.handleShotReset._stats.PeakSuccessPercentage = c._stats.PeakSuccessPercentage := by
  cases hf : c._isFirstSpawn with
  | true => rw [handleShotReset_firstSpawn c hf]; exact ⟨rfl, rfl, rfl⟩
  | false =>
    cases hl : c._stats.IgnoreNextShotReset with
    | true => rw [handleShotReset_latched c hf hl]; exact ⟨rfl, rfl, rfl⟩
    | false => rw [handleShotReset_miss c hf hl]; exact ⟨rfl, rfl, rfl⟩

theorem handleShotReset_goals (c : GoalPercentageCounter) :
    c.handleShotReset._stats.Goals = c._stats.Goals :=
  (handleShotReset_untouched c).1

/-- The percentage stored by `update(isGoal,false)` is the one computed from the counters
that the call leaves. -/
theorem update_successPercentage (c : GoalPercentageCounter) (isGoal : Bool) :
    (c.update isGoal false)._stats.SuccessPercentage =
      computeSuccessPercentage (c.update isGoal false)._stats := by
  cases isGoal with
  | true =>
    rw [update_goal_eq, storeSuccessPercentage_eq]
    simp [computeSuccessPercentage]
  | false =>
    rw [update_shotReset_eq, storeSuccessPercentage_eq]
    simp [computeSuccessPercentage]

/-- Every `update` call leaves the peak at the larger of the old peak and the new
percentage. -/
theorem update_peak (c : GoalPercentageCounter) (isGoal isReset : Bool) :
    (c.update isGoal isReset)._stats.PeakSuccessPercentage =
      max c._stats.PeakSuccessPercentage (c.update isGoal isReset)._stats.SuccessPercentage := by
  cases isReset with
  | true => simp [update_statReset_eq, storeSuccessPercentage_eq]
  | false =>
    cases isGoal with
    | true =>
      rw [update_goal_eq, storeSuccessPercentage_eq]
      simp [handleGoal_eq]
    | false =>
      rw [update_shotReset_eq, storeSuccessPercentage_eq]
      have hp : c.handleShotReset._stats.PeakSuccessPercentage
          = c._stats.PeakSuccessPercentage := (handleShotReset_untouched c).2.2
      simp [hp]

theorem update_goals_nonneg (c : GoalPercentageCounter) (isGoal isReset : Bool)
    (h : 0 ≤ c._stats.Goals) : 0 ≤ (c.update isGoal isReset)._stats.Goals := by
  cases isReset with
  | true => simpa [update_statReset_eq, storeSuccessPercentage_eq] using h
  | false =>
    cases isGoal with
    | true => rw [(update_goal_fields c).2.1]; omega
    | false =>
      rw [update_shotReset_eq, storeSuccessPercentage_eq]
      simpa [handleShotReset_goals] using h

theorem update_successPercentage_nonneg (c : GoalPercentageCounter) (isGoal isReset : Bool)
    (h : 0 ≤ c._stats.Goals) : 0 ≤ (c.update isGoal isReset)._stats.SuccessPercentage := by
  cases isReset with
  | true => simp [update_statReset_eq, storeSuccessPercentage_eq]
  | false =>
    rw [update_successPercentage]
    exact computeSuccessPercentage_nonneg _ (update_goals_nonneg c isGoal false h)

/-- The peak after a sequence of `update` calls is the running maximum of the old peak and
the produced percentages. -/
theorem updates_peak (calls : List (Bool × Bool)) (c : GoalPercentageCounter) :
    (updates c calls)._stats.PeakSuccessPercentage =
      (producedPercentages c calls).foldl max c._stats.PeakSuccessPercentage := by
  induction calls generalizing c with
  | nil => rfl
  | cons call calls ih =>
    have e : updates c (call :: calls) = updates (c.update call.1 call.2) calls := rfl
    rw [e, ih, update_peak]
    rfl

theorem producedPercentages_nonneg (calls : List (Bool × Bool)) (c : GoalPercentageCounter)
    (h : 0 ≤ c._stats.Goals) : ∀ v ∈ producedPercentages c calls, 0 ≤ v := by
  induction calls generalizing c with
  | nil => intro v hv; simp [producedPercentages] at hv
  | cons call calls ih =>
    intro v hv
    simp only [producedPercentages, List.mem_cons] at hv
    rcases hv with hv | hv
    · rw [hv]; exact update_successPercentage_nonneg c call.1 call.2 h
    · exact ih _ (update_goals_nonneg c call.1 call.2 h) v hv

theorem updates_append (c : GoalPercentageCounter) (calls more : List (Bool × Bool)) :
    updates c (calls ++ more) = updates (updates c calls) more := by
  simp [updates, List.foldl_append]

theorem updates_successPercentage_le_peak (calls : List (Bool × Bool))
    (c : GoalPercentageCounter)
    (h : c._stats.SuccessPercentage ≤ c._stats.PeakSuccessPercentage) :
    (updates c calls)._stats.SuccessPercentage ≤
      (updates c calls)._stats.PeakSuccessPercentage := by
  induction calls generalizing c with
  | nil => exact h
  | cons call calls ih =>
    have e : updates c (call :: calls) = updates (c.update call.1 call.2) calls := rfl
    rw [e]
    apply ih
    rw [update_peak]
    exact le_max_right _ _

theorem foldl_max_ge_init (l : List ℚ) (a : ℚ) : a ≤ l.foldl max a := by
  induction l generalizing a with
  | nil => exact le_rfl
  | cons x l ih => exact le_trans (le_max_left a x) (ih (max a x))

theorem foldl_max_ge_mem (l : List ℚ) (a : ℚ) : ∀ v ∈ l, v ≤ l.foldl max a := by
  induction l generalizing a with
  | nil => intro v hv; simp at hv
  | cons x l ih =>
    intro v hv
    simp only [List.mem_cons] at hv
    rcases hv with hv | hv
    · rw [hv]; exact le_trans (le_max_right a x) (foldl_max_ge_init l (max a x))
    · exact ih (max a x) v hv

theorem foldl_max_eq_init_or_mem (l : List ℚ) (a : ℚ) :
    l.foldl max a = a ∨ l.foldl max a ∈ l := by
  induction l generalizing a with
  | nil => left; rfl
  | cons x l ih =>
    rcases ih (max a x) with h | h
    · rcases max_choice a x with h2 | h2
      · left; rw [List.foldl_cons, h, h2]
      · right; rw [List.foldl_cons, h, h2]; exact List.mem_cons_self _ _
    · right; exact List.mem_cons_of_mem _ h

/-- Of nonnegative values, the running maximum from zero is one of them, unless there are
none. -/
theorem foldl_max_zero_mem (l : List ℚ) (h : ∀ v ∈ l, 0 ≤ v) :
    l = [] ∨ l.foldl max 0 ∈ l := by
  cases l with
  | nil => left; rfl
  | cons x l =>
    right
    rcases foldl_max_eq_init_or_mem (x :: l) 0 with h0 | h0
    · have hx : x ≤ 0 := by
        have := foldl_max_ge_mem (x :: l) 0 x (List.mem_cons_self _ _)
        rwa [h0] at this
      have hx0 : x = 0 := le_antisymm hx (h x (List.mem_cons_self _ _))
      rw [h0, hx0]; exact List.mem_cons_self _ _
    · exact h0

/-- The percentages right after a pack load and the consumed initial spawn. -/
theorem afterPackLoadAndSpawn_percentages (c : GoalPercentageCounter) (h : c._enabled = true) :
    (afterPackLoadAndSpawn c)._stats.SuccessPercentage = 0 ∧
    (afterPackLoadAndSpawn c)._stats.PeakSuccessPercentage = 0 := by
  have hA := (afterPackLoadAndSpawn_fields c h).1
  have hs : (afterPackLoadAndSpawn c)._stats.SuccessPercentage = 0 := by
    unfold afterPackLoadAndSpawn at hA ⊢
    rw [update_successPercentage]
    exact computeSuccessPercentage_of_not_pos _ (by rw [hA])
  refine ⟨hs, ?_⟩
  unfold afterPackLoadAndSpawn at hs ⊢
  rw [update_peak, hs]
  simp [onInit_enabled c h]

/-- The second of two consecutive goal attempts: between the goal and the respawn that
counts its attempt the percentage is computed from `Goals = 2` and `Attempts = 1`. -/
theorem two_goal_attempts (c : GoalPercentageCounter) (h : c._enabled = true) :
    ((((afterPackLoadAndSpawn c).update true false).update false false).update
      true false)._stats.Goals = 2 ∧
    ((((afterPackLoadAndSpawn c).update true false).update false false).update
      true false)._stats.Attempts = 1 ∧
    ((((afterPackLoadAndSpawn c).update true false).update false false).update
      true false)._stats.SuccessPercentage = 200 ∧
    ((((afterPackLoadAndSpawn c).update true false).update false false).update
      true false)._stats.PeakSuccessPercentage = 200 ∧
    (((((afterPackLoadAndSpawn c).update true false).update false false).update
      true false).update false false)._stats.Goals = 2 ∧
    (((((afterPackLoadAndSpawn c).update true false).update false false).update
      true false).update false false)._stats.Attempts = 2 ∧
    (((((afterPackLoadAndSpawn c).update true false).update false false).update
      true false).update false false)._stats.SuccessPercentage = 100 ∧
    (((((afterPackLoadAndSpawn c).update true false).update false false).update
      true false).update false false)._stats.PeakSuccessPercentage = 200 := by
  obtain ⟨a0, g0, -, -, -, -, l0, f0⟩ := afterPackLoadAndSpawn_fields c h
  obtain ⟨-, p0⟩ := afterPackLoadAndSpawn_percentages c h
  -- first goal
  obtain ⟨a1, g1, -, -, -, -, l1, f1⟩ := update_goal_fields (afterPackLoadAndSpawn c)
  rw [a0] at a1; rw [g0] at g1; rw [f0] at f1
  have s1 : ((afterPackLoadAndSpawn c).update true false)._stats.SuccessPercentage = 0 := by
    rw [update_successPercentage]
    exact computeSuccessPercentage_of_not_pos _ (by rw [a1])
  have p1 : ((afterPackLoadAndSpawn c).update true false)._stats.PeakSuccessPercentage = 0 := by
    rw [update_peak, s1, p0]; simp
  -- the respawn that counts the first attempt
  obtain ⟨a2, g2, -, -, -, -, l2, f2⟩ :=
    update_shotReset_latched_fields ((afterPackLoadAndSpawn c).update true false) f1 l1
  rw [a1] at a2; rw [g1] at g2
  have s2 : (((afterPackLoadAndSpawn c).update true false).update
      false false)._stats.SuccessPercentage = 100 := by
    rw [update_successPercentage,
      computeSuccessPercentage_of_multiple _ 1 (by rw [a2]; norm_num) (by rw [a2]; norm_num)
        (by norm_num) (by norm_num) (by rw [a2, g2]; norm_num) (by rw [g2]; norm_num)]
    norm_num
  have p2 : (((afterPackLoadAndSpawn c).update true false).update
      false false)._stats.PeakSuccessPercentage = 100 := by
    rw [update_peak, s2, p1]; norm_num
  -- second goal
  obtain ⟨a3, g3, -, -, -, -, l3, f3⟩ :=
    update_goal_fields (((afterPackLoadAndSpawn c).update true false).update false false)
  rw [a2] at a3; rw [g2] at g3; rw [f2] at f3
  have s3 : ((((afterPackLoadAndSpawn c).update true false).update false false).update
      true false)._stats.SuccessPercentage = 200 := by
    rw [update_successPercentage,
      computeSuccessPercentage_of_multiple _ 2 (by rw [a3]; norm_num) (by rw [a3]; norm_num)
        (by norm_num) (by norm_num) (by rw [a3, g3]; norm_num) (by rw [g3]; norm_num)]
    norm_num
  have p3 : ((((afterPackLoadAndSpawn c).update true false).update false false).update
      true false)._stats.PeakSuccessPercentage = 200 := by
    rw [update_peak, s3, p2]; norm_num
  -- the respawn that counts the second attempt
  obtain ⟨a4, g4, -, -, -, -, -, -⟩ :=
    update_shotReset_latched_fields
      ((((afterPackLoadAndSpawn c).update true false).update false false).update true false)
      f3 l3
  rw [a3] at a4; rw [g3] at g4
  have s4 : (((((afterPackLoadAndSpawn c).update true false).update false false).update
      true false).update false false)._stats.SuccessPercentage = 100 := by
    rw [update_successPercentage,
      computeSuccessPercentage_of_multiple _ 1 (by rw [a4]; norm_num) (by rw [a4]; norm_num)
        (by norm_num) (by norm_num) (by rw [a4, g4]; norm_num) (by rw [g4]; norm_num)]
    norm_num
  have p4 : (((((afterPackLoadAndSpawn c).update true false).update false false).update
      true false).update false false)._stats.PeakSuccessPercentage = 200 := by
    rw [update_peak, s4, p3]; norm_num
  exact ⟨g3, a3, s3, p3, g4, a4, s4, p4⟩

theorem applyCounterEvents_cons (c : GoalPercentageCounter) (e : CounterEvent)
    (events : List CounterEvent) :
    applyCounterEvents c (e :: events) = applyCounterEvents (applyCounterEvent c e) events :=
  rfl

theorem applyCounterEvents_nil (c : GoalPercentageCounter) : applyCounterEvents c [] = c :=
  rfl

theorem playAttempts_three (c : GoalPercentageCounter) (a b d : Bool) :
    playAttempts c [a, b, d] = playAttempt (playAttempt (playAttempt c a) b) d :=
  rfl

/-- The percentage that an attempt leaves is the one computed from the counters it
leaves. -/
theorem playAttempt_successPercentage (c : GoalPercentageCounter) (isGoal : Bool) :
    (playAttempt c isGoal)._stats.SuccessPercentage =
      computeSuccessPercentage (playAttempt c isGoal)._stats := by
  cases isGoal with
  | true => simp only [playAttempt, if_true]; exact update_successPercentage _ false
  | false => simp only [playAttempt]; exact update_successPercentage _ false

/-! ## Accuracy of the computed percentage -/

/-- The double computed for `Goals / Attempts * 10000.0` differs from the exact value `Q` by
at most `Q * (2⁻⁵² + 2⁻¹⁰⁶)`: two roundings, each with relative error at most `2⁻⁵³`. -/
theorem scaled_quotient_error (G A : ℤ) (hG : 0 ≤ G) (hA : 0 < A) :
    |toDouble (toDouble ((G : ℚ) / A) * 10000) - 10000 * (G : ℚ) / A| ≤
      10000 * (G : ℚ) / A * (1 / 2 ^ 52 + 1 / 2 ^ 106) ∧
    0 ≤ toDouble (toDouble ((G : ℚ) / A) * 10000) := by
  have hq : (0 : ℚ) ≤ (G : ℚ) / A :=
    div_nonneg (by exact_mod_cast hG) (by exact_mod_cast hA.le)
  have hx : 0 ≤ toDouble ((G : ℚ) / A) := toDouble_nonneg _ hq
  have hz : 0 ≤ toDouble ((G : ℚ) / A) * 10000 := mul_nonneg hx (by norm_num)
  have h1 := toDouble_sub_le ((G : ℚ) / A)
  have h2 := toDouble_sub_le (toDouble ((G : ℚ) / A) * 10000)
  rw [abs_of_nonneg hq, abs_le] at h1
  rw [abs_of_nonneg hz, abs_le] at h2
  have e : 10000 * (G : ℚ) / A = 10000 * ((G : ℚ) / A) := by ring
  rw [e]
  refine ⟨?_, toDouble_nonneg _ hz⟩
  rw [abs_le]
  generalize toDouble (toDouble ((G : ℚ) / A) * 10000) = y at h2 ⊢
  generalize toDouble ((G : ℚ) / A) = x at h1 h2 hx hz ⊢
  generalize (G : ℚ) / A = q at h1 hq ⊢
  norm_num at h1 h2 ⊢
  constructor <;> linarith

/-- No rounding error carries the computed double across a half-integer that the exact
value is not on, as long as `Goals` stays in the range of a 32-bit `int`. -/
theorem scaled_quotient_no_crossing (G A m : ℤ) (hG : 0 ≤ G) (hG2 : G < 2 ^ 31) (hA : 0 < A) :
    (10000 * (G : ℚ) / A < m + 1 / 2 →
      toDouble (toDouble ((G : ℚ) / A) * 10000) < m + 1 / 2) ∧
    ((m : ℚ) + 1 / 2 < 10000 * (G : ℚ) / A →
      (m : ℚ) + 1 / 2 < toDouble (toDouble ((G : ℚ) / A) * 10000)) := by
  obtain ⟨herr, -⟩ := scaled_quotient_error G A hG hA
  rw [abs_le] at herr
  generalize toDouble (toDouble ((G : ℚ) / A) * 10000) = y at herr ⊢
  have hAq : (0 : ℚ) < A := by exact_mod_cast hA
  have hGq : (0 : ℚ) ≤ G := by exact_mod_cast hG
  have hG2q : (G : ℚ) < 2 ^ 31 := by exact_mod_cast hG2
  -- the error is smaller than the distance of two different multiples of `1 / (2 * A)`
  have hsmall : 10000 * (G : ℚ) / A * (1 / 2 ^ 52 + 1 / 2 ^ 106) < 1 / (2 * A) := by
    have e1 : 10000 * (G : ℚ) / A * (1 / 2 ^ 52 + 1 / 2 ^ 106)
        = (10000 * (G : ℚ) * (1 / 2 ^ 52 + 1 / 2 ^ 106)) / A := by ring
    have e2 : (1 : ℚ) / (2 * A) = (1 / 2) / A := by field_simp
    rw [e1, e2]
    apply div_lt_div_of_pos_right _ hAq
    norm_num at hG2q ⊢
    linarith
  constructor
  · intro hlt
    have h1 : (10000 * (G : ℚ)) < (m + 1 / 2) * A := (div_lt_iff₀ hAq).mp hlt
    have h2 : ((20000 * G : ℤ) : ℚ) < (((2 * m + 1) * A : ℤ) : ℚ) := by
      push_cast; linarith
    have h3 : 20000 * G < (2 * m + 1) * A := by exact_mod_cast h2
    have h4 : 20000 * G + 1 ≤ (2 * m + 1) * A := by omega
    have h5 : ((20000 * G + 1 : ℤ) : ℚ) ≤ (((2 * m + 1) * A : ℤ) : ℚ) := by exact_mod_cast h4
    have h6 : 10000 * (G : ℚ) / A + 1 / (2 * A) ≤ m + 1 / 2 := by
      have e3 : 10000 * (G : ℚ) / A + 1 / (2 * A) = (20000 * G + 1) / (2 * A) := by
        field_simp; ring
      rw [e3, div_le_iff₀ (by positivity)]
      push_cast at h5
      linarith
    linarith
  · intro hlt
    have h1 : (m + 1 / 2) * A < (10000 * (G : ℚ)) := (lt_div_iff₀ hAq).mp hlt
    have h2 : (((2 * m + 1) * A : ℤ) : ℚ) < ((20000 * G : ℤ) : ℚ) := by
      push_cast; linarith
    have h3 : (2 * m + 1) * A < 20000 * G := by exact_mod_cast h2
    have h4 : (2 * m + 1) * A + 1 ≤ 20000 * G := by omega
    have h5 : (((2 * m + 1) * A + 1 : ℤ) : ℚ) ≤ ((20000 * G : ℤ) : ℚ) := by exact_mod_cast h4
    have h6 : (m : ℚ) + 1 / 2 + 1 / (2 * A) ≤ 10000 * (G : ℚ) / A := by
      have e3 : (m : ℚ) + 1 / 2 + 1 / (2 * A) = ((2 * m + 1) * A + 1) / (2 * A) := by
        field_simp; ring
      have e4 : 10000 * (G : ℚ) / A = (20000 * G) / (2 * A) := by
        field_simp; ring
      rw [e3, e4]
      apply div_le_div_of_nonneg_right _ (by positivity)
      push_cast at h5
      linarith
    linarith

/-- Rounding half away from zero of a value `y` that lies on the same side of every
half-integer as `Q`, unless `Q` is on it: the result is a nearest integer to `Q`, and the
one that rounding `Q` itself gives unless `Q` is a tie. -/
theorem cRound_of_no_crossing (Q y : ℚ) (hQ : 0 ≤ Q) (hy : 0 ≤ y)
    (hcross : ∀ m : ℤ, (Q < m + 1 / 2 → y < m + 1 / 2) ∧
      ((m : ℚ) + 1 / 2 < Q → (m : ℚ) + 1 / 2 < y)) :
    |(cRound y : ℚ) - Q| ≤ 1 / 2 ∧ (cRound y = cRound Q ∨ Int.fract Q = 1 / 2) := by
  have ek : cRound y = ⌊y + 1 / 2⌋ := by unfold cRound; rw [if_pos hy]
  have ek0 : cRound Q = ⌊Q + 1 / 2⌋ := by unfold cRound; rw [if_pos hQ]
  rw [ek, ek0]
  have f1 : ((⌊Q + 1 / 2⌋ : ℤ) : ℚ) ≤ Q + 1 / 2 := Int.floor_le _
  have f2 : Q + 1 / 2 < ⌊Q + 1 / 2⌋ + 1 := Int.lt_floor_add_one _
  have up := (hcross ⌊Q + 1 / 2⌋).1 (by linarith)
  have kle : ⌊y + 1 / 2⌋ ≤ ⌊Q + 1 / 2⌋ := by
    have : ⌊y + 1 / 2⌋ < ⌊Q + 1 / 2⌋ + 1 := by
      rw [Int.floor_lt]; push_cast; linarith
    omega
  have kq : ((⌊y + 1 / 2⌋ : ℤ) : ℚ) ≤ ⌊Q + 1 / 2⌋ := by exact_mod_cast kle
  rcases eq_or_lt_of_le f1 with htie | hlt
  · have lo := (hcross (⌊Q + 1 / 2⌋ - 2)).2 (by push_cast; linarith)
    have kge : ⌊Q + 1 / 2⌋ - 1 ≤ ⌊y + 1 / 2⌋ := by
      rw [Int.le_floor]; push_cast at lo ⊢; linarith
    have kq2 : ((⌊Q + 1 / 2⌋ : ℤ) : ℚ) - 1 ≤ ⌊y + 1 / 2⌋ := by exact_mod_cast kge
    refine ⟨by rw [abs_le]; constructor <;> linarith, Or.inr ?_⟩
    rw [Int.fract_eq_iff]
    refine ⟨by norm_num, by norm_num, ⌊Q + 1 / 2⌋ - 1, ?_⟩
    push_cast; linarith
  · have lo := (hcross (⌊Q + 1 / 2⌋ - 1)).2 (by push_cast; linarith)
    have kge : ⌊Q + 1 / 2⌋ ≤ ⌊y + 1 / 2⌋ := by
      rw [Int.le_floor]; push_cast at lo; linarith
    have keq : ⌊y + 1 / 2⌋ = ⌊Q + 1 / 2⌋ := le_antisymm kle kge
    rw [keq]
    refine ⟨by rw [abs_le]; constructor <;> linarith, Or.inl rfl⟩

/-- The integer that `round` returns for the computed double is a nearest integer to the
exact value `10000 * Goals / Attempts`, and the one that rounding half away from zero
selects unless the exact value is a tie. -/
theorem cRound_scaled_quotient (G A : ℤ) (hG : 0 ≤ G) (hG2 : G < 2 ^ 31) (hA : 0 < A) :
    |(cRound (toDouble (toDouble ((G : ℚ) / A) * 10000)) : ℚ) - 10000 * (G : ℚ) / A| ≤ 1 / 2 ∧
    (cRound (toDouble (toDouble ((G : ℚ) / A) * 10000)) = cRound (10000 * (G : ℚ) / A) ∨
      Int.fract (10000 * (G : ℚ) / A) = 1 / 2) :=
  cRound_of_no_crossing _ _
    (div_nonneg (mul_nonneg (by norm_num) (by exact_mod_cast hG)) (by exact_mod_cast hA.le))
    (scaled_quotient_error G A hG hA).2
    (fun m => scaled_quotient_no_crossing G A m hG hG2 hA)

/-- The percentage computed from counters in the range of a 32-bit `int`. -/
theorem computeSuccessPercentage_spec (s : StatSnapshot) (hA : 0 < s.Attempts)
    (hA2 : s.Attempts < 2 ^ 31) (hG : 0 ≤ s.Goals) (hG2 : s.Goals < 2 ^ 31) :
    ∃ k : ℤ, computeSuccessPercentage s = toDouble ((k : ℚ) / 100) ∧
      |(k : ℚ) - 10000 * (s.Goals : ℚ) / s.Attempts| ≤ 1 / 2 ∧
      (k = cRound (10000 * (s.Goals : ℚ) / s.Attempts) ∨
        Int.fract (10000 * (s.Goals : ℚ) / s.Attempts) = 1 / 2) := by
  obtain ⟨h1, h2⟩ := cRound_scaled_quotient s.Goals s.Attempts hG hG2 hA
  refine ⟨cRound (toDouble (toDouble ((s.Goals : ℚ) / s.Attempts) * 10000)), ?_, h1, h2⟩
  unfold computeSuccessPercentage
  rw [if_pos hA, toDouble_intCast s.Goals (by rw [abs_of_nonneg hG]; omega),
    toDouble_intCast s.Attempts (by rw [abs_of_pos hA]; omega)]

/-! ## Two worked percentages -/

/-- Two goals in three attempts: the percentage is the double nearest to 66.67. -/
theorem computeSuccessPercentage_two_of_three (s : StatSnapshot) (hA : s.Attempts = 3)
    (hG : s.Goals = 2) : computeSuccessPercentage s = toDouble (6667 / 100) := by
  obtain ⟨k, hk, -, hr⟩ := computeSuccessPercentage_spec s (by rw [hA]; norm_num)
    (by rw [hA]; norm_num) (by rw [hG]; norm_num) (by rw [hG]; norm_num)
  rw [hA, hG] at hr
  have hfloor : ⌊(10000 * ((2 : ℤ) : ℚ) / ((3 : ℤ) : ℚ))⌋ = 6666 := by
    rw [Int.floor_eq_iff]; norm_num
  have hround : cRound (10000 * ((2 : ℤ) : ℚ) / ((3 : ℤ) : ℚ)) = 6667 := by
    unfold cRound
    rw [if_pos (by norm_num), Int.floor_eq_iff]
    norm_num
  have hfract : Int.fract (10000 * ((2 : ℤ) : ℚ) / ((3 : ℤ) : ℚ)) ≠ 1 / 2 := by
    unfold Int.fract
    rw [hfloor]
    norm_num
  rcases hr with hr | hr
  · rw [hk, hr, hround]; norm_num
  · exact absurd hr hfract

/-- Fifty-seven goals in eight hundred attempts: the exact value `712.5` is a tie.  The
double quotient `57.0 / 800.0` is `5134103575202365 * 2⁻⁵⁶` (hexadecimal
`0x1.23d70a3d70a3dp-4`), a little below `0.07125`; its product with `10000.0` rounds to
`6267216278323199 * 2⁻⁴³`, which is `712.5 - 2⁻⁴³`; `round` gives 712 and the percentage is
the double nearest to 7.12. -/
theorem computeSuccessPercentage_57_of_800 (s : StatSnapshot) (hA : s.Attempts = 800)
    (hG : s.Goals = 57) : computeSuccessPercentage s = toDouble (712 / 100) := by
  have e1 : toDouble (((57 : ℤ) : ℚ) / ((800 : ℤ) : ℚ))
      = (5134103575202365 : ℤ) * 2 ^ ((-4 : ℤ) - 52) :=
    toDouble_eq_of_bounds _ (-4) 5134103575202365 (by norm_num) (by norm_num) (by norm_num)
      (by norm_num) (by norm_num)
  have e2 : toDouble (((5134103575202365 : ℤ) : ℚ) * 2 ^ ((-4 : ℤ) - 52) * 10000)
      = (6267216278323199 : ℤ) * 2 ^ ((9 : ℤ) - 52) :=
    toDouble_eq_of_bounds _ 9 6267216278323199 (by norm_num) (by norm_num) (by norm_num)
      (by norm_num) (by norm_num)
  have e3 : cRound (((6267216278323199 : ℤ) : ℚ) * 2 ^ ((9 : ℤ) - 52)) = 712 := by
    unfold cRound
    rw [if_pos (by norm_num), Int.floor_eq_iff]
    norm_num
  unfold computeSuccessPercentage
  rw [if_pos (by rw [hA]; norm_num), hA, hG, toDouble_intCast 57 (by norm_num),
    toDouble_intCast 800 (by norm_num), e1, e2, e3]
  norm_num

/-- The doubles nearest to 7.12 and to 7.13 are different, and the first is not 7.13. -/
theorem double_712_ne_713 :
    toDouble (712 / 100) ≠ toDouble (713 / 100) ∧ 100 * toDouble (712 / 100) ≠ 713 := by
  have h1 := toDouble_sub_le (712 / 100)
  have h2 := toDouble_sub_le (713 / 100)
  rw [abs_of_pos (by norm_num : (0 : ℚ) < 712 / 100), abs_le] at h1
  rw [abs_of_pos (by norm_num : (0 : ℚ) < 713 / 100), abs_le] at h2
  generalize toDouble (712 / 100) = a at h1 h2 ⊢
  generalize toDouble (713 / 100) = b at h2 ⊢
  norm_num at h1 h2
  obtain ⟨h1a, h1b⟩ := h1
  obtain ⟨h2a, h2b⟩ := h2
  constructor
  · intro h
    rw [h] at h1b
    linarith
  · intro h
    linarith

/-! ## The end-to-end scenario -/

/-- The calls that the state machine makes on its stat updater during the scenario when
`DEBUG_STATE_MACHINE` is unset, whatever the machine looked like before. -/
theorem scenario_calls (goalWasScored ballWasHit : Bool) (pluginState : PluginState) :
    ((CustomTrainingStateMachine.construct goalWasScored ballWasHit pluginState).processEvents
      false scenarioEvents)._statUpdater =
      [StatUpdaterCall.processReset 3,
        StatUpdaterCall.processAttempt, StatUpdaterCall.processInitialBallHit,
        StatUpdaterCall.processGoal, StatUpdaterCall.updateData,
        StatUpdaterCall.processAttempt,
        StatUpdaterCall.processMiss, StatUpdaterCall.updateData,
        StatUpdaterCall.processAttempt, StatUpdaterCall.processInitialBallHit,
        StatUpdaterCall.processGoal, StatUpdaterCall.updateData] := by
  cases goalWasScored <;> cases ballWasHit <;> rfl

/-- The snapshot that these calls leave. -/
theorem scenario_calls_applied (c : GoalPercentageCounter) :
    (applyStatUpdaterCalls c
      [StatUpdaterCall.processReset 3,
        StatUpdaterCall.processAttempt, StatUpdaterCall.processInitialBallHit,
        StatUpdaterCall.processGoal, StatUpdaterCall.updateData,
        StatUpdaterCall.processAttempt,
        StatUpdaterCall.processMiss, StatUpdaterCall.updateData,
        StatUpdaterCall.processAttempt, StatUpdaterCall.processInitialBallHit,
        StatUpdaterCall.processGoal, StatUpdaterCall.updateData])._stats =
      { Attempts := 0, Goals := 2, GoalStreakCounter := 2, MissStreakCounter := 0,
        LongestGoalStreak := 2, LongestMissStreak := 0, IgnoreNextShotReset := true,
        SuccessPercentage := 0, PeakSuccessPercentage := 0 } := by
  simp [applyStatUpdaterCalls, applyStatUpdaterCall, update_statReset_eq,
    storeSuccessPercentage_eq, reset, handleGoal_eq, handleShotReset,
    computeSuccessPercentage]

/-- The counter of `GoalPercentageCounter.cpp` driven by its own events through a goal, a
miss and a goal attempt. -/
theorem goal_miss_goal (c : GoalPercentageCounter) (h : c._enabled = true) :
    (playAttempts (afterPackLoadAndSpawn c) [true, false, true])._stats.Attempts = 3 ∧
    (playAttempts (afterPackLoadAndSpawn c) [true, false, true])._stats.Goals = 2 ∧
    (playAttempts (afterPackLoadAndSpawn c) [true, false, true])._stats.GoalStreakCounter = 1 ∧
    (playAttempts (afterPackLoadAndSpawn c) [true, false, true])._stats.MissStreakCounter = 0 ∧
    (playAttempts (afterPackLoadAndSpawn c) [true, false, true])._stats.LongestGoalStreak = 1 ∧
    (playAttempts (afterPackLoadAndSpawn c) [true, false, true])._stats.LongestMissStreak = 1 ∧
    (playAttempts (afterPackLoadAndSpawn c) [true, false, true])._stats.SuccessPercentage =
      toDouble (6667 / 100) := by
  obtain ⟨s1, s2, s3, s4, s5, s6, s7, s8⟩ := afterPackLoadAndSpawn_fields c h
  obtain ⟨a1, g1, gs1, ms1, lg1, lm1, l1, f1⟩ :=
    playAttempt_fields (afterPackLoadAndSpawn c) true s8 s7
  obtain ⟨a2, g2, gs2, ms2, lg2, lm2, l2, f2⟩ :=
    playAttempt_fields (playAttempt (afterPackLoadAndSpawn c) true) false f1 l1
  obtain ⟨a3, g3, gs3, ms3, lg3, lm3, -, -⟩ :=
    playAttempt_fields (playAttempt (playAttempt (afterPackLoadAndSpawn c) true) false) true
      f2 l2
  rw [playAttempts_three]
  have ha : (playAttempt (playAttempt (playAttempt (afterPackLoadAndSpawn c) true) false)
      true)._stats.Attempts = 3 := by
    rw [a3, a2, a1, s1]; norm_num
  have hg : (playAttempt (playAttempt (playAttempt (afterPackLoadAndSpawn c) true) false)
      true)._stats.Goals = 2 := by
    rw [g3, g2, g1, s2]; norm_num
  refine ⟨ha, hg, ?_, ?_, ?_, ?_, ?_⟩
  · rw [gs3, gs2]; norm_num
  · rw [ms3]; norm_num
  · rw [lg3, lg2, lg1, gs2, s5, s3]; norm_num
  · rw [lm3, lm2, lm1, ms1, s6]; norm_num
  · rw [playAttempt_successPercentage]
    exact computeSuccessPercentage_two_of_three _ ha hg

/-- The snapshot that the scenario leaves when `DEBUG_STATE_MACHINE` is set: the first
attempt start is ignored in state `Resetting`, so only two attempts are processed. -/
theorem scenario_debug_applied (c : GoalPercentageCounter) (goalWasScored ballWasHit : Bool)
    (pluginState : PluginState) :
    (applyStatUpdaterCalls c
      ((CustomTrainingStateMachine.construct goalWasScored ballWasHit
        pluginState).processEvents true scenarioEvents)._statUpdater)._stats =
      { Attempts := 0, Goals := 1, GoalStreakCounter := 1, MissStreakCounter := 0,
        LongestGoalStreak := 1, LongestMissStreak := 0, IgnoreNextShotReset := true,
        SuccessPercentage := 0, PeakSuccessPercentage := 0 } := by
  have t1 : ∀ b : Bool, ((CustomTrainingStateMachine.construct b false
      pluginState).processEvents true scenarioEvents)._statUpdater =
      [StatUpdaterCall.processReset 3, StatUpdaterCall.processInitialBallHit,
        StatUpdaterCall.processAttempt, StatUpdaterCall.processMiss,
        StatUpdaterCall.updateData, StatUpdaterCall.processAttempt,
        StatUpdaterCall.processInitialBallHit, StatUpdaterCall.processGoal,
        StatUpdaterCall.updateData] := by
    intro b
    cases b <;>
    simp [scenarioEvents, CustomTrainingStateMachine.processEvents,
      CustomTrainingStateMachine.processEvent, CustomTrainingStateMachine.construct,
      CustomTrainingStateMachine.processOnTrainingModeLoaded,
      CustomTrainingStateMachine.setCurrentState,
      CustomTrainingStateMachine.processTrainingShotAttempt,
      CustomTrainingStateMachine.processOnCarTouch,
      CustomTrainingStateMachine.processOnHitGoal,
      CustomTrainingStateMachine.processsEventRoundChanged]
  have t2 : ∀ b : Bool, ((CustomTrainingStateMachine.construct b true
      pluginState).processEvents true scenarioEvents)._statUpdater =
      [StatUpdaterCall.processReset 3,
        StatUpdaterCall.processAttempt, StatUpdaterCall.processMiss,
        StatUpdaterCall.updateData, StatUpdaterCall.processAttempt,
        StatUpdaterCall.processInitialBallHit, StatUpdaterCall.processGoal,
        StatUpdaterCall.updateData] := by
    intro b
    cases b <;>
    simp [scenarioEvents, CustomTrainingStateMachine.processEvents,
      CustomTrainingStateMachine.processEvent, CustomTrainingStateMachine.construct,
      CustomTrainingStateMachine.processOnTrainingModeLoaded,
      CustomTrainingStateMachine.setCurrentState,
      CustomTrainingStateMachine.processTrainingShotAttempt,
      CustomTrainingStateMachine.processOnCarTouch,
      CustomTrainingStateMachine.processOnHitGoal,
      CustomTrainingStateMachine.processsEventRoundChanged]
  cases ballWasHit with
  | false =>
    rw [t1]
    simp [applyStatUpdaterCalls, applyStatUpdaterCall, update_statReset_eq,
      storeSuccessPercentage_eq, reset, handleGoal_eq, handleShotReset,
      computeSuccessPercentage]
  | true =>
    rw [t2]
    simp [applyStatUpdaterCalls, applyStatUpdaterCall, update_statReset_eq,
      storeSuccessPercentage_eq, reset, handleGoal_eq, handleShotReset,
      computeSuccessPercentage]

/-! ## The state machine, function by function -/

namespace CustomTrainingStateMachine

/-- A goal event only sets the goal flag. -/
theorem processOnHitGoal_eq (m : CustomTrainingStateMachine) :
    m.processOnHitGoal = { m with _goalWasScoredInCurrentAttempt := true } := by
  unfold processOnHitGoal
  cases h : m._goalWasScoredInCurrentAttempt with
  | true =>
    simp only [Bool.not_true, Bool.false_eq_true, if_false]
    cases m
    simp_all
  | false => simp

theorem iterate_processOnHitGoal (m : CustomTrainingStateMachine) (n : Nat) :
    processOnHitGoal^[n + 1] m = { m with _goalWasScoredInCurrentAttempt := true } := by
  induction n with
  | zero => simp [processOnHitGoal_eq]
  | succ n ih =>
    rw [Function.iterate_succ_apply', ih, processOnHitGoal_eq]

/-- A touch event when the touch flag is already set does nothing. -/
theorem processOnCarTouch_of_hit (m : CustomTrainingStateMachine)
    (h : m._ballWasHitInCurrentAttempt = true) : m.processOnCarTouch = m := by
  simp [processOnCarTouch, h]

/-- The first touch event of an attempt sets the flag and notifies the updater. -/
theorem processOnCarTouch_of_not_hit (m : CustomTrainingStateMachine)
    (h : m._ballWasHitInCurrentAttempt = false) :
    m.processOnCarTouch =
      { m with
        _ballWasHitInCurrentAttempt := true
        _statUpdater := m._statUpdater ++ [StatUpdaterCall.processInitialBallHit] } := by
  simp [processOnCarTouch, h]

theorem iterate_processOnCarTouch (m : CustomTrainingStateMachine)
    (h : m._ballWasHitInCurrentAttempt = false) (k : Nat) :
    processOnCarTouch^[k + 1] m =
      { m with
        _ballWasHitInCurrentAttempt := true
        _statUpdater := m._statUpdater ++ [StatUpdaterCall.processInitialBallHit] } := by
  induction k with
  | zero => simp [processOnCarTouch_of_not_hit m h]
  | succ k ih =>
    rw [Function.iterate_succ_apply', ih, processOnCarTouch_of_hit _ rfl]

/-- An attempt start that is accepted: the guard of the debug build is absent or passes. -/
theorem processTrainingShotAttempt_accepted (DEBUG_STATE_MACHINE : Bool)
    (m : CustomTrainingStateMachine)
    (h : DEBUG_STATE_MACHINE = false ∨
      m._currentState = CustomTrainingState.PreparingNewShot) :
    m.processTrainingShotAttempt DEBUG_STATE_MACHINE =
      { m with
        _currentState := CustomTrainingState.AttemptInProgress
        _goalWasScoredInCurrentAttempt := false
        _ballWasHitInCurrentAttempt := false
        _statUpdater := m._statUpdater ++ [StatUpdaterCall.processAttempt]
        _cvarManager :=
          if DEBUG_STATE_MACHINE then
            m._cvarManager ++ [LogLine.transitioning m._currentState
              CustomTrainingState.AttemptInProgress]
          else m._cvarManager } := by
  rcases h with h | h
  · subst h
    simp [processTrainingShotAttempt, setCurrentState]
  · cases DEBUG_STATE_MACHINE <;> simp [processTrainingShotAttempt, setCurrentState, h]

/-- An attempt start that the debug build ignores. -/
theorem processTrainingShotAttempt_ignored (m : CustomTrainingStateMachine)
    (h : m._currentState ≠ CustomTrainingState.PreparingNewShot) :
    m.processTrainingShotAttempt true =
      { m with _cvarManager :=
          m._cvarManager ++ [LogLine.ignoringTrainingShotAttempt m._currentState] } := by
  simp [processTrainingShotAttempt, h]

/-- A round change that closes an attempt. -/
theorem processsEventRoundChanged_inProgress (DEBUG_STATE_MACHINE : Bool)
    (m : CustomTrainingStateMachine) (newRoundIndex : Int)
    (h : m._currentState = CustomTrainingState.AttemptInProgress) :
    (m.processsEventRoundChanged DEBUG_STATE_MACHINE newRoundIndex)._statUpdater =
      m._statUpdater ++
        [if m._goalWasScoredInCurrentAttempt then StatUpdaterCall.processGoal
          else StatUpdaterCall.processMiss, StatUpdaterCall.updateData] ∧
    (m.processsEventRoundChanged DEBUG_STATE_MACHINE newRoundIndex)._currentState =
      CustomTrainingState.PreparingNewShot := by
  cases hg : m._goalWasScoredInCurrentAttempt <;> cases DEBUG_STATE_MACHINE <;>
    simp [processsEventRoundChanged, setCurrentState, h, hg]

/-- Neither a pack load nor a round change touches the two attempt flags. -/
theorem flags_untouched (DEBUG_STATE_MACHINE : Bool) (m : CustomTrainingStateMachine)
    (n : Int) :
    (m.processOnTrainingModeLoaded DEBUG_STATE_MACHINE n)._goalWasScoredInCurrentAttempt =
      m._goalWasScoredInCurrentAttempt ∧
    (m.processOnTrainingModeLoaded DEBUG_STATE_MACHINE n)._ballWasHitInCurrentAttempt =
      m._ballWasHitInCurrentAttempt ∧
    (m.processsEventRoundChanged DEBUG_STATE_MACHINE n)._goalWasScoredInCurrentAttempt =
      m._goalWasScoredInCurrentAttempt ∧
    (m.processsEventRoundChanged DEBUG_STATE_MACHINE n)._ballWasHitInCurrentAttempt =
      m._ballWasHitInCurrentAttempt := by
  refine ⟨?_, ?_, ?_, ?_⟩
  · cases DEBUG_STATE_MACHINE <;> simp [processOnTrainingModeLoaded, setCurrentState]
  · cases DEBUG_STATE_MACHINE <;> simp [processOnTrainingModeLoaded, setCurrentState]
  · unfold processsEventRoundChanged
    cases DEBUG_STATE_MACHINE <;> simp only [setCurrentState] <;> split_ifs <;> simp
  · unfold processsEventRoundChanged
    cases DEBUG_STATE_MACHINE <;> simp only [setCurrentState] <;> split_ifs <;> simp

end CustomTrainingStateMachine

/-- Every event keeps one of the two streak counters at zero. -/
theorem streaks_step (c : GoalPercentageCounter) (e : CounterEvent)
    (hc : c._stats.GoalStreakCounter = 0 ∨ c._stats.MissStreakCounter = 0) :
    (applyCounterEvent c e)._stats.GoalStreakCounter = 0 ∨
      (applyCounterEvent c e)._stats.MissStreakCounter = 0 := by
  cases e with
  | goal => right; exact (update_goal_fields c).2.2.2.1
  | shotReset =>
    simp only [applyCounterEvent]
    cases hf : c._isFirstSpawn with
    | true =>
      obtain ⟨-, -, r3, r4, -⟩ := update_shotReset_firstSpawn_fields c hf
      rw [r3, r4]; exact hc
    | false =>
      cases hl : c._stats.IgnoreNextShotReset with
      | true =>
        obtain ⟨-, -, r3, r4, -⟩ := update_shotReset_latched_fields c hf hl
        rw [r3, r4]; exact hc
      | false =>
        left; exact (update_shotReset_miss_fields c hf hl).2.2.1
  | statReset => left; exact (statReset_fields c).2.2.1

theorem streaks_run (events : List CounterEvent) (c : GoalPercentageCounter)
    (hc : c._stats.GoalStreakCounter = 0 ∨ c._stats.MissStreakCounter = 0) :
    (applyCounterEvents c events)._stats.GoalStreakCounter = 0 ∨
      (applyCounterEvents c events)._stats.MissStreakCounter = 0 := by
  induction events generalizing c with
  | nil => exact hc
  | cons e events ih =>
    rw [applyCounterEvents_cons]
    exact ih _ (streaks_step c e hc)


/-! ## The reader, statement by statement -/

theorem Reader.pure_run {α : Type} (a : α) (s : ReaderState) :
    (pure a : Reader α) s = Except.ok (some a, s) := rfl

theorem Reader.bind_run {α β : Type} (r : Reader α) (f : α → Reader β) (s : ReaderState) :
    (r >>= f) s =
      match r s with
      | Except.error e => Except.error e
      | Except.ok (none, s1) => Except.ok (none, s1)
      | Except.ok (some a, s1) => f a s1 := rfl

theorem Reader.bind_of_some {α β : Type} (r : Reader α) (f : α → Reader β)
    (s s1 : ReaderState) (a : α) (h : r s = Except.ok (some a, s1)) :
    (r >>= f) s = f a s1 := by
  rw [Reader.bind_run, h]

theorem Reader.bind_of_none {α β : Type} (r : Reader α) (f : α → Reader β)
    (s s1 : ReaderState) (h : r s = Except.ok (none, s1)) :
    (r >>= f) s = Except.ok (none, s1) := by
  rw [Reader.bind_run, h]

theorem Reader.bind_of_error {α β : Type} (r : Reader α) (f : α → Reader β)
    (s : ReaderState) (e : StdException) (h : r s = Except.error e) :
    (r >>= f) s = Except.error e := by
  rw [Reader.bind_run, h]

theorem getline_cons (line : List Char) (rest : List (List Char)) (reg : List Vector) :
    getline { lines := line :: rest, registered := reg } =
      Except.ok (some line, { lines := rest, registered := reg }) := rfl

theorem getline_nil (reg : List Vector) :
    getline { lines := [], registered := reg } =
      Except.ok (none, { lines := [], registered := reg }) := rfl

theorem hasKeyAndValue_ne_nil (line : List Char) (h : HasKeyAndValue line) : line ≠ [] := by
  intro e
  rw [e] at h
  exact h.1 rfl

/-- On a line that holds a non-negative integer, `readValueIntoField` gives it. -/
theorem readValueIntoField_int_of_isIntLine (line : List Char) (n : Int)
    (rest : List (List Char)) (reg : List Vector) (h : IsIntLine line n) :
    readValueIntoField_int { lines := line :: rest, registered := reg } =
      Except.ok (some n, { lines := rest, registered := reg }) := by
  obtain ⟨hkv, hs, hn⟩ := h
  have hne := hasKeyAndValue_ne_nil line hkv
  unfold readValueIntoField_int
  rw [Reader.bind_of_some _ _ _ _ _ (getline_cons line rest reg)]
  simp only [hne, if_false, hkv.1, hkv.2, or_self]
  rw [Reader.bind_run]
  simp only [Reader.ofExcept, hs]
  rw [if_neg (not_lt.mpr hn)]
  rfl

/-- On a line that holds a negative integer, `readValueIntoField` returns `false`. -/
theorem readValueIntoField_int_of_negative (line : List Char) (rest : List (List Char))
    (reg : List Vector) (h : IsNegativeIntLine line) :
    readValueIntoField_int { lines := line :: rest, registered := reg } =
      Except.ok (none, { lines := rest, registered := reg }) := by
  obtain ⟨hkv, n, hs, hn⟩ := h
  have hne := hasKeyAndValue_ne_nil line hkv
  unfold readValueIntoField_int
  rw [Reader.bind_of_some _ _ _ _ _ (getline_cons line rest reg)]
  simp only [hne, if_false, hkv.1, hkv.2, or_self]
  rw [Reader.bind_run]
  simp only [Reader.ofExcept, hs]
  rw [if_pos hn]
  rfl

theorem readValueIntoField_double_of_isDoubleLine (std : FloatParsing) (line : List Char)
    (v : ℚ) (rest : List (List Char)) (reg : List Vector) (h : IsDoubleLine std line v) :
    readValueIntoField_double std { lines := line :: rest, registered := reg } =
      Except.ok (some v, { lines := rest, registered := reg }) := by
  obtain ⟨hkv, hs, hn⟩ := h
  have hne := hasKeyAndValue_ne_nil line hkv
  unfold readValueIntoField_double
  rw [Reader.bind_of_some _ _ _ _ _ (getline_cons line rest reg)]
  simp only [hne, if_false, hkv.1, hkv.2, or_self]
  rw [Reader.bind_run]
  simp only [Reader.ofExcept, hs]
  rw [if_neg (not_lt.mpr hn)]
  rfl

theorem readValueIntoField_double_of_negative (std : FloatParsing) (line : List Char)
    (rest : List (List Char)) (reg : List Vector) (h : IsNegativeDoubleLine std line) :
    readValueIntoField_double std { lines := line :: rest, registered := reg } =
      Except.ok (none, { lines := rest, registered := reg }) := by
  obtain ⟨hkv, v, hs, hn⟩ := h
  have hne := hasKeyAndValue_ne_nil line hkv
  unfold readValueIntoField_double
  rw [Reader.bind_of_some _ _ _ _ _ (getline_cons line rest reg)]
  simp only [hne, if_false, hkv.1, hkv.2, or_self]
  rw [Reader.bind_run]
  simp only [Reader.ofExcept, hs]
  rw [if_pos hn]
  rfl

theorem readValueIntoField_float_of_isDoubleLine (std : FloatParsing) (line : List Char)
    (v : ℚ) (rest : List (List Char)) (reg : List Vector) (h : IsDoubleLine std line v) :
    readValueIntoField_float std { lines := line :: rest, registered := reg } =
      Except.ok (some (toFloat v), { lines := rest, registered := reg }) := by
  unfold readValueIntoField_float
  rw [Reader.bind_of_some _ _ _ _ _
    (readValueIntoField_double_of_isDoubleLine std line v rest reg h)]
  rfl

theorem readValueIntoField_float_of_negative (std : FloatParsing) (line : List Char)
    (rest : List (List Char)) (reg : List Vector) (h : IsNegativeDoubleLine std line) :
    readValueIntoField_float std { lines := line :: rest, registered := reg } =
      Except.ok (none, { lines := rest, registered := reg }) := by
  unfold readValueIntoField_float
  rw [Reader.bind_of_none _ _ _ _ (readValueIntoField_double_of_negative std line rest reg h)]

/-- A statement of a block reader goes on over a line that it accepts. -/
theorem FieldReader.run_of_accepts (std : FloatParsing) (field : FieldReader)
    (data : StatsData) (line : List Char) (rest : List (List Char)) (reg : List Vector)
    (h : field.Accepts std line) :
    ∃ filled : StatsData,
      field.run std data { lines := line :: rest, registered := reg } =
        Except.ok (some filled, { lines := rest, registered := reg }) := by
  cases field with
  | skipLine => exact ⟨data, rfl⟩
  | last50Shots => exact ⟨_, rfl⟩
  | intField store =>
    obtain ⟨n, hn⟩ := h
    refine ⟨store data n, ?_⟩
    simp only [FieldReader.run]
    rw [Reader.bind_of_some _ _ _ _ _ (readValueIntoField_int_of_isIntLine line n rest reg hn)]
    rfl
  | doubleField store =>
    obtain ⟨v, hv⟩ := h
    refine ⟨store data v, ?_⟩
    simp only [FieldReader.run]
    rw [Reader.bind_of_some _ _ _ _ _
      (readValueIntoField_double_of_isDoubleLine std line v rest reg hv)]
    rfl
  | floatField store =>
    obtain ⟨v, hv⟩ := h
    refine ⟨store data (toFloat v), ?_⟩
    simp only [FieldReader.run]
    rw [Reader.bind_of_some _ _ _ _ _
      (readValueIntoField_float_of_isDoubleLine std line v rest reg hv)]
    rfl

/-- A statement of a block reader returns `false` at the end of the file. -/
theorem FieldReader.run_of_nil (std : FloatParsing) (field : FieldReader)
    (data : StatsData) (reg : List Vector) :
    field.run std data { lines := [], registered := reg } =
      Except.ok (none, { lines := [], registered := reg }) := by
  cases field <;> rfl

/-- A statement of a block reader returns `false` on a negative value. -/
theorem FieldReader.run_of_holdsNegative (std : FloatParsing) (field : FieldReader)
    (data : StatsData) (line : List Char) (rest : List (List Char)) (reg : List Vector)
    (h : field.HoldsNegative std line) :
    field.run std data { lines := line :: rest, registered := reg } =
      Except.ok (none, { lines := rest, registered := reg }) := by
  cases field with
  | skipLine => exact absurd h id
  | last50Shots => exact absurd h id
  | intField store =>
    simp only [FieldReader.run]
    rw [Reader.bind_of_none _ _ _ _ (readValueIntoField_int_of_negative line rest reg h)]
  | doubleField store =>
    simp only [FieldReader.run]
    rw [Reader.bind_of_none _ _ _ _ (readValueIntoField_double_of_negative std line rest reg h)]
  | floatField store =>
    simp only [FieldReader.run]
    rw [Reader.bind_of_none _ _ _ _ (readValueIntoField_float_of_negative std line rest reg h)]

theorem runFields_cons (std : FloatParsing) (field : FieldReader) (fields : List FieldReader)
    (data : StatsData) :
    runFields std (field :: fields) data =
      (field.run std data >>= fun filled => runFields std fields filled) := rfl

/-! ## The impact locations do not depend on the rest of the file -/

theorem Reader.ofExcept_run {α : Type} (r : Except StdException α) (s : ReaderState) :
    Reader.ofExcept r s =
      match r with
      | Except.ok a => Except.ok (some a, s)
      | Except.error e => Except.error e := rfl

theorem Reader.fail_run {α : Type} (s : ReaderState) :
    (Reader.fail : Reader α) s = Except.ok (none, s) := rfl

theorem readImpactLocations_framed (std : FloatParsing) (text : List Char) (remaining : Nat) :
    ∀ (offset : Nat) (lines : List (List Char)) (reg : List Vector),
      readImpactLocations std text remaining offset { lines := lines, registered := reg } =
        Reader.framed
          (readImpactLocations std text remaining offset { lines := [], registered := [] })
          lines reg := by
  induction remaining with
  | zero =>
    intro offset lines reg
    simp [readImpactLocations, Reader.pure_run, Reader.framed]
  | succ remaining ih =>
    intro offset lines reg
    unfold readImpactLocations
    cases findFrom ',' text offset with
    | none => simp [Reader.fail_run, Reader.framed]
    | some xEnd =>
      simp only [Reader.bind_run, Reader.ofExcept_run]
      cases std.stof (substr text offset xEnd) with
      | error e => simp [Reader.framed]
      | ok x =>
        simp only
        cases findFrom ',' text (xEnd + 1) with
        | none => simp [Reader.fail_run, Reader.framed]
        | some yEnd =>
          simp only [Reader.bind_run, Reader.ofExcept_run]
          cases std.stof (substr text (xEnd + 1) yEnd) with
          | error e => simp [Reader.framed]
          | ok y =>
            simp only
            cases findFrom '|' text (yEnd + 1) with
            | none => simp [Reader.fail_run, Reader.framed]
            | some zEnd =>
              simp only [Reader.bind_run, Reader.ofExcept_run]
              cases std.stof (substr text (yEnd + 1) zEnd) with
              | error e => simp [Reader.framed]
              | ok z =>
                simp only [registerImpactLocation]
                have e1 := ih (zEnd + 1) lines (reg ++ [Vector.mk x y z])
                have e2 := ih (zEnd + 1) [] ([] ++ [Vector.mk x y z])
                rw [e1, e2]
                cases readImpactLocations std text remaining (zEnd + 1)
                    { lines := [], registered := [] } with
                | error e => simp [Reader.framed]
                | ok r => simp [Reader.framed, List.append_assoc]

theorem readVersion_1_2_additions_framed (std : FloatParsing) (defs : StatFileDefs)
    (line : List Char) (rest : List (List Char)) (reg : List Vector) :
    readVersion_1_2_additions std defs { lines := line :: rest, registered := reg } =
      Reader.framed
        (readVersion_1_2_additions std defs { lines := [line], registered := [] })
        rest reg := by
  unfold readVersion_1_2_additions
  rw [Reader.bind_of_some _ _ _ _ _ (getline_cons line rest reg),
    Reader.bind_of_some _ _ _ _ _ (getline_cons line [] [])]
  by_cases h1 : line = []
  · simp [h1, Reader.fail_run, Reader.framed]
  · simp only [h1, if_false]
    by_cases h2 : (getLineValues line).1 = [] ∨ (getLineValues line).2 = []
    · simp [h2, Reader.fail_run, Reader.framed]
    · simp only [h2, if_false]
      by_cases h3 : (getLineValues line).1 ≠ defs.ImpactLocations
      · simp [h3, Reader.fail_run, Reader.framed]
      · simp only [h3, if_false]
        cases findFrom '|' (getLineValues line).2 0 with
        | none => simp [Reader.fail_run, Reader.framed]
        | some separatorPos =>
          simp only [Reader.bind_run, Reader.ofExcept_run]
          cases stoi (substr (getLineValues line).2 0 separatorPos) with
          | error e => simp [Reader.framed]
          | ok size =>
            simp only
            by_cases h4 : size > 0
            · simp only [h4, if_true]
              rw [readImpactLocations_framed std _ _ _ rest reg]
            · simp [h4, Reader.pure_run, Reader.framed]

/-- An accepted line of impact locations is read with its vectors registered. -/
theorem readVersion_1_2_additions_of_accepts (std : FloatParsing) (defs : StatFileDefs)
    (line : List Char) (rest : List (List Char)) (reg : List Vector)
    (h : LineReader.Accepts std defs LineReader.impactLocations line) :
    ∃ vectors : List Vector,
      readVersion_1_2_additions std defs { lines := line :: rest, registered := reg } =
        Except.ok (some (), { lines := rest, registered := reg ++ vectors }) := by
  obtain ⟨vectors, hv⟩ := h
  refine ⟨vectors, ?_⟩
  rw [readVersion_1_2_additions_framed, hv]
  rfl

/-! ## A block, line by line -/

theorem Reader.bind_assoc_run {α β γ : Type} (r : Reader α) (f : α → Reader β)
    (g : β → Reader γ) : (r >>= f >>= g) = (r >>= fun a => f a >>= g) := by
  funext s
  simp only [Reader.bind_run]
  cases r s with
  | error e => rfl
  | ok p =>
    obtain ⟨o, s1⟩ := p
    cases o <;> rfl

theorem Reader.pure_bind_run {α β : Type} (a : α) (f : α → Reader β) :
    (pure a >>= f) = f a := by
  funext s
  rfl

theorem Reader.bind_pure_run {α : Type} (r : Reader α) : (r >>= fun a => pure a) = r := by
  funext s
  simp only [Reader.bind_run]
  cases r s with
  | error e => rfl
  | ok p =>
    obtain ⟨o, s1⟩ := p
    cases o <;> rfl

theorem runLines_nil (std : FloatParsing) (defs : StatFileDefs) (data : StatsData) :
    runLines std defs [] data = pure data := by
  funext s
  rfl

theorem runLines_cons (std : FloatParsing) (defs : StatFileDefs) (reader : LineReader)
    (readers : List LineReader) (data : StatsData) :
    runLines std defs (reader :: readers) data =
      (reader.run std defs data >>= fun filled => runLines std defs readers filled) := rfl

theorem runLines_append (std : FloatParsing) (defs : StatFileDefs)
    (readers more : List LineReader) (data : StatsData) :
    runLines std defs (readers ++ more) data =
      (runLines std defs readers data >>= fun filled => runLines std defs more filled) := by
  induction readers generalizing data with
  | nil => rfl
  | cons reader readers ih =>
    rw [List.cons_append, runLines_cons, runLines_cons, Reader.bind_assoc_run]
    congr 1
    funext filled
    exact ih filled

theorem runLines_map_field (std : FloatParsing) (defs : StatFileDefs)
    (fields : List FieldReader) (data : StatsData) :
    runLines std defs (fields.map LineReader.field) data = runFields std fields data := by
  induction fields generalizing data with
  | nil => rfl
  | cons field fields ih =>
    rw [List.map_cons, runLines_cons, runFields_cons]
    congr 1
    funext filled
    exact ih filled


theorem readBlock_eq_runLines (std : FloatParsing) (defs : StatFileDefs) (versionIndex : Int)
    (data : StatsData) :
    readBlock std defs versionIndex data = runLines std defs (blockLines versionIndex) data := by
  unfold readBlock blockLines readVersion_1_0 readVersion_1_1_additions
  generalize fields_1_0 = version_1_0
  generalize fields_1_1 = version_1_1
  rw [runLines_append, runLines_append, runLines_map_field, runFields_cons]
  simp only [FieldReader.run]
  by_cases h0 : versionIndex > 0
  · by_cases h1 : versionIndex > 1
    · simp only [h0, h1, if_true]
      simp only [runLines_map_field, runLines_cons, runLines_nil, LineReader.run]
      simp only [Reader.bind_assoc_run]
      simp only [Reader.pure_bind_run, Reader.bind_pure_run]
    · simp only [h0, h1, if_true, if_false]
      simp only [runLines_map_field, runLines_nil]
      simp only [Reader.bind_assoc_run]
      simp only [Reader.pure_bind_run, Reader.bind_pure_run]
  · have h1 : ¬ versionIndex > 1 := by omega
    simp only [h0, h1, if_false]
    simp only [runLines_nil]
    simp only [Reader.bind_assoc_run]
    simp only [Reader.pure_bind_run, Reader.bind_pure_run]

/-! ## Accepted lines and defects, line by line -/

theorem LineReader.runLine_of_accepts (std : FloatParsing) (defs : StatFileDefs)
    (reader : LineReader) (data : StatsData) (line : List Char) (rest : List (List Char))
    (reg : List Vector) (h : reader.Accepts std defs line) :
    ∃ (filled : StatsData) (vectors : List Vector),
      reader.run std defs data { lines := line :: rest, registered := reg } =
        Except.ok (some filled, { lines := rest, registered := reg ++ vectors }) := by
  cases reader with
  | field field =>
    obtain ⟨filled, hf⟩ := FieldReader.run_of_accepts std field data line rest reg h
    refine ⟨filled, [], ?_⟩
    rw [List.append_nil]
    exact hf
  | impactLocations =>
    obtain ⟨vectors, hv⟩ := readVersion_1_2_additions_of_accepts std defs line rest reg h
    refine ⟨data, vectors, ?_⟩
    show (readVersion_1_2_additions std defs >>= fun _ => pure data) _ = _
    rw [Reader.bind_of_some _ _ _ _ _ hv]
    rfl

theorem LineReader.runLine_of_nil (std : FloatParsing) (defs : StatFileDefs)
    (reader : LineReader) (data : StatsData) (reg : List Vector) :
    reader.run std defs data { lines := [], registered := reg } =
      Except.ok (none, { lines := [], registered := reg }) := by
  cases reader with
  | field field => exact FieldReader.run_of_nil std field data reg
  | impactLocations => rfl

theorem LineReader.runLine_of_holdsNegative (std : FloatParsing) (defs : StatFileDefs)
    (reader : LineReader) (data : StatsData) (line : List Char) (rest : List (List Char))
    (reg : List Vector) (h : reader.HoldsNegative std line) :
    reader.run std defs data { lines := line :: rest, registered := reg } =
      Except.ok (none, { lines := rest, registered := reg }) := by
  cases reader with
  | field field => exact FieldReader.run_of_holdsNegative std field data line rest reg h
  | impactLocations => exact absurd h id

/-- The readers go on over lines that they accept; the impact locations that they hold
are registered. -/
theorem runLines_of_accepts (std : FloatParsing) (defs : StatFileDefs)
    (readers : List LineReader) (lines : List (List Char))
    (h : List.Forall₂ (LineReader.Accepts std defs) readers lines)
    (data : StatsData) (rest : List (List Char)) (reg : List Vector) :
    ∃ (filled : StatsData) (vectors : List Vector),
      runLines std defs readers data { lines := lines ++ rest, registered := reg } =
        Except.ok (some filled, { lines := rest, registered := reg ++ vectors }) := by
  induction h generalizing data reg with
  | nil => exact ⟨data, [], by rw [List.append_nil]; rfl⟩
  | @cons reader line readers lines hl _ ih =>
    obtain ⟨filled, vectors, hf⟩ :=
      LineReader.runLine_of_accepts std defs reader data line (lines ++ rest) reg hl
    obtain ⟨last, more, hm⟩ := ih filled (reg ++ vectors)
    refine ⟨last, vectors ++ more, ?_⟩
    rw [List.cons_append, runLines_cons, Reader.bind_of_some _ _ _ _ _ hf, hm,
      List.append_assoc]

/-- The readers return `false` when, after lines that they accept, the file ends or the
next line holds a negative value where a counter or a floating-point value is read. -/
theorem runLines_of_defect (std : FloatParsing) (defs : StatFileDefs)
    (readers : List LineReader) (reader : LineReader) (good rest : List (List Char))
    (h : AcceptedPrefix std defs readers good)
    (hr : readers[good.length]? = some reader)
    (hd : rest = [] ∨ ∃ bad tail, rest = bad :: tail ∧ reader.HoldsNegative std bad)
    (data : StatsData) (reg : List Vector) :
    ∃ s : ReaderState,
      runLines std defs readers data { lines := good ++ rest, registered := reg } =
        Except.ok (none, s) := by
  induction readers generalizing good data reg with
  | nil => simp at hr
  | cons first readers ih =>
    cases good with
    | nil =>
      simp only [List.length_nil, List.getElem?_cons_zero, Option.some.injEq] at hr
      subst hr
      rw [List.nil_append, runLines_cons]
      rcases hd with hd | ⟨bad, tail, hd, hneg⟩
      · subst hd
        exact ⟨_, Reader.bind_of_none _ _ _ _
          (LineReader.runLine_of_nil std defs first data reg)⟩
      · subst hd
        exact ⟨_, Reader.bind_of_none _ _ _ _
          (LineReader.runLine_of_holdsNegative std defs first data bad tail reg hneg)⟩
    | cons line good =>
      unfold AcceptedPrefix at h
      simp only [List.length_cons, List.take_succ_cons, List.forall₂_cons] at h
      simp only [List.length_cons, List.getElem?_cons_succ] at hr
      obtain ⟨filled, vectors, hf⟩ :=
        LineReader.runLine_of_accepts std defs first data line (good ++ rest) reg h.1
      obtain ⟨s, hs⟩ := ih good h.2 hr filled (reg ++ vectors)
      exact ⟨s, by rw [List.cons_append, runLines_cons, Reader.bind_of_some _ _ _ _ _ hf, hs]⟩

/-! ## Blocks -/

/-- A block is complete: its lines are accepted, one by one, by the readers of a block. -/
theorem readBlock_of_accepts (std : FloatParsing) (defs : StatFileDefs) (versionIndex : Int)
    (block : List (List Char))
    (h : List.Forall₂ (LineReader.Accepts std defs) (blockLines versionIndex) block)
    (data : StatsData) (rest : List (List Char)) (reg : List Vector) :
    ∃ (filled : StatsData) (vectors : List Vector),
      readBlock std defs versionIndex data { lines := block ++ rest, registered := reg } =
        Except.ok (some filled, { lines := rest, registered := reg ++ vectors }) := by
  rw [readBlock_eq_runLines]
  exact runLines_of_accepts std defs _ block h data rest reg

theorem readBlock_of_defect (std : FloatParsing) (defs : StatFileDefs) (versionIndex : Int)
    (reader : LineReader) (good rest : List (List Char))
    (h : AcceptedPrefix std defs (blockLines versionIndex) good)
    (hr : (blockLines versionIndex)[good.length]? = some reader)
    (hd : rest = [] ∨ ∃ bad tail, rest = bad :: tail ∧ reader.HoldsNegative std bad)
    (data : StatsData) (reg : List Vector) :
    ∃ s : ReaderState,
      readBlock std defs versionIndex data { lines := good ++ rest, registered := reg } =
        Except.ok (none, s) := by
  rw [readBlock_eq_runLines]
  exact runLines_of_defect std defs _ reader good rest h hr hd data reg

theorem readBlocks_zero (std : FloatParsing) (defs : StatFileDefs) (versionIndex : Int)
    (vectorIndex : Nat) (stats : ShotStats) (s : ReaderState) :
    readBlocks std defs versionIndex 0 vectorIndex stats s = Except.ok (some stats, s) := by
  rfl

theorem readBlocks_succ (std : FloatParsing) (defs : StatFileDefs) (versionIndex : Int)
    (remaining vectorIndex : Nat) (stats : ShotStats) :
    readBlocks std defs versionIndex (remaining + 1) vectorIndex stats =
      (readBlock std defs versionIndex (stats.objectToBeFilled vectorIndex) >>= fun filled =>
        readBlocks std defs versionIndex remaining (vectorIndex + 1)
          (stats.fill vectorIndex filled)) := by
  funext s
  rfl

/-- The loop runs over complete blocks; the blocks after the first leave the overall
snapshot alone. -/
theorem readBlocks_of_accepts (std : FloatParsing) (defs : StatFileDefs) (versionIndex : Int)
    (blocks : List (List (List Char)))
    (h : ∀ block ∈ blocks,
      List.Forall₂ (LineReader.Accepts std defs) (blockLines versionIndex) block)
    (vectorIndex : Nat) (stats : ShotStats) (rest : List (List Char)) (reg : List Vector) :
    ∃ (filled : ShotStats) (vectors : List Vector),
      readBlocks std defs versionIndex blocks.length vectorIndex stats
          { lines := blocks.flatten ++ rest, registered := reg } =
        Except.ok (some filled, { lines := rest, registered := reg ++ vectors }) ∧
      (1 ≤ vectorIndex → filled.AllShotStats = stats.AllShotStats) := by
  induction blocks generalizing vectorIndex stats reg with
  | nil =>
    refine ⟨stats, [], ?_, fun _ => rfl⟩
    rw [List.append_nil]
    rfl
  | cons block blocks ih =>
    obtain ⟨data, vectors, hb⟩ := readBlock_of_accepts std defs versionIndex block
      (h block (List.mem_cons_self _ _)) (stats.objectToBeFilled vectorIndex)
      (blocks.flatten ++ rest) reg
    obtain ⟨filled, more, hm, hall⟩ := ih (fun b hb => h b (List.mem_cons_of_mem _ hb))
      (vectorIndex + 1) (stats.fill vectorIndex data) (reg ++ vectors)
    refine ⟨filled, vectors ++ more, ?_, ?_⟩
    · rw [List.length_cons, List.flatten_cons, List.append_assoc, readBlocks_succ,
        Reader.bind_of_some _ _ _ _ _ hb, hm, List.append_assoc]
    · intro hv
      rw [hall (by omega)]
      obtain ⟨shot, rfl⟩ : ∃ shot, vectorIndex = shot + 1 := ⟨vectorIndex - 1, by omega⟩
      rfl

/-- The loop returns the empty result when, after complete blocks, a block that is still
to be read has the file end or a negative value after lines that are accepted. -/
theorem readBlocks_of_defect (std : FloatParsing) (defs : StatFileDefs) (versionIndex : Int)
    (complete : List (List (List Char))) (reader : LineReader)
    (good rest : List (List Char))
    (h : ∀ block ∈ complete,
      List.Forall₂ (LineReader.Accepts std defs) (blockLines versionIndex) block)
    (hg : AcceptedPrefix std defs (blockLines versionIndex) good)
    (hr : (blockLines versionIndex)[good.length]? = some reader)
    (hd : rest = [] ∨ ∃ bad tail, rest = bad :: tail ∧ reader.HoldsNegative std bad)
    (remaining : Nat) (hk : complete.length < remaining)
    (vectorIndex : Nat) (stats : ShotStats) (reg : List Vector) :
    ∃ s : ReaderState,
      readBlocks std defs versionIndex remaining vectorIndex stats
          { lines := complete.flatten ++ (good ++ rest), registered := reg } =
        Except.ok (none, s) := by
  induction complete generalizing remaining vectorIndex stats reg with
  | nil =>
    obtain ⟨k, rfl⟩ : ∃ k, remaining = k + 1 := ⟨remaining - 1, by simp at hk; omega⟩
    obtain ⟨s, hs⟩ := readBlock_of_defect std defs versionIndex reader good rest hg hr hd
      (stats.objectToBeFilled vectorIndex) reg
    exact ⟨s, by rw [List.flatten_nil, List.nil_append, readBlocks_succ,
      Reader.bind_of_none _ _ _ _ hs]⟩
  | cons block complete ih =>
    obtain ⟨k, rfl⟩ : ∃ k, remaining = k + 1 := ⟨remaining - 1, by simp at hk; omega⟩
    obtain ⟨data, vectors, hb⟩ := readBlock_of_accepts std defs versionIndex block
      (h block (List.mem_cons_self _ _)) (stats.objectToBeFilled vectorIndex)
      (complete.flatten ++ (good ++ rest)) reg
    obtain ⟨s, hs⟩ := ih (fun b hb => h b (List.mem_cons_of_mem _ hb)) k
      (by simp at hk; omega) (vectorIndex + 1) (stats.fill vectorIndex data) (reg ++ vectors)
    exact ⟨s, by rw [List.flatten_cons, List.append_assoc, readBlocks_succ,
      Reader.bind_of_some _ _ _ _ _ hb, hs]⟩

/-! ## The header -/

theorem readStatsFromStream_nil (std : FloatParsing) (defs : StatFileDefs)
    (reg : List Vector) :
    readStatsFromStream std defs { lines := [], registered := reg } =
      Except.ok (none, { lines := [], registered := reg }) := by
  rfl

theorem readStatsFromStream_unsupported (std : FloatParsing) (defs : StatFileDefs)
    (versionLine : List Char) (rest : List (List Char)) (reg : List Vector)
    (h : indexInVector defs.SupportedVersionNumbers (getLineValues versionLine).2 < 0) :
    readStatsFromStream std defs { lines := versionLine :: rest, registered := reg } =
      Except.ok (none, { lines := rest, registered := reg }) := by
  unfold readStatsFromStream
  rw [Reader.bind_of_some _ _ _ _ _ (getline_cons versionLine rest reg)]
  simp only [h, if_true]
  rfl

theorem readStatsFromStream_single (std : FloatParsing) (defs : StatFileDefs)
    (versionLine : List Char) (reg : List Vector) :
    readStatsFromStream std defs { lines := [versionLine], registered := reg } =
      Except.ok (none, { lines := [], registered := reg }) := by
  unfold readStatsFromStream
  rw [Reader.bind_of_some _ _ _ _ _ (getline_cons versionLine [] reg)]
  by_cases h : indexInVector defs.SupportedVersionNumbers (getLineValues versionLine).2 < 0
  · simp only [h, if_true]
    rfl
  · simp only [h, if_false]
    rw [Reader.bind_of_none _ _ _ _ (getline_nil reg)]

/-- What `readStats` does after the two header lines, the shot count being a number. -/
theorem readStatsFromStream_header (std : FloatParsing) (defs : StatFileDefs)
    (versionLine shotCountLine : List Char) (body : List (List Char)) (reg : List Vector)
    (numberOfShots : Int)
    (hv : ¬ indexInVector defs.SupportedVersionNumbers (getLineValues versionLine).2 < 0)
    (hn : stoi (getLineValues shotCountLine).2 = Except.ok numberOfShots) :
    readStatsFromStream std defs
        { lines := versionLine :: shotCountLine :: body, registered := reg } =
      if (getLineValues shotCountLine).1 ≠ defs.NumberOfShots ∨ numberOfShots ≤ 0 then
        Except.ok (none, { lines := body, registered := reg })
      else
        readBlocks std defs
          (indexInVector defs.SupportedVersionNumbers (getLineValues versionLine).2)
          (numberOfShots.toNat + 1) 0
          { AllShotStats := {}, PerShotStats := List.replicate numberOfShots.toNat {} }
          { lines := body, registered := reg } := by
  unfold readStatsFromStream
  rw [Reader.bind_of_some _ _ _ _ _ (getline_cons versionLine _ reg)]
  simp only [hv, if_false]
  rw [Reader.bind_of_some _ _ _ _ _ (getline_cons shotCountLine body reg)]
  have hs : Reader.ofExcept (stoi (getLineValues shotCountLine).2)
      { lines := body, registered := reg } =
      Except.ok (some numberOfShots, { lines := body, registered := reg }) := by
    rw [Reader.ofExcept_run, hn]
  rw [Reader.bind_of_some _ _ _ _ _ hs]
  split_ifs <;> rfl

theorem readStats_of_none (std : FloatParsing) (defs : StatFileDefs)
    (lines : List (List Char)) (reg : List Vector) (s : ReaderState)
    (h : readStatsFromStream std defs { lines := lines, registered := reg } =
      Except.ok (none, s)) :
    readStats std defs (some lines) reg = Except.ok ({}, s.registered) := by
  unfold readStats
  simp only [h]

theorem readStats_of_some (std : FloatParsing) (defs : StatFileDefs)
    (lines : List (List Char)) (reg : List Vector) (stats : ShotStats) (s : ReaderState)
    (h : readStatsFromStream std defs { lines := lines, registered := reg } =
      Except.ok (some stats, s)) :
    readStats std defs (some lines) reg = Except.ok (stats, s.registered) := by
  unfold readStats
  simp only [h]

theorem readStats_of_error (std : FloatParsing) (defs : StatFileDefs)
    (lines : List (List Char)) (reg : List Vector) (e : StdException)
    (h : readStatsFromStream std defs { lines := lines, registered := reg } =
      Except.error e) :
    readStats std defs (some lines) reg = Except.error e := by
  unfold readStats
  simp only [h]

/-- At every defect `readStats` leaves the loop or the header with `return {}`. -/
theorem readStatsFromStream_of_defect (std : FloatParsing) (defs : StatFileDefs)
    (lines : List (List Char)) (h : Defect std defs lines) (reg : List Vector) :
    ∃ s : ReaderState,
      readStatsFromStream std defs { lines := lines, registered := reg } =
        Except.ok (none, s) := by
  cases h with
  | endsBeforeVersion => exact ⟨_, readStatsFromStream_nil std defs reg⟩
  | unsupportedVersion versionLine rest h =>
    exact ⟨_, readStatsFromStream_unsupported std defs versionLine rest reg h⟩
  | endsBeforeShotCount versionLine =>
    exact ⟨_, readStatsFromStream_single std defs versionLine reg⟩
  | noShots versionLine shotCountLine rest numberOfShots hn h =>
    by_cases hv : indexInVector defs.SupportedVersionNumbers (getLineValues versionLine).2 < 0
    · exact ⟨_, readStatsFromStream_unsupported std defs versionLine _ reg hv⟩
    · rw [readStatsFromStream_header std defs versionLine shotCountLine rest reg
        numberOfShots hv hn, if_pos (Or.inr h)]
      exact ⟨_, rfl⟩
  | brokenBlock versionLine shotCountLine numberOfShots complete reader good rest hn
      hcomplete hblocks hgood hreader hrest =>
    by_cases hv : indexInVector defs.SupportedVersionNumbers (getLineValues versionLine).2 < 0
    · exact ⟨_, readStatsFromStream_unsupported std defs versionLine _ reg hv⟩
    · rw [readStatsFromStream_header std defs versionLine shotCountLine _ reg
        numberOfShots hv hn]
      split_ifs with ht
      · exact ⟨_, rfl⟩
      · exact readBlocks_of_defect std defs _ complete reader good rest hblocks hgood
          hreader hrest _ (by omega) 0 _ reg

/-! ## The values of a version-1.0 block -/

theorem FieldReader.run_skipLine (std : FloatParsing) (data : StatsData) (line : List Char)
    (rest : List (List Char)) (reg : List Vector) :
    FieldReader.skipLine.run std data { lines := line :: rest, registered := reg } =
      Except.ok (some data, { lines := rest, registered := reg }) := by
  rfl

theorem FieldReader.run_last50Shots (std : FloatParsing) (data : StatsData)
    (line : List Char) (rest : List (List Char)) (reg : List Vector) :
    FieldReader.last50Shots.run std data { lines := line :: rest, registered := reg } =
      Except.ok (some { data with Stats := { data.Stats with
        Last50Shots := data.Stats.Last50Shots ++
          (getLineValues line).2.map (fun c => c == '1') } },
        { lines := rest, registered := reg }) := by
  rfl

theorem FieldReader.run_intField (std : FloatParsing) (store : StatsData → Int → StatsData)
    (data : StatsData) (line : List Char) (rest : List (List Char)) (n : Int)
    (reg : List Vector) (h : IsIntLine line n) :
    (FieldReader.intField store).run std data { lines := line :: rest, registered := reg } =
      Except.ok (some (store data n), { lines := rest, registered := reg }) := by
  show (readValueIntoField_int >>= fun value => pure (store data value)) _ = _
  rw [Reader.bind_of_some _ _ _ _ _ (readValueIntoField_int_of_isIntLine line n rest reg h)]
  rfl

theorem FieldReader.run_doubleField (std : FloatParsing) (store : StatsData → ℚ → StatsData)
    (data : StatsData) (line : List Char) (rest : List (List Char)) (v : ℚ)
    (reg : List Vector) (h : IsDoubleLine std line v) :
    (FieldReader.doubleField store).run std data
        { lines := line :: rest, registered := reg } =
      Except.ok (some (store data v), { lines := rest, registered := reg }) := by
  show (readValueIntoField_double std >>= fun value => pure (store data value)) _ = _
  rw [Reader.bind_of_some _ _ _ _ _
    (readValueIntoField_double_of_isDoubleLine std line v rest reg h)]
  rfl

/-- The loop body fills an initial snapshot with the values of a version-1.0 block and
registers nothing. -/
theorem readBlock_of_isBlock_1_0 (std : FloatParsing) (defs : StatFileDefs)
    (block : List (List Char)) (data : StatsData) (h : IsBlock_1_0 std block data)
    (rest : List (List Char)) (reg : List Vector) :
    readBlock std defs 0 {} { lines := block ++ rest, registered := reg } =
      Except.ok (some data, { lines := rest, registered := reg }) := by
  obtain ⟨hlen, h1, h2, h3, h4, h5, h6, h7, h8, h14, h15, h16, h17, z1, z2, z3, z4, z5, z6,
    z7, z8, z9, z10, z11, z12⟩ := h
  rcases block with _ | ⟨l0, block⟩
  · simp at hlen
  rcases block with _ | ⟨l1, block⟩
  · simp at hlen
  rcases block with _ | ⟨l2, block⟩
  · simp at hlen
  rcases block with _ | ⟨l3, block⟩
  · simp at hlen
  rcases block with _ | ⟨l4, block⟩
  · simp at hlen
  rcases block with _ | ⟨l5, block⟩
  · simp at hlen
  rcases block with _ | ⟨l6, block⟩
  · simp at hlen
  rcases block with _ | ⟨l7, block⟩
  · simp at hlen
  rcases block with _ | ⟨l8, block⟩
  · simp at hlen
  rcases block with _ | ⟨l9, block⟩
  · simp at hlen
  rcases block with _ | ⟨l10, block⟩
  · simp at hlen
  rcases block with _ | ⟨l11, block⟩
  · simp at hlen
  rcases block with _ | ⟨l12, block⟩
  · simp at hlen
  rcases block with _ | ⟨l13, block⟩
  · simp at hlen
  rcases block with _ | ⟨l14, block⟩
  · simp at hlen
  rcases block with _ | ⟨l15, block⟩
  · simp at hlen
  rcases block with _ | ⟨l16, block⟩
  · simp at hlen
  rcases block with _ | ⟨l17, block⟩
  · simp at hlen
  rcases block with _ | ⟨extra, block⟩
  swap
  · simp at hlen
  simp only [List.getD_cons_zero, List.getD_cons_succ] at h1 h2 h3 h4 h5 h6 h7 h8 h14 h15 h16 h17
  unfold readBlock readVersion_1_0 fields_1_0
  simp only [List.cons_append, List.nil_append]
  rw [Reader.bind_of_some _ _ _ _ _ (getline_cons l0 _ reg)]
  simp only [gt_iff_lt, lt_self_iff_false, if_false, Int.reduceLT]
  rw [Reader.bind_run]
  rw [runFields_cons, Reader.bind_of_some _ _ _ _ _ (FieldReader.run_intField std _ _ l1 _ _ reg h1)]
  rw [runFields_cons, Reader.bind_of_some _ _ _ _ _ (FieldReader.run_intField std _ _ l2 _ _ reg h2)]
  rw [runFields_cons, Reader.bind_of_some _ _ _ _ _ (FieldReader.run_intField std _ _ l3 _ _ reg h3)]
  rw [runFields_cons, Reader.bind_of_some _ _ _ _ _ (FieldReader.run_intField std _ _ l4 _ _ reg h4)]
  rw [runFields_cons, Reader.bind_of_some _ _ _ _ _ (FieldReader.run_intField std _ _ l5 _ _ reg h5)]
  rw [runFields_cons, Reader.bind_of_some _ _ _ _ _ (FieldReader.run_intField std _ _ l6 _ _ reg h6)]
  rw [runFields_cons, Reader.bind_of_some _ _ _ _ _ (FieldReader.run_intField std _ _ l7 _ _ reg h7)]
  rw [runFields_cons, Reader.bind_of_some _ _ _ _ _ (FieldReader.run_last50Shots std _ l8 _ reg)]
  rw [runFields_cons, Reader.bind_of_some _ _ _ _ _ (FieldReader.run_skipLine std _ l9 _ reg)]
  rw [runFields_cons, Reader.bind_of_some _ _ _ _ _ (FieldReader.run_skipLine std _ l10 _ reg)]
  rw [runFields_cons, Reader.bind_of_some _ _ _ _ _ (FieldReader.run_skipLine std _ l11 _ reg)]
  rw [runFields_cons, Reader.bind_of_some _ _ _ _ _ (FieldReader.run_skipLine std _ l12 _ reg)]
  rw [runFields_cons, Reader.bind_of_some _ _ _ _ _ (FieldReader.run_skipLine std _ l13 _ reg)]
  rw [runFields_cons, Reader.bind_of_some _ _ _ _ _ (FieldReader.run_doubleField std _ _ l14 _ _ reg h14)]
  rw [runFields_cons, Reader.bind_of_some _ _ _ _ _ (FieldReader.run_doubleField std _ _ l15 _ _ reg h15)]
  rw [runFields_cons, Reader.bind_of_some _ _ _ _ _ (FieldReader.run_doubleField std _ _ l16 _ _ reg h16)]
  rw [runFields_cons, Reader.bind_of_some _ _ _ _ _ (FieldReader.run_intField std _ _ l17 _ _ reg h17)]
  obtain ⟨⟨a1, a2, a3, a4, a5, a6, a7, a8, a9, a10, a11, a12, a13, a14, a15, a16⟩,
    ⟨b1, b2, b3, b4, b5, b6, b7, b8⟩⟩ := data
  simp only at z1 z2 z3 z4 z5 z6 z7 z8 z9 z10 z11 z12 h8
  subst z1 z2 z3 z4 z5 z6 z7 z8 z9 z10 z11 z12 h8
  rfl

theorem getD_append_cons {α : Type} (xs : List α) (x : α) (ys : List α) (d : α) :
    (xs ++ x :: ys).getD xs.length d = x := by
  induction xs with
  | nil => rfl
  | cons a xs ih => simpa using ih

theorem set_append_cons {α : Type} (xs : List α) (x : α) (ys : List α) (y : α) :
    (xs ++ x :: ys).set xs.length y = xs ++ y :: ys := by
  induction xs with
  | nil => rfl
  | cons a xs ih => simp [ih]

/-- The loop fills the per-shot snapshots that are still at their initial values with the
values of version-1.0 blocks, in file order. -/
theorem readBlocks_of_isBlock_1_0 (std : FloatParsing) (defs : StatFileDefs)
    (blocks : List (List (List Char))) (datas : List StatsData)
    (h : List.Forall₂ (IsBlock_1_0 std) blocks datas)
    (overall : StatsData) (filled : List StatsData) (rest : List (List Char))
    (reg : List Vector) :
    readBlocks std defs 0 blocks.length (filled.length + 1)
        { AllShotStats := overall,
          PerShotStats := filled ++ List.replicate blocks.length {} }
        { lines := blocks.flatten ++ rest, registered := reg } =
      Except.ok (some { AllShotStats := overall, PerShotStats := filled ++ datas },
        { lines := rest, registered := reg }) := by
  induction h generalizing filled with
  | nil =>
    rw [List.length_nil, readBlocks_zero]
    rfl
  | @cons block data blocks datas hb _ ih =>
    have hobj : ShotStats.objectToBeFilled
        { AllShotStats := overall,
          PerShotStats := filled ++ List.replicate (blocks.length + 1) {} }
        (filled.length + 1) = {} := by
      rw [List.replicate_succ]
      exact getD_append_cons filled _ _ _
    have hfill : ShotStats.fill
        { AllShotStats := overall,
          PerShotStats := filled ++ List.replicate (blocks.length + 1) {} }
        (filled.length + 1) data =
        { AllShotStats := overall,
          PerShotStats := filled ++ data :: List.replicate blocks.length {} } := by
      rw [List.replicate_succ]
      show ShotStats.mk overall _ = _
      rw [set_append_cons]
    have hnext := ih (filled ++ [data])
    rw [List.length_append, List.length_singleton, List.append_assoc,
      List.singleton_append, List.append_assoc, List.singleton_append] at hnext
    rw [List.flatten_cons, List.append_assoc, List.length_cons, readBlocks_succ, hobj,
      Reader.bind_of_some _ _ _ _ _
        (readBlock_of_isBlock_1_0 std defs block data hb (blocks.flatten ++ rest) reg),
      hfill, hnext]

/-! ## The attempts of the overall snapshot -/

theorem Reader.bind_pure_some {α β : Type} (r : Reader α) (g : α → β) (s s1 : ReaderState)
    (b : β) (h : (r >>= fun a => pure (g a)) s = Except.ok (some b, s1)) :
    ∃ a : α, b = g a := by
  rw [Reader.bind_run] at h
  cases hr : r s with
  | error e => rw [hr] at h; cases h
  | ok p =>
    obtain ⟨o, s2⟩ := p
    cases o with
    | none => rw [hr] at h; cases h
    | some a =>
      rw [hr] at h
      refine ⟨a, ?_⟩
      simp only [Reader.pure_run, Except.ok.injEq, Prod.mk.injEq, Option.some.injEq] at h
      exact h.1.symm

theorem FieldReader.run_keepsAttempts (std : FloatParsing) (field : FieldReader)
    (hk : field.KeepsAttempts) (data filled : StatsData) (s s1 : ReaderState)
    (h : field.run std data s = Except.ok (some filled, s1)) :
    filled.Stats.Attempts = data.Stats.Attempts := by
  cases field with
  | skipLine =>
    obtain ⟨_, rfl⟩ := Reader.bind_pure_some getline (fun _ => data) s s1 filled h
    rfl
  | last50Shots =>
    obtain ⟨_, rfl⟩ := Reader.bind_pure_some getline _ s s1 filled h
    rfl
  | intField store =>
    obtain ⟨v, rfl⟩ := Reader.bind_pure_some readValueIntoField_int _ s s1 filled h
    exact hk data v
  | doubleField store =>
    obtain ⟨v, rfl⟩ := Reader.bind_pure_some (readValueIntoField_double std) _ s s1 filled h
    exact hk data v
  | floatField store =>
    obtain ⟨v, rfl⟩ := Reader.bind_pure_some (readValueIntoField_float std) _ s s1 filled h
    exact hk data v

theorem LineReader.runLine_keepsAttempts (std : FloatParsing) (defs : StatFileDefs)
    (reader : LineReader) (hk : reader.KeepsAttempts) (data filled : StatsData)
    (s s1 : ReaderState) (h : reader.run std defs data s = Except.ok (some filled, s1)) :
    filled.Stats.Attempts = data.Stats.Attempts := by
  cases reader with
  | field field => exact FieldReader.run_keepsAttempts std field hk data filled s s1 h
  | impactLocations =>
    obtain ⟨_, rfl⟩ :=
      Reader.bind_pure_some (readVersion_1_2_additions std defs) (fun _ => data) s s1 filled h
    rfl

theorem runLines_keepsAttempts (std : FloatParsing) (defs : StatFileDefs)
    (readers : List LineReader) (hk : ∀ reader ∈ readers, reader.KeepsAttempts)
    (data filled : StatsData) (s s1 : ReaderState)
    (h : runLines std defs readers data s = Except.ok (some filled, s1)) :
    filled.Stats.Attempts = data.Stats.Attempts := by
  induction readers generalizing data s with
  | nil =>
    rw [runLines_nil, Reader.pure_run] at h
    simp only [Except.ok.injEq, Prod.mk.injEq, Option.some.injEq] at h
    rw [h.1]
  | cons reader readers ih =>
    rw [runLines_cons, Reader.bind_run] at h
    cases hr : reader.run std defs data s with
    | error e => rw [hr] at h; cases h
    | ok p =>
      obtain ⟨o, s2⟩ := p
      cases o with
      | none => rw [hr] at h; cases h
      | some next =>
        rw [hr] at h
        rw [ih (fun r hr => hk r (List.mem_cons_of_mem _ hr)) next s2 h,
          LineReader.runLine_keepsAttempts std defs reader (hk reader (List.mem_cons_self _ _))
            data next s s2 hr]

/-- The readers of a block: the separator, the attempts, and readers that leave the
attempts alone. -/
theorem blockLines_eq (versionIndex : Int) :
    ∃ (store : StatsData → Int → StatsData) (others : List LineReader),
      blockLines versionIndex =
        LineReader.field FieldReader.skipLine ::
          LineReader.field (FieldReader.intField store) :: others ∧
      (∀ (d : StatsData) (v : Int), (store d v).Stats.Attempts = v) ∧
      ∀ reader ∈ others, reader.KeepsAttempts := by
  by_cases h0 : versionIndex > 0 <;> by_cases h1 : versionIndex > 1 <;>
    simp only [blockLines, h0, h1, if_true, if_false, fields_1_0, fields_1_1, List.map_cons,
      List.map_nil, List.cons_append, List.nil_append, List.append_nil] <;>
    refine ⟨_, _, rfl, fun _ _ => rfl, ?_⟩ <;>
    intro reader hr <;>
    repeat (first
      | exact absurd hr (List.not_mem_nil _)
      | (cases hr with
        | head => first | exact trivial | exact fun _ _ => rfl
        | tail _ hr => ?_))

theorem LineReader.run_field (std : FloatParsing) (defs : StatFileDefs)
    (reader : FieldReader) (data : StatsData) :
    (LineReader.field reader).run std defs data = reader.run std data := by
  funext s
  rfl

/-- The loop body reads a complete block; the attempts of the snapshot are then the value
of the second line of the block. -/
theorem readBlock_attempts (std : FloatParsing) (defs : StatFileDefs) (versionIndex : Int)
    (block : List (List Char))
    (h : List.Forall₂ (LineReader.Accepts std defs) (blockLines versionIndex) block)
    (data : StatsData) (rest : List (List Char)) (reg : List Vector) :
    ∃ (filled : StatsData) (vectors : List Vector) (separator attemptsLine : List Char)
      (others : List (List Char)),
      block = separator :: attemptsLine :: others ∧
      IsIntLine attemptsLine filled.Stats.Attempts ∧
      readBlock std defs versionIndex data { lines := block ++ rest, registered := reg } =
        Except.ok (some filled, { lines := rest, registered := reg ++ vectors }) := by
  obtain ⟨store, readers, hbl, hstore, hkeep⟩ := blockLines_eq versionIndex
  rw [hbl] at h
  obtain ⟨separator, block1, _, h1, rfl⟩ := List.forall₂_cons_left_iff.mp h
  obtain ⟨attemptsLine, others, ⟨n, hn⟩, h2, rfl⟩ := List.forall₂_cons_left_iff.mp h1
  obtain ⟨filled, vectors, hf⟩ :=
    runLines_of_accepts std defs readers others h2 (store data n) rest reg
  have ha := runLines_keepsAttempts std defs readers hkeep _ _ _ _ hf
  rw [hstore] at ha
  refine ⟨filled, vectors, separator, attemptsLine, others, rfl, ?_, ?_⟩
  · rw [ha]
    exact hn
  · rw [readBlock_eq_runLines, hbl, List.cons_append, List.cons_append, runLines_cons,
      LineReader.run_field,
      Reader.bind_of_some _ _ _ _ _
        (FieldReader.run_skipLine std data separator (attemptsLine :: (others ++ rest)) reg),
      runLines_cons, LineReader.run_field,
      Reader.bind_of_some _ _ _ _ _
        (FieldReader.run_intField std store data attemptsLine (others ++ rest) n reg hn)]
    exact hf

theorem peekAttemptAmountFromStream_of_lines (defs : StatFileDefs)
    (versionLine shotCountLine separator attemptsLine : List Char)
    (rest : List (List Char)) (reg : List Vector) (attempts : Int)
    (hversion : (getLineValues versionLine).1 = defs.Version)
    (hsupported :
      ¬ indexInVector defs.SupportedVersionNumbers (getLineValues versionLine).2 < 0)
    (hn : stoi (getLineValues attemptsLine).2 = Except.ok attempts) :
    peekAttemptAmountFromStream defs
        { lines := versionLine :: shotCountLine :: separator :: attemptsLine :: rest,
          registered := reg } =
      if (getLineValues attemptsLine).1 ≠ defs.Attempts ∨ attempts < 0 then
        Except.ok (none, { lines := rest, registered := reg })
      else Except.ok (some attempts, { lines := rest, registered := reg }) := by
  unfold peekAttemptAmountFromStream
  rw [Reader.bind_of_some _ _ _ _ _ (getline_cons versionLine _ reg)]
  simp only [hversion, hsupported, ne_eq, not_true_eq_false, or_self, if_false]
  rw [Reader.bind_of_some _ _ _ _ _ (getline_cons shotCountLine _ reg),
    Reader.bind_of_some _ _ _ _ _ (getline_cons separator _ reg),
    Reader.bind_of_some _ _ _ _ _ (getline_cons attemptsLine _ reg)]
  have hs : Reader.ofExcept (stoi (getLineValues attemptsLine).2)
      { lines := rest, registered := reg } =
      Except.ok (some attempts, { lines := rest, registered := reg }) := by
    rw [Reader.ofExcept_run, hn]
  rw [Reader.bind_of_some _ _ _ _ _ hs]
  split_ifs <;> rfl

theorem peekAttemptAmountFromStream_throws (defs : StatFileDefs)
    (versionLine shotCountLine separator attemptsLine : List Char)
    (rest : List (List Char)) (reg : List Vector) (e : StdException)
    (hversion : (getLineValues versionLine).1 = defs.Version)
    (hsupported :
      ¬ indexInVector defs.SupportedVersionNumbers (getLineValues versionLine).2 < 0)
    (hn : stoi (getLineValues attemptsLine).2 = Except.error e) :
    peekAttemptAmountFromStream defs
        { lines := versionLine :: shotCountLine :: separator :: attemptsLine :: rest,
          registered := reg } =
      Except.error e := by
  unfold peekAttemptAmountFromStream
  rw [Reader.bind_of_some _ _ _ _ _ (getline_cons versionLine _ reg)]
  simp only [hversion, hsupported, ne_eq, not_true_eq_false, or_self, if_false]
  rw [Reader.bind_of_some _ _ _ _ _ (getline_cons shotCountLine _ reg),
    Reader.bind_of_some _ _ _ _ _ (getline_cons separator _ reg),
    Reader.bind_of_some _ _ _ _ _ (getline_cons attemptsLine _ reg)]
  have hs : Reader.ofExcept (stoi (getLineValues attemptsLine).2)
      { lines := rest, registered := reg } = Except.error e := by
    rw [Reader.ofExcept_run, hn]
  rw [Reader.bind_of_error _ _ _ _ hs]

/-! ## Exceptions -/

/-- An exception of `std::stoi` leaves `readValueIntoField`. -/
theorem readValueIntoField_int_throws (line : List Char) (rest : List (List Char))
    (reg : List Vector) (e : StdException) (hkv : HasKeyAndValue line)
    (he : stoi (getLineValues line).2 = Except.error e) :
    readValueIntoField_int { lines := line :: rest, registered := reg } = Except.error e := by
  have hne := hasKeyAndValue_ne_nil line hkv
  unfold readValueIntoField_int
  rw [Reader.bind_of_some _ _ _ _ _ (getline_cons line rest reg)]
  simp only [hne, if_false, hkv.1, hkv.2, or_self]
  have hs : Reader.ofExcept (stoi (getLineValues line).2)
      { lines := rest, registered := reg } = Except.error e := by
    rw [Reader.ofExcept_run, he]
  rw [Reader.bind_of_error _ _ _ _ hs]

/-- An exception on the attempts line of a block leaves the loop body. -/
theorem readBlock_throws (std : FloatParsing) (defs : StatFileDefs) (versionIndex : Int)
    (separator attemptsLine : List Char) (rest : List (List Char)) (reg : List Vector)
    (e : StdException) (data : StatsData) (hkv : HasKeyAndValue attemptsLine)
    (he : stoi (getLineValues attemptsLine).2 = Except.error e) :
    readBlock std defs versionIndex data
        { lines := separator :: attemptsLine :: rest, registered := reg } =
      Except.error e := by
  obtain ⟨store, readers, hbl, _, _⟩ := blockLines_eq versionIndex
  have hfield : (FieldReader.intField store).run std data
      { lines := attemptsLine :: rest, registered := reg } = Except.error e := by
    show (readValueIntoField_int >>= fun value => pure (store data value)) _ = _
    rw [Reader.bind_of_error _ _ _ _ (readValueIntoField_int_throws attemptsLine rest reg e
      hkv he)]
  rw [readBlock_eq_runLines, hbl, runLines_cons, LineReader.run_field,
    Reader.bind_of_some _ _ _ _ _
      (FieldReader.run_skipLine std data separator (attemptsLine :: rest) reg),
    runLines_cons, LineReader.run_field, Reader.bind_of_error _ _ _ _ hfield]

/-- The lines of `exampleBlock` are accepted by the readers of a version-1.0 block. -/
theorem exampleBlock_accepted :
    List.Forall₂ (LineReader.Accepts plainDecimalParsing exampleDefs)
      (blockLines (indexInVector exampleDefs.SupportedVersionNumbers
        (getLineValues "Version\t1.0".toList).2)) exampleBlock :=
  List.Forall₂.cons trivial
    (List.Forall₂.cons (⟨3, by decide⟩)
    (List.Forall₂.cons (⟨0, by decide⟩)
    (List.Forall₂.cons (⟨0, by decide⟩)
    (List.Forall₂.cons (⟨0, by decide⟩)
    (List.Forall₂.cons (⟨3, by decide⟩)
    (List.Forall₂.cons (⟨0, by decide⟩)
    (List.Forall₂.cons (⟨3, by decide⟩)
    (List.Forall₂.cons trivial
    (List.Forall₂.cons trivial
    (List.Forall₂.cons trivial
    (List.Forall₂.cons trivial
    (List.Forall₂.cons trivial
    (List.Forall₂.cons trivial
    (List.Forall₂.cons (⟨0, by decide⟩)
    (List.Forall₂.cons (⟨0, by decide⟩)
    (List.Forall₂.cons (⟨0, by decide⟩)
    (List.Forall₂.cons (⟨0, by decide⟩)
    (List.Forall₂.nil))))))))))))))))))

/-! ## Labels that are not compared -/

theorem Reader.alike_pure {α β : Type} (defs : StatFileDefs) (R : α → β → Prop) (a : α)
    (b : β) (h : R a b) : Reader.Alike defs R (pure a) (pure b) := by
  intro s t hst
  exact ⟨h, hst⟩

theorem Reader.alike_fail {α β : Type} (defs : StatFileDefs) (R : α → β → Prop) :
    Reader.Alike defs R (Reader.fail : Reader α) (Reader.fail : Reader β) := by
  intro s t hst
  exact hst

theorem Reader.alike_ofExcept {α : Type} (defs : StatFileDefs) (x : Except StdException α) :
    Reader.Alike defs Eq (Reader.ofExcept x) (Reader.ofExcept x) := by
  intro s t hst
  cases x with
  | error e => exact rfl
  | ok a => exact ⟨rfl, hst⟩

theorem Reader.alike_bind {α β γ δ : Type} (defs : StatFileDefs) (R : α → β → Prop)
    (Q : γ → δ → Prop) (r : Reader α) (q : Reader β) (f : α → Reader γ) (g : β → Reader δ)
    (h : Reader.Alike defs R r q)
    (hf : ∀ a b, R a b → Reader.Alike defs Q (f a) (g b)) :
    Reader.Alike defs Q (r >>= f) (q >>= g) := by
  intro s t hst
  have hrq := h s t hst
  rw [Reader.bind_run, Reader.bind_run]
  cases hr : r s with
  | error e =>
    cases hq : q t with
    | error e2 => rw [hr, hq] at hrq; exact hrq
    | ok p2 =>
      obtain ⟨o2, t2⟩ := p2
      rw [hr, hq] at hrq
      cases o2 <;> exact absurd hrq id
  | ok p =>
    obtain ⟨o, s1⟩ := p
    cases hq : q t with
    | error e2 =>
      rw [hr, hq] at hrq
      cases o <;> exact absurd hrq id
    | ok p2 =>
      obtain ⟨o2, t2⟩ := p2
      rw [hr, hq] at hrq
      cases o with
      | none =>
        cases o2 with
        | none => exact hrq
        | some b => exact absurd hrq id
      | some a =>
        cases o2 with
        | none => exact absurd hrq id
        | some b => exact hf a b hrq.1 s1 t2 hrq.2

theorem getline_alike (defs : StatFileDefs) :
    Reader.Alike defs (SameButLabel defs) getline getline := by
  intro s t hst
  obtain ⟨ls, rs⟩ := s
  obtain ⟨lt, rt⟩ := t
  obtain ⟨hl, hr⟩ := hst
  simp only at hl hr
  cases hl with
  | nil => exact ⟨List.Forall₂.nil, hr⟩
  | cons h1 h2 => exact ⟨h1, h2, hr⟩

theorem readValueIntoField_int_alike (defs : StatFileDefs) :
    Reader.Alike defs Eq readValueIntoField_int readValueIntoField_int := by
  unfold readValueIntoField_int
  refine Reader.alike_bind defs _ _ _ _ _ _ (getline_alike defs) ?_
  intro a b hab
  obtain ⟨hv, he, hk, _, _⟩ := hab
  simp only [hv, he, hk]
  split_ifs
  · exact Reader.alike_fail defs _
  · exact Reader.alike_fail defs _
  · refine Reader.alike_bind defs _ _ _ _ _ _ (Reader.alike_ofExcept defs _) ?_
    intro v w hvw
    subst hvw
    split_ifs
    · exact Reader.alike_fail defs _
    · exact Reader.alike_pure defs _ _ _ rfl

theorem readValueIntoField_double_alike (std : FloatParsing) (defs : StatFileDefs) :
    Reader.Alike defs Eq (readValueIntoField_double std) (readValueIntoField_double std) := by
  unfold readValueIntoField_double
  refine Reader.alike_bind defs _ _ _ _ _ _ (getline_alike defs) ?_
  intro a b hab
  obtain ⟨hv, he, hk, _, _⟩ := hab
  simp only [hv, he, hk]
  split_ifs
  · exact Reader.alike_fail defs _
  · exact Reader.alike_fail defs _
  · refine Reader.alike_bind defs _ _ _ _ _ _ (Reader.alike_ofExcept defs _) ?_
    intro v w hvw
    subst hvw
    split_ifs
    · exact Reader.alike_fail defs _
    · exact Reader.alike_pure defs _ _ _ rfl

theorem readValueIntoField_float_alike (std : FloatParsing) (defs : StatFileDefs) :
    Reader.Alike defs Eq (readValueIntoField_float std) (readValueIntoField_float std) := by
  unfold readValueIntoField_float
  refine Reader.alike_bind defs _ _ _ _ _ _ (readValueIntoField_double_alike std defs) ?_
  intro v w hvw
  subst hvw
  exact Reader.alike_pure defs _ _ _ rfl

theorem FieldReader.run_alike (std : FloatParsing) (defs : StatFileDefs)
    (field : FieldReader) (data : StatsData) :
    Reader.Alike defs Eq (field.run std data) (field.run std data) := by
  cases field with
  | skipLine =>
    refine Reader.alike_bind defs _ _ _ _ _ _ (getline_alike defs) ?_
    intro a b _
    exact Reader.alike_pure defs _ _ _ rfl
  | last50Shots =>
    refine Reader.alike_bind defs _ _ _ _ _ _ (getline_alike defs) ?_
    intro a b hab
    refine Reader.alike_pure defs _ _ _ ?_
    simp only [hab.1]
  | intField store =>
    refine Reader.alike_bind defs _ _ _ _ _ _ (readValueIntoField_int_alike defs) ?_
    intro v w hvw
    subst hvw
    exact Reader.alike_pure defs _ _ _ rfl
  | doubleField store =>
    refine Reader.alike_bind defs _ _ _ _ _ _ (readValueIntoField_double_alike std defs) ?_
    intro v w hvw
    subst hvw
    exact Reader.alike_pure defs _ _ _ rfl
  | floatField store =>
    refine Reader.alike_bind defs _ _ _ _ _ _ (readValueIntoField_float_alike std defs) ?_
    intro v w hvw
    subst hvw
    exact Reader.alike_pure defs _ _ _ rfl

theorem runFields_alike (std : FloatParsing) (defs : StatFileDefs)
    (fields : List FieldReader) (data : StatsData) :
    Reader.Alike defs Eq (runFields std fields data) (runFields std fields data) := by
  induction fields generalizing data with
  | nil => exact Reader.alike_pure defs _ _ _ rfl
  | cons field fields ih =>
    rw [runFields_cons]
    refine Reader.alike_bind defs _ _ _ _ _ _ (FieldReader.run_alike std defs field data) ?_
    intro v w hvw
    subst hvw
    exact ih v

theorem findFrom_of_drop (c : Char) (text : List Char) (offset : Nat)
    (found rest : List Char) (h : text.drop offset = found ++ c :: rest) (hc : c ∉ found) :
    findFrom c text offset = some (offset + found.length) := by
  unfold findFrom
  rw [h, if_pos (by simp), List.indexOf_append_of_not_mem hc, List.indexOf_cons_self]
  rfl

theorem substr_of_drop (c : Char) (text : List Char) (offset : Nat)
    (found rest : List Char) (h : text.drop offset = found ++ c :: rest)
    (ho : 1 ≤ offset) :
    ∃ tail : List Char, substr text offset (offset + found.length) = found ++ c :: tail := by
  obtain ⟨k, rfl⟩ : ∃ k, offset = k + 1 := ⟨offset - 1, by omega⟩
  refine ⟨rest.take k, ?_⟩
  unfold substr
  rw [h, Nat.add_comm, List.take_append, List.take_succ_cons]

theorem drop_of_drop (c : Char) (text : List Char) (offset : Nat)
    (found rest : List Char) (h : text.drop offset = found ++ c :: rest) :
    text.drop (offset + found.length + 1) = rest := by
  rw [Nat.add_assoc, ← List.drop_drop, h, List.drop_append]
  rfl

theorem readImpactLocations_succ (std : FloatParsing) (text : List Char)
    (remaining offset : Nat) :
    readImpactLocations std text (remaining + 1) offset =
      match findFrom ',' text offset with
      | none => Reader.fail
      | some xEnd =>
          Reader.ofExcept (std.stof (substr text offset xEnd)) >>= fun x =>
          match findFrom ',' text (xEnd + 1) with
          | none => Reader.fail
          | some yEnd =>
              Reader.ofExcept (std.stof (substr text (xEnd + 1) yEnd)) >>= fun y =>
              match findFrom '|' text (yEnd + 1) with
              | none => Reader.fail
              | some zEnd =>
                  Reader.ofExcept (std.stof (substr text (yEnd + 1) zEnd)) >>= fun z =>
                  registerImpactLocation { X := x, Y := y, Z := z } >>= fun _ =>
                  readImpactLocations std text remaining (zEnd + 1) := by
  funext s
  rfl

theorem Reader.ofExcept_ok_bind {α β : Type} (a : α) (f : α → Reader β) :
    (Reader.ofExcept (Except.ok a) >>= f) = f a := by
  funext s
  rfl

theorem registerImpactLocation_bind {β : Type} (vector : Vector) (f : Unit → Reader β)
    (lines : List (List Char)) (reg : List Vector) :
    (registerImpactLocation vector >>= f) { lines := lines, registered := reg } =
      f () { lines := lines, registered := reg ++ [vector] } := by
  rfl

/-- The loop of `readVersion_1_2_additions` registers the vectors of the text that starts
at `offset`, in the order of the text. -/
theorem readImpactLocations_of_texts (std : FloatParsing) (text : List Char)
    (texts : List VectorText) (vectors : List Vector)
    (h : List.Forall₂ (IsVectorText std) texts vectors) :
    ∀ (offset : Nat) (lines : List (List Char)) (reg : List Vector), 1 ≤ offset →
      text.drop offset = (texts.map VectorText.chars).flatten →
      readImpactLocations std text texts.length offset { lines := lines, registered := reg } =
        Except.ok (some (), { lines := lines, registered := reg ++ vectors }) := by
  induction h with
  | nil =>
    intro offset lines reg _ _
    rw [List.append_nil]
    rfl
  | @cons vt vector texts vectors hv _ ih =>
    intro offset lines reg ho hd
    obtain ⟨⟨hxc, hx⟩, ⟨hyc, hy⟩, ⟨hzc, hz⟩⟩ := hv
    rw [List.map_cons, List.flatten_cons] at hd
    unfold VectorText.chars at hd
    simp only [List.append_assoc, List.cons_append, List.nil_append] at hd
    have fx := findFrom_of_drop ',' text offset _ _ hd hxc
    obtain ⟨tx, sx⟩ := substr_of_drop ',' text offset _ _ hd ho
    have dx := drop_of_drop ',' text offset _ _ hd
    have fy := findFrom_of_drop ',' text _ _ _ dx hyc
    obtain ⟨ty, sy⟩ := substr_of_drop ',' text _ _ _ dx (by omega)
    have dy := drop_of_drop ',' text _ _ _ dx
    have fz := findFrom_of_drop '|' text _ _ _ dy hzc
    obtain ⟨tz, sz⟩ := substr_of_drop '|' text _ _ _ dy (by omega)
    have dz := drop_of_drop '|' text _ _ _ dy
    rw [List.length_cons, readImpactLocations_succ]
    simp only [fx, sx, hx, Reader.ofExcept_ok_bind, fy, sy, hy, fz, sz, hz]
    rw [registerImpactLocation_bind, ih _ lines _ (by omega) dz, List.append_assoc,
      List.singleton_append]

theorem getLineValues_of_tab (key value : List Char) (h : '\t' ∉ key) :
    getLineValues (key ++ '\t' :: value) = (key, value) := by
  unfold getLineValues
  rw [if_pos (by simp)]
  induction key with
  | nil => rfl
  | cons c key ih =>
    have hc : (c != '\t') = true := by
      simp only [List.mem_cons, not_or] at h
      simpa using fun e => h.1 e.symm
    have ht : '\t' ∉ key := fun e => h (List.mem_cons_of_mem _ e)
    have ih := ih ht
    simp only [Prod.mk.injEq] at ih
    simp only [List.cons_append, List.takeWhile_cons, List.dropWhile_cons, hc, if_true,
      ih.1, ih.2]

/-- A line of the form `ImpactLocations<TAB>count|x1,y1,z1|...|` is read with its vectors
registered in the order of the line. -/
theorem readVersion_1_2_additions_of_line (std : FloatParsing) (defs : StatFileDefs)
    (countText : List Char) (texts : List VectorText) (vectors : List Vector)
    (rest : List (List Char)) (reg : List Vector)
    (htag : defs.ImpactLocations ≠ []) (htab : '\t' ∉ defs.ImpactLocations)
    (hsep : '|' ∉ countText)
    (hcount : stoi countText = Except.ok (texts.length : Int))
    (h : List.Forall₂ (IsVectorText std) texts vectors) :
    readVersion_1_2_additions std defs
        { lines := impactLocationsLine defs countText texts :: rest, registered := reg } =
      Except.ok (some (), { lines := rest, registered := reg ++ vectors }) := by
  have hline : impactLocationsLine defs countText texts ≠ [] := by
    unfold impactLocationsLine
    simp
  have hvalues := getLineValues_of_tab defs.ImpactLocations
    (countText ++ '|' :: (texts.map VectorText.chars).flatten) htab
  have hdrop : (countText ++ '|' :: (texts.map VectorText.chars).flatten).drop 0 =
      countText ++ '|' :: (texts.map VectorText.chars).flatten := rfl
  have hfind := findFrom_of_drop '|' _ 0 _ _ hdrop hsep
  have hrest := drop_of_drop '|' _ 0 _ _ hdrop
  have hsub : substr (countText ++ '|' :: (texts.map VectorText.chars).flatten) 0
      (0 + countText.length) = countText := by
    unfold substr
    rw [List.drop_zero, Nat.zero_add, List.take_left]
  unfold readVersion_1_2_additions
  rw [Reader.bind_of_some _ _ _ _ _ (getline_cons _ rest reg)]
  simp only [hline, if_false]
  unfold impactLocationsLine at hline ⊢
  simp only [hvalues, htag, false_or, List.append_eq_nil, List.cons_ne_nil, and_false,
    if_false, ne_eq, not_true_eq_false, hfind, hsub, hcount, Reader.ofExcept_ok_bind]
  cases texts with
  | nil =>
    cases h
    simp only [List.length_nil, Nat.cast_zero, gt_iff_lt, lt_self_iff_false, if_false,
      List.append_nil]
    rfl
  | cons text texts =>
    have hpos : ((text :: texts).length : Int) > 0 := by
      simp only [List.length_cons, Nat.cast_add, Nat.cast_one]
      omega
    simp only [hpos, if_true, Int.toNat_ofNat]
    exact readImpactLocations_of_texts std _ _ vectors h _ rest reg (by omega) hrest

theorem toFloat_intCast (n : ℤ) (h : |n| < 2 ^ 24) : toFloat (n : ℚ) = n := by
  unfold toFloat
  split_ifs with h0
  · exact h0.symm
  · have hn : n ≠ 0 := by exact_mod_cast h0
    have hx : (0 : ℚ) < |(n : ℚ)| := abs_pos.mpr h0
    have h1 : (1 : ℚ) ≤ |(n : ℚ)| := by
      have : 1 ≤ |n| := Int.one_le_abs hn
      exact_mod_cast this
    have hlo : 0 ≤ Int.log 2 |(n : ℚ)| :=
      (Int.zpow_le_iff_le_log (by norm_num) hx).mp (by simpa using h1)
    have hhi : Int.log 2 |(n : ℚ)| < 24 :=
      (Int.lt_zpow_iff_log_lt (by norm_num) hx).mp (by
        have : (|n| : ℤ) < 2 ^ 24 := h
        have h2 : ((|n| : ℤ) : ℚ) < 2 ^ 24 := by exact_mod_cast this
        have h3 : |(n : ℚ)| < 2 ^ 24 := by simpa using h2
        have h4 : ((2 : ℕ) : ℚ) ^ (24 : ℤ) = 2 ^ 24 := by norm_cast
        rw [h4]; exact h3)
    obtain ⟨k, hk⟩ : ∃ k : ℕ, Int.log 2 |(n : ℚ)| - 23 = -(k : ℤ) :=
      ⟨(23 - Int.log 2 |(n : ℚ)|).toNat, by omega⟩
    rw [hk]
    have e1 : (n : ℚ) / 2 ^ (-(k : ℤ)) = ((n * 2 ^ k : ℤ) : ℚ) := by
      rw [zpow_neg, zpow_natCast]; push_cast; field_simp
    rw [e1, roundToEven_intCast, zpow_neg, zpow_natCast]
    push_cast
    field_simp

/-- The example parsing reads a single digit before a separator as its value. -/
theorem isComponent_of_digit (separator : Char) (hs : separator = ',' ∨ separator = '|')
    (c : Char) (value : ℚ)
    (hc : (c, value) ∈ [('1', (1 : ℚ)), ('2', 2), ('3', 3), ('4', 4), ('5', 5), ('6', 6)]) :
    IsComponent plainDecimalParsing separator [c] value := by
  have h1 := toFloat_intCast 1 (by norm_num)
  have h2 := toFloat_intCast 2 (by norm_num)
  have h3 := toFloat_intCast 3 (by norm_num)
  have h4 := toFloat_intCast 4 (by norm_num)
  have h5 := toFloat_intCast 5 (by norm_num)
  have h6 := toFloat_intCast 6 (by norm_num)
  simp only [Int.cast_one, Int.cast_ofNat] at h1 h2 h3 h4 h5 h6
  simp only [List.mem_cons, Prod.mk.injEq, List.mem_nil_iff, or_false] at hc
  rcases hs with rfl | rfl <;>
    rcases hc with ⟨rfl, rfl⟩ | ⟨rfl, rfl⟩ | ⟨rfl, rfl⟩ | ⟨rfl, rfl⟩ | ⟨rfl, rfl⟩ | ⟨rfl, rfl⟩ <;>
    refine ⟨by decide, fun tail => ?_⟩ <;>
    simp [plainDecimalParsing, plainDecimalValue, isSpace, digitsValue, h1, h2, h3, h4, h5,
      h6]

/-! ## Impact locations of a parse that fails -/

/-- The statements of a block reader go on over lines that they accept and register
nothing. -/
theorem runFields_of_accepts (std : FloatParsing) (fields : List FieldReader)
    (lines : List (List Char)) (h : List.Forall₂ (FieldReader.Accepts std) fields lines)
    (data : StatsData) (rest : List (List Char)) (reg : List Vector) :
    ∃ filled : StatsData,
      runFields std fields data { lines := lines ++ rest, registered := reg } =
        Except.ok (some filled, { lines := rest, registered := reg }) := by
  induction h generalizing data with
  | nil => exact ⟨data, rfl⟩
  | @cons field line fields lines hl _ ih =>
    obtain ⟨d1, h1⟩ := FieldReader.run_of_accepts std field data line (lines ++ rest) reg hl
    obtain ⟨d2, h2⟩ := ih d1
    refine ⟨d2, ?_⟩
    rw [runFields_cons, List.cons_append, Reader.bind_of_some _ _ _ _ _ h1, h2]

theorem readBlock_of_nil (std : FloatParsing) (defs : StatFileDefs) (versionIndex : Int)
    (data : StatsData) (reg : List Vector) :
    readBlock std defs versionIndex data { lines := [], registered := reg } =
      Except.ok (none, { lines := [], registered := reg }) := by
  unfold readBlock
  rw [Reader.bind_of_none _ _ _ _ (getline_nil reg)]

/-- The loop body on a complete block of the third version: the impact locations of its
last line are registered. -/
theorem readBlock_of_impact (std : FloatParsing) (defs : StatFileDefs)
    (fieldLines : List (List Char)) (impactLine : List Char) (vectors : List Vector)
    (hfields : List.Forall₂ (FieldReader.Accepts std)
      (FieldReader.skipLine :: fields_1_0 ++ fields_1_1) fieldLines)
    (himpact : readVersion_1_2_additions std defs
        { lines := [impactLine], registered := [] } =
      Except.ok (some (), { lines := [], registered := vectors }))
    (data : StatsData) (rest : List (List Char)) (reg : List Vector) :
    ∃ filled : StatsData,
      readBlock std defs 2 data
          { lines := (fieldLines ++ [impactLine]) ++ rest, registered := reg } =
        Except.ok (some filled, { lines := rest, registered := reg ++ vectors }) := by
  have hbl : blockLines 2 =
      (FieldReader.skipLine :: fields_1_0 ++ fields_1_1).map LineReader.field ++
        [LineReader.impactLocations] := by
    unfold blockLines
    rw [if_pos (by decide), if_pos (by decide), ← List.map_append]
  obtain ⟨filled, hf⟩ := runFields_of_accepts std _ fieldLines hfields data
    (impactLine :: rest) reg
  have hi : readVersion_1_2_additions std defs
      { lines := impactLine :: rest, registered := reg } =
      Except.ok (some (), { lines := rest, registered := reg ++ vectors }) := by
    rw [readVersion_1_2_additions_framed, himpact]
    rfl
  refine ⟨filled, ?_⟩
  rw [readBlock_eq_runLines, hbl, runLines_append, runLines_map_field, List.append_assoc,
    List.singleton_append, Reader.bind_of_some _ _ _ _ _ hf, runLines_cons]
  show ((readVersion_1_2_additions std defs >>= fun _ => pure filled) >>= fun d =>
    runLines std defs [] d) _ = _
  rw [Reader.bind_assoc_run, Reader.bind_of_some _ _ _ _ _ hi]
  rfl

/-- The lines of `exampleBlock` and `exampleAdditions_1_1` are accepted by the statements
of a version-1.1 block. -/
theorem exampleBlock_1_1_accepted :
    List.Forall₂ (FieldReader.Accepts plainDecimalParsing)
      (FieldReader.skipLine :: fields_1_0 ++ fields_1_1)
      (exampleBlock ++ exampleAdditions_1_1) :=
  List.Forall₂.cons trivial
    (List.Forall₂.cons (⟨3, by decide⟩)
    (List.Forall₂.cons (⟨0, by decide⟩)
    (List.Forall₂.cons (⟨0, by decide⟩)
    (List.Forall₂.cons (⟨0, by decide⟩)
    (List.Forall₂.cons (⟨3, by decide⟩)
    (List.Forall₂.cons (⟨0, by decide⟩)
    (List.Forall₂.cons (⟨3, by decide⟩)
    (List.Forall₂.cons trivial
    (List.Forall₂.cons trivial
    (List.Forall₂.cons trivial
    (List.Forall₂.cons trivial
    (List.Forall₂.cons trivial
    (List.Forall₂.cons trivial
    (List.Forall₂.cons (⟨0, by decide⟩)
    (List.Forall₂.cons (⟨0, by decide⟩)
    (List.Forall₂.cons (⟨0, by decide⟩)
    (List.Forall₂.cons (⟨0, by decide⟩)
    (List.Forall₂.cons (⟨0, by decide⟩)
    (List.Forall₂.cons (⟨0, by decide⟩)
    (List.Forall₂.cons (⟨0, by decide⟩)
    (List.Forall₂.cons (⟨0, by decide⟩)
    (List.Forall₂.cons (⟨0, by decide⟩)
    (List.Forall₂.cons (⟨0, by decide⟩)
    (List.Forall₂.cons (⟨0, by decide⟩)
    (List.Forall₂.cons (⟨0, by decide⟩)
    (List.Forall₂.cons (⟨0, by decide⟩)
    (List.Forall₂.cons (⟨0, by decide⟩)
    (List.Forall₂.cons (⟨0, by decide⟩)
    (List.Forall₂.nil)))))))))))))))))))))))))))))

/-! ## The calls of the state machine -/

theorem outcomesAreUpdated_append_other (calls : List StatUpdaterCall)
    (call : StatUpdaterCall) (h : OutcomesAreUpdated calls)
    (hc : call ≠ StatUpdaterCall.processGoal ∧ call ≠ StatUpdaterCall.processMiss) :
    OutcomesAreUpdated (calls ++ [call]) := by
  intro i c hi ho
  by_cases hlt : i < calls.length
  · rw [List.getElem?_append_left hlt] at hi
    have hnext := h i c hi ho
    have hlt2 : i + 1 < calls.length := by
      by_contra hge
      rw [List.getElem?_eq_none (by omega)] at hnext
      cases hnext
    rw [List.getElem?_append_left hlt2]
    exact hnext
  · rw [List.getElem?_append_right (by omega)] at hi
    have hi0 : i - calls.length = 0 := by
      by_contra hne
      rw [List.getElem?_eq_none (by simp; omega)] at hi
      cases hi
    rw [hi0] at hi
    simp only [List.getElem?_cons_zero, Option.some.injEq] at hi
    subst hi
    rcases ho with ho | ho
    · exact absurd ho hc.1
    · exact absurd ho hc.2

theorem outcomesAreUpdated_append_outcome (calls : List StatUpdaterCall)
    (call : StatUpdaterCall) (h : OutcomesAreUpdated calls) :
    OutcomesAreUpdated (calls ++ [call, StatUpdaterCall.updateData]) := by
  intro i c hi ho
  by_cases hlt : i < calls.length
  · rw [List.getElem?_append_left hlt] at hi
    have hnext := h i c hi ho
    have hlt2 : i + 1 < calls.length := by
      by_contra hge
      rw [List.getElem?_eq_none (by omega)] at hnext
      cases hnext
    rw [List.getElem?_append_left hlt2]
    exact hnext
  · rw [List.getElem?_append_right (by omega)] at hi
    rw [List.getElem?_append_right (by omega)]
    obtain ⟨k, hk⟩ : ∃ k, i - calls.length = k := ⟨_, rfl⟩
    have hk2 : i + 1 - calls.length = k + 1 := by omega
    rw [hk] at hi
    rw [hk2]
    cases k with
    | zero => rfl
    | succ k =>
      cases k with
      | zero =>
        simp only [List.getElem?_cons_succ, List.getElem?_cons_zero, Option.some.injEq] at hi
        subst hi
        rcases ho with ho | ho <;> cases ho
      | succ k => simp at hi

theorem outcomesAreBounded_append (calls : List StatUpdaterCall) (call : StatUpdaterCall)
    (h : OutcomesAreBounded calls)
    (hc : (calls ++ [call]).count StatUpdaterCall.processGoal +
        (calls ++ [call]).count StatUpdaterCall.processMiss ≤
      (calls ++ [call]).count StatUpdaterCall.processAttempt) :
    OutcomesAreBounded (calls ++ [call]) := by
  intro emitted he
  rcases List.prefix_concat_iff.mp he with he | he
  · rw [he]
    exact hc
  · exact h emitted he

namespace CustomTrainingStateMachine

theorem traceInvariant_of_same (m n : CustomTrainingStateMachine) (h : m.TraceInvariant)
    (ht : n._statUpdater = m._statUpdater)
    (hs : n._currentState = CustomTrainingState.AttemptInProgress →
      m._currentState = CustomTrainingState.AttemptInProgress) : n.TraceInvariant := by
  unfold TraceInvariant at h ⊢
  rw [ht]
  exact ⟨h.1, h.2.1, fun hn => h.2.2 (hs hn)⟩

theorem traceInvariant_of_other (m n : CustomTrainingStateMachine) (call : StatUpdaterCall)
    (h : m.TraceInvariant) (ht : n._statUpdater = m._statUpdater ++ [call])
    (hc : call ≠ StatUpdaterCall.processGoal ∧ call ≠ StatUpdaterCall.processMiss ∧
      call ≠ StatUpdaterCall.processAttempt)
    (hs : n._currentState = CustomTrainingState.AttemptInProgress →
      m._currentState = CustomTrainingState.AttemptInProgress) : n.TraceInvariant := by
  unfold TraceInvariant at h ⊢
  obtain ⟨h1, h2, h3⟩ := h
  have hall := h2 m._statUpdater (List.prefix_refl _)
  have c1 : (m._statUpdater ++ [call]).count StatUpdaterCall.processGoal =
      m._statUpdater.count StatUpdaterCall.processGoal := by
    simp [List.count_append, List.count_cons, hc.1]
  have c2 : (m._statUpdater ++ [call]).count StatUpdaterCall.processMiss =
      m._statUpdater.count StatUpdaterCall.processMiss := by
    simp [List.count_append, List.count_cons, hc.2.1]
  have c3 : (m._statUpdater ++ [call]).count StatUpdaterCall.processAttempt =
      m._statUpdater.count StatUpdaterCall.processAttempt := by
    simp [List.count_append, List.count_cons, hc.2.2]
  rw [ht]
  refine ⟨outcomesAreUpdated_append_other _ call h1 ⟨hc.1, hc.2.1⟩,
    outcomesAreBounded_append _ call h2 (by rw [c1, c2, c3]; exact hall), ?_⟩
  intro hn
  rw [c1, c2, c3]
  exact h3 (hs hn)

theorem traceInvariant_of_attempt (m n : CustomTrainingStateMachine) (h : m.TraceInvariant)
    (ht : n._statUpdater = m._statUpdater ++ [StatUpdaterCall.processAttempt]) :
    n.TraceInvariant := by
  unfold TraceInvariant at h ⊢
  obtain ⟨h1, h2, -⟩ := h
  have hall := h2 m._statUpdater (List.prefix_refl _)
  have c1 : (m._statUpdater ++ [StatUpdaterCall.processAttempt]).count
      StatUpdaterCall.processGoal = m._statUpdater.count StatUpdaterCall.processGoal := by
    simp [List.count_append, List.count_cons]
  have c2 : (m._statUpdater ++ [StatUpdaterCall.processAttempt]).count
      StatUpdaterCall.processMiss = m._statUpdater.count StatUpdaterCall.processMiss := by
    simp [List.count_append, List.count_cons]
  have c3 : (m._statUpdater ++ [StatUpdaterCall.processAttempt]).count
      StatUpdaterCall.processAttempt =
      m._statUpdater.count StatUpdaterCall.processAttempt + 1 := by
    simp [List.count_append, List.count_cons]
  rw [ht]
  refine ⟨outcomesAreUpdated_append_other _ _ h1 ⟨by decide, by decide⟩,
    outcomesAreBounded_append _ _ h2 (by rw [c1, c2, c3]; omega), ?_⟩
  intro _
  rw [c1, c2, c3]
  omega

theorem traceInvariant_of_outcome (m n : CustomTrainingStateMachine) (call : StatUpdaterCall)
    (h : m.TraceInvariant)
    (hm : m._currentState = CustomTrainingState.AttemptInProgress)
    (ht : n._statUpdater = m._statUpdater ++ [call, StatUpdaterCall.updateData])
    (hc : call = StatUpdaterCall.processGoal ∨ call = StatUpdaterCall.processMiss)
    (hs : n._currentState ≠ CustomTrainingState.AttemptInProgress) : n.TraceInvariant := by
  unfold TraceInvariant at h ⊢
  obtain ⟨h1, h2, h3⟩ := h
  have hroom := h3 hm
  have c1 : (m._statUpdater ++ [call]).count StatUpdaterCall.processGoal +
      (m._statUpdater ++ [call]).count StatUpdaterCall.processMiss =
      m._statUpdater.count StatUpdaterCall.processGoal +
        m._statUpdater.count StatUpdaterCall.processMiss + 1 := by
    rcases hc with hc | hc <;> subst hc <;> simp [List.count_append, List.count_cons] <;>
      omega
  have c3 : (m._statUpdater ++ [call]).count StatUpdaterCall.processAttempt =
      m._statUpdater.count StatUpdaterCall.processAttempt := by
    rcases hc with hc | hc <;> subst hc <;> simp [List.count_append, List.count_cons]
  have hb1 : OutcomesAreBounded (m._statUpdater ++ [call]) :=
    outcomesAreBounded_append _ call h2 (by rw [c1, c3]; exact hroom)
  have hb2 : OutcomesAreBounded ((m._statUpdater ++ [call]) ++ [StatUpdaterCall.updateData]) := by
    refine outcomesAreBounded_append _ _ hb1 ?_
    have e1 : ((m._statUpdater ++ [call]) ++ [StatUpdaterCall.updateData]).count
        StatUpdaterCall.processGoal =
        (m._statUpdater ++ [call]).count StatUpdaterCall.processGoal := by
      simp [List.count_append, List.count_cons]
    have e2 : ((m._statUpdater ++ [call]) ++ [StatUpdaterCall.updateData]).count
        StatUpdaterCall.processMiss =
        (m._statUpdater ++ [call]).count StatUpdaterCall.processMiss := by
      simp [List.count_append, List.count_cons]
    have e3 : ((m._statUpdater ++ [call]) ++ [StatUpdaterCall.updateData]).count
        StatUpdaterCall.processAttempt =
        (m._statUpdater ++ [call]).count StatUpdaterCall.processAttempt := by
      simp [List.count_append, List.count_cons]
    rw [e1, e2, e3, c1, c3]
    exact hroom
  rw [List.append_assoc, List.singleton_append] at hb2
  rw [ht]
  exact ⟨outcomesAreUpdated_append_outcome _ call h1, hb2, fun hn => absurd hn hs⟩

theorem processOnTrainingModeLoaded_calls (DEBUG_STATE_MACHINE : Bool)
    (m : CustomTrainingStateMachine) (totalRounds : Int) :
    (m.processOnTrainingModeLoaded DEBUG_STATE_MACHINE totalRounds)._statUpdater =
      m._statUpdater ++ [StatUpdaterCall.processReset totalRounds] ∧
    (m.processOnTrainingModeLoaded DEBUG_STATE_MACHINE totalRounds)._currentState =
      CustomTrainingState.Resetting := by
  cases DEBUG_STATE_MACHINE <;> simp [processOnTrainingModeLoaded, setCurrentState]

/-- A round change outside an attempt makes no call and starts no attempt. -/
theorem processsEventRoundChanged_other (DEBUG_STATE_MACHINE : Bool)
    (m : CustomTrainingStateMachine) (newRoundIndex : Int)
    (h : m._currentState ≠ CustomTrainingState.AttemptInProgress) :
    (m.processsEventRoundChanged DEBUG_STATE_MACHINE newRoundIndex)._statUpdater =
      m._statUpdater ∧
    (m.processsEventRoundChanged DEBUG_STATE_MACHINE newRoundIndex)._currentState ≠
      CustomTrainingState.AttemptInProgress := by
  unfold processsEventRoundChanged
  cases DEBUG_STATE_MACHINE <;> simp only [setCurrentState] <;> split_ifs <;> simp_all

/-- Every event keeps the invariant of the trace. -/
theorem traceInvariant_step (DEBUG_STATE_MACHINE : Bool) (m : CustomTrainingStateMachine)
    (event : TrainingEvent) (h : m.TraceInvariant) :
    (m.processEvent DEBUG_STATE_MACHINE event).TraceInvariant := by
  cases event with
  | trainingModeLoaded totalRounds =>
    obtain ⟨ht, hs⟩ := processOnTrainingModeLoaded_calls DEBUG_STATE_MACHINE m totalRounds
    refine traceInvariant_of_other m _ _ h ht ⟨by simp, by simp, by simp⟩ ?_
    intro hn
    rw [processEvent, hs] at hn
    cases hn
  | roundChanged activeRoundNumber =>
    by_cases hp : m._currentState = CustomTrainingState.AttemptInProgress
    · obtain ⟨ht, hs⟩ :=
        processsEventRoundChanged_inProgress DEBUG_STATE_MACHINE m activeRoundNumber hp
      refine traceInvariant_of_outcome m _ _ h hp ht ?_ ?_
      · cases m._goalWasScoredInCurrentAttempt <;> simp
      · rw [processEvent, hs]
        decide
    · obtain ⟨ht, hs⟩ :=
        processsEventRoundChanged_other DEBUG_STATE_MACHINE m activeRoundNumber hp
      exact traceInvariant_of_same m _ h ht (fun hn => absurd hn hs)
  | trainingShotAttempt =>
    by_cases ha : DEBUG_STATE_MACHINE = false ∨
        m._currentState = CustomTrainingState.PreparingNewShot
    · refine traceInvariant_of_attempt m _ h ?_
      rw [processEvent, processTrainingShotAttempt_accepted _ m ha]
    · have hd : DEBUG_STATE_MACHINE = true := by
        cases DEBUG_STATE_MACHINE
        · exact absurd (Or.inl rfl) ha
        · rfl
      subst hd
      have hs : m._currentState ≠ CustomTrainingState.PreparingNewShot :=
        fun e => ha (Or.inr e)
      refine traceInvariant_of_same m _ h ?_ ?_
      · rw [processEvent, processTrainingShotAttempt_ignored m hs]
      · rw [processEvent, processTrainingShotAttempt_ignored m hs]
        exact id
  | carTouch =>
    cases hb : m._ballWasHitInCurrentAttempt with
    | true =>
      rw [processEvent, processOnCarTouch_of_hit m hb]
      exact h
    | false =>
      refine traceInvariant_of_other m _ StatUpdaterCall.processInitialBallHit h ?_
        ⟨by decide, by decide, by decide⟩ ?_
      · rw [processEvent, processOnCarTouch_of_not_hit m hb]
      · rw [processEvent, processOnCarTouch_of_not_hit m hb]
        exact id
  | hitGoal =>
    refine traceInvariant_of_same m _ h ?_ ?_
    · rw [processEvent, processOnHitGoal_eq]
    · rw [processEvent, processOnHitGoal_eq]
      exact id

theorem traceInvariant_run (DEBUG_STATE_MACHINE : Bool) (events : List TrainingEvent)
    (m : CustomTrainingStateMachine) (h : m.TraceInvariant) :
    (m.processEvents DEBUG_STATE_MACHINE events).TraceInvariant := by
  induction events generalizing m with
  | nil => exact h
  | cons event events ih =>
    exact ih _ (traceInvariant_step DEBUG_STATE_MACHINE m event h)

theorem traceInvariant_construct (goalWasScored ballWasHit : Bool)
    (pluginState : PluginState) :
    (construct goalWasScored ballWasHit pluginState).TraceInvariant := by
  refine ⟨?_, ?_, ?_⟩
  · intro i call hi
    simp [construct] at hi
  · intro emitted he
    have hnil : emitted = [] := by simpa [construct] using he
    subst hnil
    simp
  · intro hs
    simp [construct] at hs

end CustomTrainingStateMachine

/-! ## Touches and goals within an attempt -/

namespace CustomTrainingStateMachine

theorem processEvents_nil (DEBUG_STATE_MACHINE : Bool) (m : CustomTrainingStateMachine) :
    m.processEvents DEBUG_STATE_MACHINE [] = m := by
  rfl

theorem processEvents_cons (DEBUG_STATE_MACHINE : Bool) (m : CustomTrainingStateMachine)
    (event : TrainingEvent) (events : List TrainingEvent) :
    m.processEvents DEBUG_STATE_MACHINE (event :: events) =
      (m.processEvent DEBUG_STATE_MACHINE event).processEvents DEBUG_STATE_MACHINE events := by
  rfl

/-- Touch and goal events, in any order: the state stays, each flag is set by the first
event of its kind, and the only call is `processInitialBallHit`, made by the first touch
when the touch flag was not set. -/
theorem processEvents_touches_and_goals (DEBUG_STATE_MACHINE : Bool)
    (events : List TrainingEvent)
    (hevents : ∀ event ∈ events,
      event = TrainingEvent.carTouch ∨ event = TrainingEvent.hitGoal)
    (m : CustomTrainingStateMachine) :
    (m.processEvents DEBUG_STATE_MACHINE events)._currentState = m._currentState ∧
    (m.processEvents DEBUG_STATE_MACHINE events)._goalWasScoredInCurrentAttempt =
      (m._goalWasScoredInCurrentAttempt ||
        decide (1 ≤ events.count TrainingEvent.hitGoal)) ∧
    (m.processEvents DEBUG_STATE_MACHINE events)._ballWasHitInCurrentAttempt =
      (m._ballWasHitInCurrentAttempt ||
        decide (1 ≤ events.count TrainingEvent.carTouch)) ∧
    (m.processEvents DEBUG_STATE_MACHINE events)._statUpdater =
      m._statUpdater ++
        (if m._ballWasHitInCurrentAttempt = false ∧
            1 ≤ events.count TrainingEvent.carTouch then
          [StatUpdaterCall.processInitialBallHit]
        else []) := by
  induction events generalizing m with
  | nil => simp [processEvents_nil]
  | cons event events ih =>
    have hrest : ∀ e ∈ events, e = TrainingEvent.carTouch ∨ e = TrainingEvent.hitGoal :=
      fun e he => hevents e (List.mem_cons_of_mem _ he)
    rw [processEvents_cons]
    rcases hevents event (List.mem_cons_self _ _) with he | he
    · subst he
      obtain ⟨i1, i2, i3, i4⟩ := ih hrest (m.processEvent DEBUG_STATE_MACHINE
        TrainingEvent.carTouch)
      rw [i1, i2, i3, i4]
      cases hb : m._ballWasHitInCurrentAttempt with
      | true =>
        simp [processEvent, processOnCarTouch_of_hit m hb, hb, List.count_cons]
      | false =>
        simp [processEvent, processOnCarTouch_of_not_hit m hb, hb, List.count_cons]
    · subst he
      obtain ⟨i1, i2, i3, i4⟩ := ih hrest (m.processEvent DEBUG_STATE_MACHINE
        TrainingEvent.hitGoal)
      rw [i1, i2, i3, i4]
      simp [processEvent, processOnHitGoal_eq, List.count_cons]

end CustomTrainingStateMachine

/-! ## Negative values below the range of `int` -/

/-- `std::stoi` throws `std::out_of_range` on a negative integer below the range. -/
theorem stoi_of_isIntBelowRange (text : List Char) (h : IsIntBelowRange text) :
    stoi text = Except.error StdException.out_of_range := by
  obtain ⟨hhead, hne, hdigits, hlow⟩ := h
  cases text with
  | nil => cases hhead
  | cons c digits =>
    simp only [List.head?_cons, Option.some.injEq] at hhead
    subst hhead
    simp only [List.tail_cons] at hne hdigits hlow
    have htake : digits.takeWhile Char.isDigit = digits :=
      List.takeWhile_eq_self_iff.mpr hdigits
    have hspace : isSpace '-' = false := by decide
    unfold stoi
    simp only [List.dropWhile_cons, hspace, Bool.false_eq_true, if_false, List.head?_cons,
      true_or, if_true, List.tail_cons, htake, hne, decide_True]
    rw [if_pos (Or.inl (by omega))]

/-- An exception of `std::stoi` on a counter line, after lines that are accepted, leaves
the readers. -/
theorem runLines_of_throw (std : FloatParsing) (defs : StatFileDefs)
    (readers : List LineReader) (store : StatsData → Int → StatsData)
    (good : List (List Char)) (bad : List Char) (tail : List (List Char))
    (e : StdException)
    (h : AcceptedPrefix std defs readers good)
    (hr : readers[good.length]? = some (LineReader.field (FieldReader.intField store)))
    (hkv : HasKeyAndValue bad) (he : stoi (getLineValues bad).2 = Except.error e)
    (data : StatsData) (reg : List Vector) :
    runLines std defs readers data { lines := good ++ bad :: tail, registered := reg } =
      Except.error e := by
  induction readers generalizing good data reg with
  | nil => simp at hr
  | cons first readers ih =>
    cases good with
    | nil =>
      simp only [List.length_nil, List.getElem?_cons_zero, Option.some.injEq] at hr
      subst hr
      have hfield : (FieldReader.intField store).run std data
          { lines := bad :: tail, registered := reg } = Except.error e := by
        show (readValueIntoField_int >>= fun value => pure (store data value)) _ = _
        rw [Reader.bind_of_error _ _ _ _ (readValueIntoField_int_throws bad tail reg e
          hkv he)]
      rw [List.nil_append, runLines_cons, LineReader.run_field,
        Reader.bind_of_error _ _ _ _ hfield]
    | cons line good =>
      unfold AcceptedPrefix at h
      simp only [List.length_cons, List.take_succ_cons, List.forall₂_cons] at h
      simp only [List.length_cons, List.getElem?_cons_succ] at hr
      obtain ⟨filled, vectors, hf⟩ :=
        LineReader.runLine_of_accepts std defs first data line (good ++ bad :: tail) reg h.1
      rw [List.cons_append, runLines_cons, Reader.bind_of_some _ _ _ _ _ hf]
      exact ih good h.2 hr filled (reg ++ vectors)

/-- The exception leaves the loop over the blocks. -/
theorem readBlocks_of_throw (std : FloatParsing) (defs : StatFileDefs) (versionIndex : Int)
    (complete : List (List (List Char))) (store : StatsData → Int → StatsData)
    (good : List (List Char)) (bad : List Char) (tail : List (List Char))
    (e : StdException)
    (h : ∀ block ∈ complete,
      List.Forall₂ (LineReader.Accepts std defs) (blockLines versionIndex) block)
    (hg : AcceptedPrefix std defs (blockLines versionIndex) good)
    (hr : (blockLines versionIndex)[good.length]? =
      some (LineReader.field (FieldReader.intField store)))
    (hkv : HasKeyAndValue bad) (he : stoi (getLineValues bad).2 = Except.error e)
    (remaining : Nat) (hk : complete.length < remaining)
    (vectorIndex : Nat) (stats : ShotStats) (reg : List Vector) :
    readBlocks std defs versionIndex remaining vectorIndex stats
        { lines := complete.flatten ++ (good ++ bad :: tail), registered := reg } =
      Except.error e := by
  induction complete generalizing remaining vectorIndex stats reg with
  | nil =>
    obtain ⟨k, rfl⟩ : ∃ k, remaining = k + 1 := ⟨remaining - 1, by simp at hk; omega⟩
    have hb : readBlock std defs versionIndex (stats.objectToBeFilled vectorIndex)
        { lines := good ++ bad :: tail, registered := reg } = Except.error e := by
      rw [readBlock_eq_runLines]
      exact runLines_of_throw std defs _ store good bad tail e hg hr hkv he _ reg
    rw [List.flatten_nil, List.nil_append, readBlocks_succ, Reader.bind_of_error _ _ _ _ hb]
  | cons block complete ih =>
    obtain ⟨k, rfl⟩ : ∃ k, remaining = k + 1 := ⟨remaining - 1, by simp at hk; omega⟩
    obtain ⟨data, vectors, hb⟩ := readBlock_of_accepts std defs versionIndex block
      (h block (List.mem_cons_self _ _)) (stats.objectToBeFilled vectorIndex)
      (complete.flatten ++ (good ++ bad :: tail)) reg
    rw [List.flatten_cons, List.append_assoc, readBlocks_succ,
      Reader.bind_of_some _ _ _ _ _ hb]
    exact ih (fun b hb => h b (List.mem_cons_of_mem _ hb)) k (by simp at hk; omega)
      (vectorIndex + 1) (stats.fill vectorIndex data) (reg ++ vectors)

/-- An exception of `std::stoi` on the shot count leaves `readStats`. -/
theorem readStatsFromStream_throws (std : FloatParsing) (defs : StatFileDefs)
    (versionLine shotCountLine : List Char) (body : List (List Char)) (reg : List Vector)
    (e : StdException)
    (hv : ¬ indexInVector defs.SupportedVersionNumbers (getLineValues versionLine).2 < 0)
    (hn : stoi (getLineValues shotCountLine).2 = Except.error e) :
    readStatsFromStream std defs
        { lines := versionLine :: shotCountLine :: body, registered := reg } =
      Except.error e := by
  unfold readStatsFromStream
  rw [Reader.bind_of_some _ _ _ _ _ (getline_cons versionLine _ reg)]
  simp only [hv, if_false]
  rw [Reader.bind_of_some _ _ _ _ _ (getline_cons shotCountLine body reg)]
  have hs : Reader.ofExcept (stoi (getLineValues shotCountLine).2)
      { lines := body, registered := reg } = Except.error e := by
    rw [Reader.ofExcept_run, hn]
  rw [Reader.bind_of_error _ _ _ _ hs]

/-- At every defect of `Defect`, `readStats` returns the default-constructed result. -/
theorem readStats_of_defect (std : FloatParsing) (defs : StatFileDefs)
    (lines : List (List Char)) (registered : List Vector) (h : Defect std defs lines) :
    ∃ tracked : List Vector,
      readStats std defs (some lines) registered = Except.ok ({}, tracked) := by
  obtain ⟨s, hs⟩ := readStatsFromStream_of_defect std defs lines h registered
  exact ⟨s.registered, readStats_of_none std defs lines registered s hs⟩

/-! ## The claims -/

/-- C1. From the state after a pack load and the consumed initial spawn, after any sequence
of attempts (a goal attempt being `update(true,false)` then `update(false,false)`, a miss
attempt `update(false,false)` alone) `Attempts` is the number of attempts, `Goals` the
number of goal attempts, and `Goals ≤ Attempts`. -/
theorem C1_attempts_and_goals_are_counted (c : GoalPercentageCounter) (h : c._enabled = true)
    (attempts : List Bool) :
    (playAttempts (afterPackLoadAndSpawn c) attempts)._stats.Attempts = attempts.length ∧
    (playAttempts (afterPackLoadAndSpawn c) attempts)._stats.Goals = attempts.count true ∧
    (playAttempts (afterPackLoadAndSpawn c) attempts)._stats.Goals ≤
      (playAttempts (afterPackLoadAndSpawn c) attempts)._stats.Attempts := by
  have key : ∀ (l : List Bool) (d : GoalPercentageCounter), d._isFirstSpawn = false →
      d._stats.IgnoreNextShotReset = false →
      (playAttempts d l)._stats.Attempts = d._stats.Attempts + l.length ∧
      (playAttempts d l)._stats.Goals = d._stats.Goals + l.count true := by
    intro l
    induction l with
    | nil => intro d _ _; simp [playAttempts]
    | cons a l ih =>
      intro d hd hl
      obtain ⟨p1, p2, -, -, -, -, p7, p8⟩ := playAttempt_fields d a hd hl
      obtain ⟨q1, q2⟩ := ih (playAttempt d a) p8 p7
      have e : playAttempts d (a :: l) = playAttempts (playAttempt d a) l := rfl
      rw [e, q1, q2, p1, p2]
      cases a <;> simp <;> omega
  obtain ⟨s1, s2, -, -, -, -, s7, s8⟩ := afterPackLoadAndSpawn_fields c h
  obtain ⟨k1, k2⟩ := key attempts (afterPackLoadAndSpawn c) s8 s7
  rw [k1, k2, s1, s2]
  have hc : attempts.count true ≤ attempts.length := List.count_le_length _ _
  refine ⟨by simp, by simp, ?_⟩
  simp only [zero_add]
  exact_mod_cast hc

/-- Witness of C1: a used counter, pack load, then a goal, a miss and a goal attempt. -/
theorem C1_attempts_and_goals_are_counted_witness :
    (playAttempts (afterPackLoadAndSpawn usedCounter) [true, false, true])._stats.Attempts
        = [true, false, true].length ∧
    (playAttempts (afterPackLoadAndSpawn usedCounter) [true, false, true])._stats.Goals
        = [true, false, true].count true ∧
    (playAttempts (afterPackLoadAndSpawn usedCounter) [true, false, true])._stats.Goals ≤
      (playAttempts (afterPackLoadAndSpawn usedCounter) [true, false, true])._stats.Attempts :=
  C1_attempts_and_goals_are_counted usedCounter rfl [true, false, true]

/-- C2, as stated, fails. The calls that the state machine emits for the scenario, applied
to a snapshot, do not give `attempts = 3`, `goals = 2`, `goalStreak = 1`: the miss is the
shot reset that consumes the first-spawn flag and no shot reset follows a goal, so with
`DEBUG_STATE_MACHINE` unset the outcome is `Attempts = 0`, `Goals = 2`,
`GoalStreakCounter = 2`, `LongestGoalStreak = 2`, `LongestMissStreak = 0`,
`SuccessPercentage = 0`; with it set the outcome is `Attempts = 0`, `Goals = 1`. -/
theorem C2_counterexample :
    (applyStatUpdaterCalls usedCounter
      (scenarioMachine.processEvents false scenarioEvents)._statUpdater)._stats.Attempts = 0 ∧
    (applyStatUpdaterCalls usedCounter
      (scenarioMachine.processEvents false scenarioEvents)._statUpdater)._stats.Goals = 2 ∧
    (applyStatUpdaterCalls usedCounter
      (scenarioMachine.processEvents false
        scenarioEvents)._statUpdater)._stats.GoalStreakCounter = 2 ∧
    (applyStatUpdaterCalls usedCounter
      (scenarioMachine.processEvents false
        scenarioEvents)._statUpdater)._stats.LongestGoalStreak = 2 ∧
    (applyStatUpdaterCalls usedCounter
      (scenarioMachine.processEvents false
        scenarioEvents)._statUpdater)._stats.LongestMissStreak = 0 ∧
    (applyStatUpdaterCalls usedCounter
      (scenarioMachine.processEvents false
        scenarioEvents)._statUpdater)._stats.SuccessPercentage = 0 ∧
    (applyStatUpdaterCalls usedCounter
      (scenarioMachine.processEvents true scenarioEvents)._statUpdater)._stats.Attempts = 0 ∧
    (applyStatUpdaterCalls usedCounter
      (scenarioMachine.processEvents true scenarioEvents)._statUpdater)._stats.Goals = 1 := by
  decide

/-- C2, amended. For the scenario the state machine (with `DEBUG_STATE_MACHINE` unset)
emits the calls reset, attempt, initial hit, goal, update, attempt, miss, update, attempt,
initial hit, goal, update.  Applied to a snapshot they give `Attempts = 0`, `Goals = 2`,
`GoalStreakCounter = 2`, `MissStreakCounter = 0`, `LongestGoalStreak = 2`,
`LongestMissStreak = 0`, `SuccessPercentage = 0` (with the switch set: `Goals = 1`,
`GoalStreakCounter = 1`, `LongestGoalStreak = 1`, the rest the same).  The values
`3, 2, 1, 0, 1, 1, 66.67` are what the counter of `GoalPercentageCounter.cpp` holds after a
pack load, the initial spawn, and a goal, a miss and a goal attempt delivered by its own
events, where a car spawn follows every goal. -/
theorem C2_scenario_outcome (c : GoalPercentageCounter) (goalWasScored ballWasHit : Bool)
    (pluginState : PluginState) (h : c._enabled = true) :
    ((CustomTrainingStateMachine.construct goalWasScored ballWasHit pluginState).processEvents
      false scenarioEvents)._statUpdater =
      [StatUpdaterCall.processReset 3,
        StatUpdaterCall.processAttempt, StatUpdaterCall.processInitialBallHit,
        StatUpdaterCall.processGoal, StatUpdaterCall.updateData,
        StatUpdaterCall.processAttempt,
        StatUpdaterCall.processMiss, StatUpdaterCall.updateData,
        StatUpdaterCall.processAttempt, StatUpdaterCall.processInitialBallHit,
        StatUpdaterCall.processGoal, StatUpdaterCall.updateData] ∧
    (applyStatUpdaterCalls c
      ((CustomTrainingStateMachine.construct goalWasScored ballWasHit
        pluginState).processEvents false scenarioEvents)._statUpdater)._stats =
      { Attempts := 0, Goals := 2, GoalStreakCounter := 2, MissStreakCounter := 0,
        LongestGoalStreak := 2, LongestMissStreak := 0, IgnoreNextShotReset := true,
        SuccessPercentage := 0, PeakSuccessPercentage := 0 } ∧
    (applyStatUpdaterCalls c
      ((CustomTrainingStateMachine.construct goalWasScored ballWasHit
        pluginState).processEvents true scenarioEvents)._statUpdater)._stats =
      { Attempts := 0, Goals := 1, GoalStreakCounter := 1, MissStreakCounter := 0,
        LongestGoalStreak := 1, LongestMissStreak := 0, IgnoreNextShotReset := true,
        SuccessPercentage := 0, PeakSuccessPercentage := 0 } ∧
    (playAttempts (afterPackLoadAndSpawn c) [true, false, true])._stats.Attempts = 3 ∧
    (playAttempts (afterPackLoadAndSpawn c) [true, false, true])._stats.Goals = 2 ∧
    (playAttempts (afterPackLoadAndSpawn c) [true, false, true])._stats.GoalStreakCounter = 1 ∧
    (playAttempts (afterPackLoadAndSpawn c) [true, false, true])._stats.MissStreakCounter = 0 ∧
    (playAttempts (afterPackLoadAndSpawn c) [true, false, true])._stats.LongestGoalStreak = 1 ∧
    (playAttempts (afterPackLoadAndSpawn c) [true, false, true])._stats.LongestMissStreak = 1 ∧
    (playAttempts (afterPackLoadAndSpawn c) [true, false, true])._stats.SuccessPercentage =
      toDouble (6667 / 100) := by
  refine ⟨scenario_calls goalWasScored ballWasHit pluginState, ?_,
    scenario_debug_applied c goalWasScored ballWasHit pluginState, goal_miss_goal c h⟩
  rw [scenario_calls]
  exact scenario_calls_applied c

/-- Witness of C2: the scenario on a freshly constructed machine and a used counter. -/
theorem C2_scenario_outcome_witness :
    usedCounter._enabled = true ∧
    (applyStatUpdaterCalls usedCounter
      ((CustomTrainingStateMachine.construct false false
        { TotalRounds := 0, CurrentRoundIndex := 0 }).processEvents false
          scenarioEvents)._statUpdater)._stats =
      { Attempts := 0, Goals := 2, GoalStreakCounter := 2, MissStreakCounter := 0,
        LongestGoalStreak := 2, LongestMissStreak := 0, IgnoreNextShotReset := true,
        SuccessPercentage := 0, PeakSuccessPercentage := 0 } ∧
    (playAttempts (afterPackLoadAndSpawn usedCounter) [true, false, true])._stats.Attempts = 3 :=
  ⟨rfl,
    (C2_scenario_outcome usedCounter false false { TotalRounds := 0, CurrentRoundIndex := 0 }
      rfl).2.1,
    (C2_scenario_outcome usedCounter false false { TotalRounds := 0, CurrentRoundIndex := 0 }
      rfl).2.2.2.1⟩

/-- C3, as stated, fails: with the first-spawn flag consumed, a goal followed by a shot
reset takes `Attempts` from 7 to 8. -/
theorem C3_counterexample :
    usedCounter._isFirstSpawn = false ∧ usedCounter._stats.Attempts = 7 ∧
    usedCounter.handleGoal.handleShotReset._stats.Attempts = 8 := by
  decide

/-- C3, amended. A goal immediately followed by a shot reset increments `Attempts` by
exactly one (the reset counts the attempt that the goal ended), except when that reset is
the one that consumes the first-spawn flag, which leaves `Attempts` unchanged. -/
theorem C3_goal_then_shotReset_counts_one_attempt (c : GoalPercentageCounter) :
    c.handleGoal.handleShotReset._stats.Attempts =
      (if c._isFirstSpawn then c._stats.Attempts else c._stats.Attempts + 1) := by
  cases h : c._isFirstSpawn with
  | true =>
    rw [handleShotReset_firstSpawn _ (by simp [handleGoal_eq, h])]
    simp [handleGoal_eq]
  | false =>
    rw [handleShotReset_latched _ (by simp [handleGoal_eq, h]) (by simp [handleGoal_eq])]
    simp [handleGoal_eq]

/-- C4. With the first-spawn flag consumed, a goal followed by a shot reset leaves
`MissStreakCounter` at 0, leaves `LongestMissStreak` and the goal streak reached by the
goal unchanged and clears `IgnoreNextShotReset`; a second consecutive shot reset is counted
as a miss (`MissStreakCounter = 1`, `GoalStreakCounter = 0`). -/
theorem C4_latch_swallows_exactly_one_reset (c : GoalPercentageCounter)
    (h : c._isFirstSpawn = false) :
    c.handleGoal._stats.IgnoreNextShotReset = true ∧
    c.handleGoal.handleShotReset._stats.MissStreakCounter = 0 ∧
    c.handleGoal.handleShotReset._stats.LongestMissStreak = c._stats.LongestMissStreak ∧
    c.handleGoal.handleShotReset._stats.GoalStreakCounter =
      c.handleGoal._stats.GoalStreakCounter ∧
    c.handleGoal.handleShotReset._stats.GoalStreakCounter = c._stats.GoalStreakCounter + 1 ∧
    c.handleGoal.handleShotReset._stats.IgnoreNextShotReset = false ∧
    c.handleGoal.handleShotReset.handleShotReset._stats.MissStreakCounter = 1 ∧
    c.handleGoal.handleShotReset.handleShotReset._stats.GoalStreakCounter = 0 := by
  have e1 : c.handleGoal.handleShotReset =
      { c.handleGoal with _stats := { c.handleGoal._stats with
          Attempts := c.handleGoal._stats.Attempts + 1
          IgnoreNextShotReset := false } } :=
    handleShotReset_latched _ (by simp [handleGoal_eq, h]) (by simp [handleGoal_eq])
  have e2 := handleShotReset_miss c.handleGoal.handleShotReset
    (by rw [e1]; simp [handleGoal_eq, h]) (by rw [e1])
  rw [e2, e1]
  simp [handleGoal_eq]

/-- Witness of C4 on a used counter whose first-spawn flag is consumed. -/
theorem C4_latch_swallows_exactly_one_reset_witness :
    usedCounter.handleGoal._stats.IgnoreNextShotReset = true ∧
    usedCounter.handleGoal.handleShotReset._stats.MissStreakCounter = 0 ∧
    usedCounter.handleGoal.handleShotReset._stats.LongestMissStreak
      = usedCounter._stats.LongestMissStreak ∧
    usedCounter.handleGoal.handleShotReset._stats.GoalStreakCounter =
      usedCounter.handleGoal._stats.GoalStreakCounter ∧
    usedCounter.handleGoal.handleShotReset._stats.GoalStreakCounter
      = usedCounter._stats.GoalStreakCounter + 1 ∧
    usedCounter.handleGoal.handleShotReset._stats.IgnoreNextShotReset = false ∧
    usedCounter.handleGoal.handleShotReset.handleShotReset._stats.MissStreakCounter = 1 ∧
    usedCounter.handleGoal.handleShotReset.handleShotReset._stats.GoalStreakCounter = 0 :=
  C4_latch_swallows_exactly_one_reset usedCounter rfl

/-- C5. After the `OnInit` handler, whatever number `n` of goal events arrives, the first
shot reset `update(false,false)` leaves `Attempts` at 0, leaves `MissStreakCounter` and
`LongestMissStreak` unchanged and clears the first-spawn flag; the goals in between do not
touch `Attempts` or the flag, and the next shot reset makes `Attempts` 1. -/
theorem C5_first_shotReset_is_not_an_attempt (c : GoalPercentageCounter)
    (h : c._enabled = true) (n : Nat) :
    c.onInit._stats.Attempts = 0 ∧ c.onInit._isFirstSpawn = true ∧
    ((fun d => d.update true false)^[n] c.onInit)._stats.Attempts = 0 ∧
    ((fun d => d.update true false)^[n] c.onInit)._isFirstSpawn = true ∧
    (((fun d => d.update true false)^[n] c.onInit).update false false)._stats.Attempts = 0 ∧
    (((fun d => d.update true false)^[n] c.onInit).update false false)._stats.MissStreakCounter
      = ((fun d => d.update true false)^[n] c.onInit)._stats.MissStreakCounter ∧
    (((fun d => d.update true false)^[n] c.onInit).update false false)._stats.LongestMissStreak
      = ((fun d => d.update true false)^[n] c.onInit)._stats.LongestMissStreak ∧
    (((fun d => d.update true false)^[n] c.onInit).update false false)._isFirstSpawn = false ∧
    ((((fun d => d.update true false)^[n] c.onInit).update false false).update
      false false)._stats.Attempts = 1 := by
  have goals : ∀ k : Nat,
      ((fun d => d.update true false)^[k] c.onInit)._stats.Attempts = 0 ∧
      ((fun d => d.update true false)^[k] c.onInit)._isFirstSpawn = true := by
    intro k
    induction k with
    | zero => simp [onInit_enabled c h]
    | succ k ih =>
      rw [Function.iterate_succ_apply']
      obtain ⟨g1, -, -, -, -, -, -, g8⟩ :=
        update_goal_fields ((fun d => d.update true false)^[k] c.onInit)
      exact ⟨g1.trans ih.1, g8.trans ih.2⟩
  obtain ⟨a0, f0⟩ := goals n
  obtain ⟨r1, -, -, r4, -, r6, r7, r8⟩ :=
    update_shotReset_firstSpawn_fields ((fun d => d.update true false)^[n] c.onInit) f0
  refine ⟨by simp [onInit_enabled c h], by simp [onInit_enabled c h], a0, f0,
    r1.trans a0, r4, r6, r8, ?_⟩
  cases hl : (((fun d => d.update true false)^[n] c.onInit).update
      false false)._stats.IgnoreNextShotReset with
  | true =>
    rw [(update_shotReset_latched_fields _ r8 hl).1, r1, a0]; rfl
  | false =>
    rw [(update_shotReset_miss_fields _ r8 hl).1, r1, a0]; rfl

/-- Witness of C5: a used counter and two goal events before the first shot reset. -/
theorem C5_first_shotReset_is_not_an_attempt_witness :
    usedCounter.onInit._stats.Attempts = 0 ∧ usedCounter.onInit._isFirstSpawn = true ∧
    ((fun d => d.update true false)^[2] usedCounter.onInit)._stats.Attempts = 0 ∧
    ((fun d => d.update true false)^[2] usedCounter.onInit)._isFirstSpawn = true ∧
    (((fun d => d.update true false)^[2] usedCounter.onInit).update
      false false)._stats.Attempts = 0 ∧
    (((fun d => d.update true false)^[2] usedCounter.onInit).update
      false false)._stats.MissStreakCounter
      = ((fun d => d.update true false)^[2] usedCounter.onInit)._stats.MissStreakCounter ∧
    (((fun d => d.update true false)^[2] usedCounter.onInit).update
      false false)._stats.LongestMissStreak
      = ((fun d => d.update true false)^[2] usedCounter.onInit)._stats.LongestMissStreak ∧
    (((fun d => d.update true false)^[2] usedCounter.onInit).update
      false false)._isFirstSpawn = false ∧
    ((((fun d => d.update true false)^[2] usedCounter.onInit).update false false).update
      false false)._stats.Attempts = 1 :=
  C5_first_shotReset_is_not_an_attempt usedCounter rfl 2

/-- C6, as stated, fails: `Goals ≤ Attempts` holds after `reset`, and `handleGoal` breaks
it (`Goals = 1`, `Attempts = 0`). -/
theorem C6_counterexample :
    usedCounter.reset._stats.Goals ≤ usedCounter.reset._stats.Attempts ∧
    usedCounter.reset.handleGoal._stats.Goals = 1 ∧
    usedCounter.reset.handleGoal._stats.Attempts = 0 ∧
    ¬ (usedCounter.reset.handleGoal._stats.Goals ≤
        usedCounter.reset.handleGoal._stats.Attempts) := by
  decide

/-- C6, amended. `Goals ≤ Attempts` holds after `reset` and is preserved by
`handleShotReset` and `reset`; `handleGoal` counts the goal before its attempt is counted
and keeps only `Goals ≤ Attempts + 1`.  In every snapshot reached from a reset by goal,
shot-reset and stat-reset events in which each goal arrives while the latch is clear,
`Goals ≤ Attempts + 1`, and `Goals ≤ Attempts` whenever `IgnoreNextShotReset` is clear. -/
theorem C6_goals_bounded_by_attempts (c d : GoalPercentageCounter) (events : List CounterEvent)
    (hw : goalsArriveUnlatched c.reset events = true) :
    d.reset._stats.Goals ≤ d.reset._stats.Attempts ∧
    (d._stats.Goals ≤ d._stats.Attempts →
      d.handleShotReset._stats.Goals ≤ d.handleShotReset._stats.Attempts) ∧
    (d._stats.Goals ≤ d._stats.Attempts →
      d.handleGoal._stats.Goals ≤ d.handleGoal._stats.Attempts + 1) ∧
    (applyCounterEvents c.reset events)._stats.Goals ≤
      (applyCounterEvents c.reset events)._stats.Attempts + 1 ∧
    ((applyCounterEvents c.reset events)._stats.IgnoreNextShotReset = false →
      (applyCounterEvents c.reset events)._stats.Goals ≤
        (applyCounterEvents c.reset events)._stats.Attempts) := by
  have run := goals_bound_run events c.reset hw (by simp [reset])
  refine ⟨by simp [reset], ?_, ?_, ?_, ?_⟩
  · intro hd
    cases hf : d._isFirstSpawn with
    | true => rw [handleShotReset_firstSpawn d hf]; exact hd
    | false =>
      cases hl : d._stats.IgnoreNextShotReset with
      | true => rw [handleShotReset_latched d hf hl]; simp only; omega
      | false => rw [handleShotReset_miss d hf hl]; simp only; omega
  · intro hd
    rw [handleGoal_eq]; simp only; omega
  · split at run <;> omega
  · intro hl
    simp only [hl] at run
    simpa using run

/-- Witness of C6: goal, shot reset, miss, goal after a reset. -/
theorem C6_goals_bounded_by_attempts_witness :
    goalsArriveUnlatched usedCounter.reset
      [CounterEvent.goal, CounterEvent.shotReset, CounterEvent.shotReset, CounterEvent.goal]
      = true ∧
    (applyCounterEvents usedCounter.reset
      [CounterEvent.goal, CounterEvent.shotReset, CounterEvent.shotReset,
        CounterEvent.goal])._stats.Goals ≤
    (applyCounterEvents usedCounter.reset
      [CounterEvent.goal, CounterEvent.shotReset, CounterEvent.shotReset,
        CounterEvent.goal])._stats.Attempts + 1 :=
  have hw : goalsArriveUnlatched usedCounter.reset
      [CounterEvent.goal, CounterEvent.shotReset, CounterEvent.shotReset, CounterEvent.goal]
      = true := by
    simp [goalsArriveUnlatched, applyCounterEvent, update_goal_eq, update_shotReset_eq,
      storeSuccessPercentage_eq, handleGoal_eq, handleShotReset, reset, usedCounter]
  ⟨hw,
    (C6_goals_bounded_by_attempts usedCounter usedCounter
      [CounterEvent.goal, CounterEvent.shotReset, CounterEvent.shotReset, CounterEvent.goal]
      hw).2.2.2.1⟩

/-- C7, as stated, fails. After the shot reset that makes it 57 goals in 800 attempts the
exact value `10000 * 57 / 800` is the tie `712.5`, which rounding half away from zero takes
to 713, but `SuccessPercentage` is the double nearest to 7.12: the double quotient
`57.0 / 800.0` times `10000.0` is a little below `712.5`. -/
theorem C7_counterexample :
    (tieCounter.update false false)._stats.Attempts = 800 ∧
    (tieCounter.update false false)._stats.Goals = 57 ∧
    cRound (10000 * 57 / 800) = 713 ∧
    (tieCounter.update false false)._stats.SuccessPercentage = toDouble (712 / 100) ∧
    (tieCounter.update false false)._stats.SuccessPercentage ≠ toDouble (713 / 100) ∧
    100 * (tieCounter.update false false)._stats.SuccessPercentage ≠ 713 := by
  obtain ⟨a, g, -, -, -, -, -, -⟩ := update_shotReset_miss_fields tieCounter rfl rfl
  have a2 : (tieCounter.update false false)._stats.Attempts = 800 := by
    rw [a]; simp [tieCounter]
  have g2 : (tieCounter.update false false)._stats.Goals = 57 := by
    rw [g]; simp [tieCounter]
  have sp : (tieCounter.update false false)._stats.SuccessPercentage = toDouble (712 / 100) := by
    rw [update_successPercentage]
    exact computeSuccessPercentage_57_of_800 _ a2 g2
  have hround : cRound (10000 * 57 / 800) = 713 := by
    unfold cRound
    rw [if_pos (by norm_num), Int.floor_eq_iff]
    norm_num
  refine ⟨a2, g2, hround, sp, ?_, ?_⟩
  · rw [sp]; exact double_712_ne_713.1
  · rw [sp]; exact double_712_ne_713.2

/-- C7, amended. After `update(isGoal,false)`, with `Goals` and `Attempts` in the range of
a 32-bit `int` and `Goals` not negative: `SuccessPercentage` is 0 when `Attempts` is not
positive; otherwise it is the double nearest to `k / 100` for an integer `k` that is a
nearest integer to `10000 * Goals / Attempts` (at distance at most one half), namely the
one that rounding half away from zero selects, except possibly when
`10000 * Goals / Attempts` is exactly a tie.  Two goals in three attempts give the double
nearest to 66.67. -/
theorem C7_success_percentage_is_rounded_quotient (c : GoalPercentageCounter) (isGoal : Bool)
    (hG : 0 ≤ (c.update isGoal false)._stats.Goals)
    (hG2 : (c.update isGoal false)._stats.Goals < 2 ^ 31)
    (hA2 : (c.update isGoal false)._stats.Attempts < 2 ^ 31) :
    (((c.update isGoal false)._stats.Attempts ≤ 0 ∧
        (c.update isGoal false)._stats.SuccessPercentage = 0) ∨
      (0 < (c.update isGoal false)._stats.Attempts ∧
        ∃ k : ℤ,
          (c.update isGoal false)._stats.SuccessPercentage = toDouble ((k : ℚ) / 100) ∧
          |(k : ℚ) - 10000 * ((c.update isGoal false)._stats.Goals : ℚ) /
              (c.update isGoal false)._stats.Attempts| ≤ 1 / 2 ∧
          (k = cRound (10000 * ((c.update isGoal false)._stats.Goals : ℚ) /
              (c.update isGoal false)._stats.Attempts) ∨
            Int.fract (10000 * ((c.update isGoal false)._stats.Goals : ℚ) /
              (c.update isGoal false)._stats.Attempts) = 1 / 2))) ∧
    (playAttempts (afterPackLoadAndSpawn usedCounter) [true, false, true])._stats.Goals = 2 ∧
    (playAttempts (afterPackLoadAndSpawn usedCounter) [true, false, true])._stats.Attempts = 3 ∧
    (playAttempts (afterPackLoadAndSpawn usedCounter)
      [true, false, true])._stats.SuccessPercentage = toDouble (6667 / 100) := by
  constructor
  · rcases le_or_lt (c.update isGoal false)._stats.Attempts 0 with hA | hA
    · left
      refine ⟨hA, ?_⟩
      rw [update_successPercentage]
      exact computeSuccessPercentage_of_not_pos _ hA
    · right
      refine ⟨hA, ?_⟩
      rw [update_successPercentage]
      exact computeSuccessPercentage_spec _ hA hA2 hG hG2
  · obtain ⟨ha, hg, -, -, -, -, hs⟩ := goal_miss_goal usedCounter rfl
    exact ⟨hg, ha, hs⟩

/-- Witness of C7: the shot reset that makes it 57 goals in 800 attempts. -/
theorem C7_success_percentage_is_rounded_quotient_witness :
    0 ≤ (tieCounter.update false false)._stats.Goals ∧
    (tieCounter.update false false)._stats.Goals < 2 ^ 31 ∧
    (tieCounter.update false false)._stats.Attempts < 2 ^ 31 ∧
    (((tieCounter.update false false)._stats.Attempts ≤ 0 ∧
        (tieCounter.update false false)._stats.SuccessPercentage = 0) ∨
      (0 < (tieCounter.update false false)._stats.Attempts ∧
        ∃ k : ℤ,
          (tieCounter.update false false)._stats.SuccessPercentage
            = toDouble ((k : ℚ) / 100) ∧
          |(k : ℚ) - 10000 * ((tieCounter.update false false)._stats.Goals : ℚ) /
              (tieCounter.update false false)._stats.Attempts| ≤ 1 / 2 ∧
          (k = cRound (10000 * ((tieCounter.update false false)._stats.Goals : ℚ) /
              (tieCounter.update false false)._stats.Attempts) ∨
            Int.fract (10000 * ((tieCounter.update false false)._stats.Goals : ℚ) /
              (tieCounter.update false false)._stats.Attempts) = 1 / 2))) := by
  obtain ⟨a, g, -, -, -, -, -, -⟩ := update_shotReset_miss_fields tieCounter rfl rfl
  have a2 : (tieCounter.update false false)._stats.Attempts = 800 := by
    rw [a]; simp [tieCounter]
  have g2 : (tieCounter.update false false)._stats.Goals = 57 := by
    rw [g]; simp [tieCounter]
  have h1 : 0 ≤ (tieCounter.update false false)._stats.Goals := by rw [g2]; norm_num
  have h2 : (tieCounter.update false false)._stats.Goals < 2 ^ 31 := by rw [g2]; norm_num
  have h3 : (tieCounter.update false false)._stats.Attempts < 2 ^ 31 := by rw [a2]; norm_num
  exact ⟨h1, h2, h3, (C7_success_percentage_is_rounded_quotient tieCounter false h1 h2 h3).1⟩

/-- C8 fails on the code. After a pack load and the initial spawn, the events goal, shot
reset, goal leave `Goals = 2` and `Attempts = 1`, so `SuccessPercentage` and
`PeakSuccessPercentage` are 200; after the shot reset that closes the second attempt the
percentage is 100 and the peak is still 200, above 100. -/
theorem C8_percentages_reach_200 (c : GoalPercentageCounter) (h : c._enabled = true) :
    (applyCounterEvents (afterPackLoadAndSpawn c)
      [CounterEvent.goal, CounterEvent.shotReset, CounterEvent.goal])._stats.Goals = 2 ∧
    (applyCounterEvents (afterPackLoadAndSpawn c)
      [CounterEvent.goal, CounterEvent.shotReset, CounterEvent.goal])._stats.Attempts = 1 ∧
    (applyCounterEvents (afterPackLoadAndSpawn c)
      [CounterEvent.goal, CounterEvent.shotReset,
        CounterEvent.goal])._stats.SuccessPercentage = 200 ∧
    (applyCounterEvents (afterPackLoadAndSpawn c)
      [CounterEvent.goal, CounterEvent.shotReset,
        CounterEvent.goal])._stats.PeakSuccessPercentage = 200 ∧
    (applyCounterEvents (afterPackLoadAndSpawn c)
      [CounterEvent.goal, CounterEvent.shotReset, CounterEvent.goal,
        CounterEvent.shotReset])._stats.SuccessPercentage = 100 ∧
    (applyCounterEvents (afterPackLoadAndSpawn c)
      [CounterEvent.goal, CounterEvent.shotReset, CounterEvent.goal,
        CounterEvent.shotReset])._stats.PeakSuccessPercentage = 200 ∧
    ¬ ((applyCounterEvents (afterPackLoadAndSpawn c)
      [CounterEvent.goal, CounterEvent.shotReset, CounterEvent.goal,
        CounterEvent.shotReset])._stats.PeakSuccessPercentage ≤ 100) := by
  obtain ⟨g3, a3, s3, p3, -, -, s4, p4⟩ := two_goal_attempts c h
  simp only [applyCounterEvents_cons, applyCounterEvents_nil, applyCounterEvent]
  refine ⟨g3, a3, s3, p3, s4, p4, ?_⟩
  rw [p4]; norm_num

/-- Witness of C8: the session starts on a used counter. -/
theorem C8_percentages_reach_200_witness :
    (applyCounterEvents (afterPackLoadAndSpawn usedCounter)
      [CounterEvent.goal, CounterEvent.shotReset,
        CounterEvent.goal])._stats.SuccessPercentage = 200 ∧
    ¬ ((applyCounterEvents (afterPackLoadAndSpawn usedCounter)
      [CounterEvent.goal, CounterEvent.shotReset, CounterEvent.goal,
        CounterEvent.shotReset])._stats.PeakSuccessPercentage ≤ 100) :=
  ⟨(C8_percentages_reach_200 usedCounter rfl).2.2.1,
    (C8_percentages_reach_200 usedCounter rfl).2.2.2.2.2.2⟩

/-- C9. After a reset, for every sequence of `update` calls `PeakSuccessPercentage` is the
maximum of the `SuccessPercentage` values the calls produced (0 if there were none): it is
the running maximum from 0, at least every produced value, and one of them unless there is
none; `SuccessPercentage ≤ PeakSuccessPercentage` holds, and further `update` calls never
lower the peak. -/
theorem C9_peak_is_maximum_of_produced_percentages (c : GoalPercentageCounter)
    (calls more : List (Bool × Bool)) :
    (updates c.reset calls)._stats.PeakSuccessPercentage =
      (producedPercentages c.reset calls).foldl max 0 ∧
    (∀ v ∈ producedPercentages c.reset calls,
      v ≤ (updates c.reset calls)._stats.PeakSuccessPercentage) ∧
    ((producedPercentages c.reset calls = [] ∧
        (updates c.reset calls)._stats.PeakSuccessPercentage = 0) ∨
      (updates c.reset calls)._stats.PeakSuccessPercentage ∈
        producedPercentages c.reset calls) ∧
    (updates c.reset calls)._stats.SuccessPercentage ≤
      (updates c.reset calls)._stats.PeakSuccessPercentage ∧
    (updates c.reset calls)._stats.PeakSuccessPercentage ≤
      (updates c.reset (calls ++ more))._stats.PeakSuccessPercentage := by
  have hp : (updates c.reset calls)._stats.PeakSuccessPercentage =
      (producedPercentages c.reset calls).foldl max 0 := by
    rw [updates_peak]; rfl
  refine ⟨hp, ?_, ?_, ?_, ?_⟩
  · rw [hp]; exact foldl_max_ge_mem _ 0
  · rw [hp]
    rcases foldl_max_zero_mem (producedPercentages c.reset calls)
        (producedPercentages_nonneg calls c.reset (by simp [reset])) with h | h
    · left; rw [h]; exact ⟨rfl, rfl⟩
    · right; exact h
  · exact updates_successPercentage_le_peak calls c.reset (by simp [reset])
  · rw [updates_append, updates_peak more]
    exact foldl_max_ge_init _ _

/-- C10. After a pack load and the initial spawn, for every sequence of attempts (a goal
attempt being `handleGoal` then `handleShotReset`, a miss attempt `handleShotReset` alone)
and every prefix of it, `LongestGoalStreak` after the prefix is the length of the longest
run of consecutive goal attempts in the prefix and `LongestMissStreak` that of the longest
run of consecutive miss attempts; neither is larger after the prefix than after the whole
sequence. -/
theorem C10_longest_streaks_are_longest_runs (c : GoalPercentageCounter)
    (h : c._enabled = true) (attempts p : List Bool) (hp : p <+: attempts) :
    (∃ G M : Nat,
      (handleAttempts (afterPackLoadAndSpawn c) p)._stats.LongestGoalStreak = G ∧
      (handleAttempts (afterPackLoadAndSpawn c) p)._stats.LongestMissStreak = M ∧
      IsLongestRun true p G ∧ IsLongestRun false p M) ∧
    (handleAttempts (afterPackLoadAndSpawn c) p)._stats.LongestGoalStreak ≤
      (handleAttempts (afterPackLoadAndSpawn c) attempts)._stats.LongestGoalStreak ∧
    (handleAttempts (afterPackLoadAndSpawn c) p)._stats.LongestMissStreak ≤
      (handleAttempts (afterPackLoadAndSpawn c) attempts)._stats.LongestMissStreak := by
  obtain ⟨-, -, -, -, G, M, -, -, e3, e4, -, -, l1, l2⟩ := handleAttempts_runs p c h
  obtain ⟨-, -, -, -, G2, M2, -, -, d3, d4, -, -, k1, k2⟩ := handleAttempts_runs attempts c h
  refine ⟨⟨G, M, e3, e4, l1, l2⟩, ?_, ?_⟩
  · rw [e3, d3]
    exact_mod_cast isLongestRun_mono true p attempts G G2 hp l1 k1
  · rw [e4, d4]
    exact_mod_cast isLongestRun_mono false p attempts M M2 hp l2 k2

/-- Witness of C10: goal, goal, miss, goal, with the prefix goal, goal, miss. -/
theorem C10_longest_streaks_are_longest_runs_witness :
    [true, true, false] <+: [true, true, false, true] ∧
    (∃ G M : Nat,
      (handleAttempts (afterPackLoadAndSpawn usedCounter)
        [true, true, false])._stats.LongestGoalStreak = G ∧
      (handleAttempts (afterPackLoadAndSpawn usedCounter)
        [true, true, false])._stats.LongestMissStreak = M ∧
      IsLongestRun true [true, true, false] G ∧ IsLongestRun false [true, true, false] M) :=
  ⟨⟨[true], rfl⟩,
    (C10_longest_streaks_are_longest_runs usedCounter rfl [true, true, false, true]
      [true, true, false] ⟨[true], rfl⟩).1⟩

/-- C11. `GoalStreakCounter` and `MissStreakCounter` are never both nonzero: this holds
after `reset`, after every `handleGoal`, is preserved by `handleShotReset`, and holds after
every sequence of goal, shot-reset and stat-reset events, well-formed or not. -/
theorem C11_streaks_never_both_nonzero (c d : GoalPercentageCounter)
    (events : List CounterEvent)
    (hd : d._stats.GoalStreakCounter = 0 ∨ d._stats.MissStreakCounter = 0) :
    (d.reset._stats.GoalStreakCounter = 0 ∨ d.reset._stats.MissStreakCounter = 0) ∧
    (d.handleGoal._stats.GoalStreakCounter = 0 ∨ d.handleGoal._stats.MissStreakCounter = 0) ∧
    (d.handleShotReset._stats.GoalStreakCounter = 0 ∨
      d.handleShotReset._stats.MissStreakCounter = 0) ∧
    ((applyCounterEvents c.reset events)._stats.GoalStreakCounter = 0 ∨
      (applyCounterEvents c.reset events)._stats.MissStreakCounter = 0) := by
  refine ⟨Or.inl rfl, Or.inr (by rw [handleGoal_eq]), ?_,
    streaks_run events c.reset (Or.inl rfl)⟩
  cases hf : d._isFirstSpawn with
  | true => rw [handleShotReset_firstSpawn d hf]; exact hd
  | false =>
    cases hl : d._stats.IgnoreNextShotReset with
    | true => rw [handleShotReset_latched d hf hl]; exact hd
    | false => rw [handleShotReset_miss d hf hl]; exact Or.inl rfl

/-- Witness of C11: a used counter with a miss streak, and two goals in a row followed by
two shot resets. -/
theorem C11_streaks_never_both_nonzero_witness :
    (usedCounter._stats.GoalStreakCounter = 0 ∨ usedCounter._stats.MissStreakCounter = 0) ∧
    (usedCounter.handleShotReset._stats.GoalStreakCounter = 0 ∨
      usedCounter.handleShotReset._stats.MissStreakCounter = 0) ∧
    ((applyCounterEvents usedCounter.reset
        [CounterEvent.goal, CounterEvent.goal, CounterEvent.shotReset,
          CounterEvent.shotReset])._stats.GoalStreakCounter = 0 ∨
      (applyCounterEvents usedCounter.reset
        [CounterEvent.goal, CounterEvent.goal, CounterEvent.shotReset,
          CounterEvent.shotReset])._stats.MissStreakCounter = 0) :=
  ⟨Or.inl rfl,
    (C11_streaks_never_both_nonzero usedCounter usedCounter
      [CounterEvent.goal, CounterEvent.goal, CounterEvent.shotReset, CounterEvent.shotReset]
      (Or.inl rfl)).2.2.1,
    (C11_streaks_never_both_nonzero usedCounter usedCounter
      [CounterEvent.goal, CounterEvent.goal, CounterEvent.shotReset, CounterEvent.shotReset]
      (Or.inl rfl)).2.2.2⟩

/-- C12, as stated, fails: in a debug build an attempt start in state `Resetting` is
ignored; the goal event that follows only sets the flag, and the round change moves to
`PreparingNewShot` without `processGoal, updateData`: the goal is not counted. -/
theorem C12_counterexample :
    ((resettingMachine.processEvents true
        [TrainingEvent.trainingShotAttempt, TrainingEvent.hitGoal]).processsEventRoundChanged
          true 1)._statUpdater =
      (resettingMachine.processEvents true
        [TrainingEvent.trainingShotAttempt, TrainingEvent.hitGoal])._statUpdater ∧
    ((resettingMachine.processEvents true
        [TrainingEvent.trainingShotAttempt, TrainingEvent.hitGoal]).processsEventRoundChanged
          true 1)._statUpdater = [StatUpdaterCall.processReset 3] ∧
    ((resettingMachine.processEvents true
        [TrainingEvent.trainingShotAttempt, TrainingEvent.hitGoal]).processsEventRoundChanged
          true 1)._currentState = CustomTrainingState.PreparingNewShot := by
  decide

/-- C12, amended. No goal event makes a call on the updater or changes the state.  After
an attempt start that is accepted (the guard of the debug build is absent, or the state is
`PreparingNewShot`), for every list of goal and touch events in any order, the state is
still `AttemptInProgress`, and the round change that follows emits exactly
`processGoal, updateData` when the list holds at least one goal event and exactly
`processMiss, updateData` when it holds none, and ends in `PreparingNewShot`.  In a debug
build an attempt start in another state is ignored: it leaves the state, both flags and
the calls made so far as they were. -/
theorem C12_goal_is_counted_once (DEBUG_STATE_MACHINE : Bool)
    (m other : CustomTrainingStateMachine) (events : List TrainingEvent)
    (newRoundIndex : Int) :
    (other.processOnHitGoal._statUpdater = other._statUpdater ∧
      other.processOnHitGoal._currentState = other._currentState) ∧
    (DEBUG_STATE_MACHINE = false ∨
        m._currentState = CustomTrainingState.PreparingNewShot →
      (∀ event ∈ events,
        event = TrainingEvent.carTouch ∨ event = TrainingEvent.hitGoal) →
      ((m.processTrainingShotAttempt DEBUG_STATE_MACHINE).processEvents
          DEBUG_STATE_MACHINE events)._currentState =
        CustomTrainingState.AttemptInProgress ∧
      (((m.processTrainingShotAttempt DEBUG_STATE_MACHINE).processEvents
          DEBUG_STATE_MACHINE events).processsEventRoundChanged
            DEBUG_STATE_MACHINE newRoundIndex)._statUpdater =
        ((m.processTrainingShotAttempt DEBUG_STATE_MACHINE).processEvents
          DEBUG_STATE_MACHINE events)._statUpdater ++
          (if 1 ≤ events.count TrainingEvent.hitGoal then
            [StatUpdaterCall.processGoal, StatUpdaterCall.updateData]
          else [StatUpdaterCall.processMiss, StatUpdaterCall.updateData]) ∧
      (((m.processTrainingShotAttempt DEBUG_STATE_MACHINE).processEvents
          DEBUG_STATE_MACHINE events).processsEventRoundChanged
            DEBUG_STATE_MACHINE newRoundIndex)._currentState =
        CustomTrainingState.PreparingNewShot) ∧
    (DEBUG_STATE_MACHINE = true →
      m._currentState ≠ CustomTrainingState.PreparingNewShot →
      (m.processTrainingShotAttempt DEBUG_STATE_MACHINE)._currentState = m._currentState ∧
      (m.processTrainingShotAttempt DEBUG_STATE_MACHINE)._goalWasScoredInCurrentAttempt =
        m._goalWasScoredInCurrentAttempt ∧
      (m.processTrainingShotAttempt DEBUG_STATE_MACHINE)._ballWasHitInCurrentAttempt =
        m._ballWasHitInCurrentAttempt ∧
      (m.processTrainingShotAttempt DEBUG_STATE_MACHINE)._statUpdater = m._statUpdater) := by
  refine ⟨?_, ?_, ?_⟩
  · rw [CustomTrainingStateMachine.processOnHitGoal_eq]
    exact ⟨rfl, rfl⟩
  · intro h hevents
    obtain ⟨s1, s2, -, -⟩ := CustomTrainingStateMachine.processEvents_touches_and_goals
      DEBUG_STATE_MACHINE events hevents (m.processTrainingShotAttempt DEBUG_STATE_MACHINE)
    have hstart := CustomTrainingStateMachine.processTrainingShotAttempt_accepted
      DEBUG_STATE_MACHINE m h
    have hstate : ((m.processTrainingShotAttempt DEBUG_STATE_MACHINE).processEvents
        DEBUG_STATE_MACHINE events)._currentState =
        CustomTrainingState.AttemptInProgress := by
      rw [s1, hstart]
    have hflag : ((m.processTrainingShotAttempt DEBUG_STATE_MACHINE).processEvents
        DEBUG_STATE_MACHINE events)._goalWasScoredInCurrentAttempt =
        decide (1 ≤ events.count TrainingEvent.hitGoal) := by
      rw [s2, hstart]
      rfl
    obtain ⟨r1, r2⟩ := CustomTrainingStateMachine.processsEventRoundChanged_inProgress
      DEBUG_STATE_MACHINE _ newRoundIndex hstate
    refine ⟨hstate, ?_, r2⟩
    rw [r1, hflag]
    by_cases hn : 1 ≤ events.count TrainingEvent.hitGoal <;> simp [hn]
  · intro hd hs
    subst hd
    rw [CustomTrainingStateMachine.processTrainingShotAttempt_ignored m hs]
    exact ⟨rfl, rfl, rfl, rfl⟩

/-- Witness of C12, amended: in a debug build, from `PreparingNewShot`, a touch, a goal, a
duplicate of the goal and another touch; the round change emits `processGoal, updateData`. -/
theorem C12_goal_is_counted_once_witness :
    (((preparingMachine.processTrainingShotAttempt true).processEvents true
        [TrainingEvent.carTouch, TrainingEvent.hitGoal, TrainingEvent.hitGoal,
          TrainingEvent.carTouch]).processsEventRoundChanged true 2)._statUpdater =
      ((preparingMachine.processTrainingShotAttempt true).processEvents true
        [TrainingEvent.carTouch, TrainingEvent.hitGoal, TrainingEvent.hitGoal,
          TrainingEvent.carTouch])._statUpdater ++
        (if 1 ≤ [TrainingEvent.carTouch, TrainingEvent.hitGoal, TrainingEvent.hitGoal,
            TrainingEvent.carTouch].count TrainingEvent.hitGoal then
          [StatUpdaterCall.processGoal, StatUpdaterCall.updateData]
        else [StatUpdaterCall.processMiss, StatUpdaterCall.updateData]) :=
  ((C12_goal_is_counted_once true preparingMachine preparingMachine
    [TrainingEvent.carTouch, TrainingEvent.hitGoal, TrainingEvent.hitGoal,
      TrainingEvent.carTouch] 2).2.1 (Or.inr rfl) (by decide)).2.1

/-- C13, as stated, fails: with `DEBUG_STATE_MACHINE` unset the guard is compiled out, and
an attempt start in state `Resetting` moves to `AttemptInProgress` and notifies the
updater. -/
theorem C13_counterexample :
    resettingMachine._currentState = CustomTrainingState.Resetting ∧
    (resettingMachine.processTrainingShotAttempt false)._currentState =
      CustomTrainingState.AttemptInProgress ∧
    (resettingMachine.processTrainingShotAttempt false)._statUpdater =
      resettingMachine._statUpdater ++ [StatUpdaterCall.processAttempt] := by
  decide

/-- C13, amended. With `DEBUG_STATE_MACHINE` set, `processTrainingShotAttempt` in a state
other than `PreparingNewShot` leaves the state, both attempt flags and the updater
untouched (it only logs that the event is ignored).  With the switch unset, or in state
`PreparingNewShot`, it clears both flags, emits `processAttempt` once and moves to
`AttemptInProgress`, whatever the state was. -/
theorem C13_attempt_start_guard (DEBUG_STATE_MACHINE : Bool) (m : CustomTrainingStateMachine) :
    ((DEBUG_STATE_MACHINE = true ∧
        m._currentState ≠ CustomTrainingState.PreparingNewShot) ∧
      (m.processTrainingShotAttempt DEBUG_STATE_MACHINE)._currentState = m._currentState ∧
      (m.processTrainingShotAttempt DEBUG_STATE_MACHINE)._goalWasScoredInCurrentAttempt =
        m._goalWasScoredInCurrentAttempt ∧
      (m.processTrainingShotAttempt DEBUG_STATE_MACHINE)._ballWasHitInCurrentAttempt =
        m._ballWasHitInCurrentAttempt ∧
      (m.processTrainingShotAttempt DEBUG_STATE_MACHINE)._statUpdater = m._statUpdater) ∨
    ((DEBUG_STATE_MACHINE = false ∨
        m._currentState = CustomTrainingState.PreparingNewShot) ∧
      (m.processTrainingShotAttempt DEBUG_STATE_MACHINE)._currentState =
        CustomTrainingState.AttemptInProgress ∧
      (m.processTrainingShotAttempt DEBUG_STATE_MACHINE)._goalWasScoredInCurrentAttempt =
        false ∧
      (m.processTrainingShotAttempt DEBUG_STATE_MACHINE)._ballWasHitInCurrentAttempt =
        false ∧
      (m.processTrainingShotAttempt DEBUG_STATE_MACHINE)._statUpdater =
        m._statUpdater ++ [StatUpdaterCall.processAttempt]) := by
  by_cases h : DEBUG_STATE_MACHINE = false ∨
      m._currentState = CustomTrainingState.PreparingNewShot
  · right
    rw [CustomTrainingStateMachine.processTrainingShotAttempt_accepted _ m h]
    exact ⟨h, rfl, rfl, rfl, rfl⟩
  · left
    have hd : DEBUG_STATE_MACHINE = true := by
      cases DEBUG_STATE_MACHINE
      · exact absurd (Or.inl rfl) h
      · rfl
    have hs : m._currentState ≠ CustomTrainingState.PreparingNewShot :=
      fun e => h (Or.inr e)
    subst hd
    rw [CustomTrainingStateMachine.processTrainingShotAttempt_ignored m hs]
    exact ⟨⟨rfl, hs⟩, rfl, rfl, rfl, rfl⟩

/-- C14, as stated, fails: in a debug build an attempt start while an attempt is in
progress is ignored and leaves the touch flag set; the touch event that follows emits no
`processInitialBallHit`. -/
theorem C14_counterexample :
    scoringMachine._ballWasHitInCurrentAttempt = true ∧
    (scoringMachine.processEvents true
        [TrainingEvent.trainingShotAttempt, TrainingEvent.carTouch])._statUpdater =
      scoringMachine._statUpdater := by
  decide

/-- C14, amended. No touch event changes the state.  After an attempt start that is
accepted (the guard of the debug build is absent, or the state is `PreparingNewShot`), for
every list of touch and goal events in any order, the calls made since the attempt start
are exactly one `processInitialBallHit` when the list holds at least one touch event and
none when it holds no touch event, and the state is `AttemptInProgress`.  In a debug build
an attempt start in another state is ignored and leaves the touch flag as it was; when the
flag is set, the touch and goal events that follow make no call. -/
theorem C14_initial_hit_is_notified_once (DEBUG_STATE_MACHINE : Bool)
    (m other : CustomTrainingStateMachine) (events : List TrainingEvent) :
    other.processOnCarTouch._currentState = other._currentState ∧
    (DEBUG_STATE_MACHINE = false ∨
        m._currentState = CustomTrainingState.PreparingNewShot →
      (∀ event ∈ events,
        event = TrainingEvent.carTouch ∨ event = TrainingEvent.hitGoal) →
      ((m.processTrainingShotAttempt DEBUG_STATE_MACHINE).processEvents
          DEBUG_STATE_MACHINE events)._statUpdater =
        (m.processTrainingShotAttempt DEBUG_STATE_MACHINE)._statUpdater ++
          (if 1 ≤ events.count TrainingEvent.carTouch then
            [StatUpdaterCall.processInitialBallHit]
          else []) ∧
      ((m.processTrainingShotAttempt DEBUG_STATE_MACHINE).processEvents
          DEBUG_STATE_MACHINE events)._currentState =
        CustomTrainingState.AttemptInProgress) ∧
    (DEBUG_STATE_MACHINE = true →
      m._currentState ≠ CustomTrainingState.PreparingNewShot →
      (m.processTrainingShotAttempt DEBUG_STATE_MACHINE)._ballWasHitInCurrentAttempt =
        m._ballWasHitInCurrentAttempt ∧
      (m._ballWasHitInCurrentAttempt = true →
        (∀ event ∈ events,
          event = TrainingEvent.carTouch ∨ event = TrainingEvent.hitGoal) →
        ((m.processTrainingShotAttempt DEBUG_STATE_MACHINE).processEvents
            DEBUG_STATE_MACHINE events)._statUpdater = m._statUpdater)) := by
  refine ⟨?_, ?_, ?_⟩
  · cases hb : other._ballWasHitInCurrentAttempt with
    | true => rw [CustomTrainingStateMachine.processOnCarTouch_of_hit other hb]
    | false => rw [CustomTrainingStateMachine.processOnCarTouch_of_not_hit other hb]
  · intro h hevents
    obtain ⟨s1, -, -, s4⟩ := CustomTrainingStateMachine.processEvents_touches_and_goals
      DEBUG_STATE_MACHINE events hevents (m.processTrainingShotAttempt DEBUG_STATE_MACHINE)
    have hstart := CustomTrainingStateMachine.processTrainingShotAttempt_accepted
      DEBUG_STATE_MACHINE m h
    have hflag : (m.processTrainingShotAttempt
        DEBUG_STATE_MACHINE)._ballWasHitInCurrentAttempt = false := by
      rw [hstart]
    have hstate : (m.processTrainingShotAttempt DEBUG_STATE_MACHINE)._currentState =
        CustomTrainingState.AttemptInProgress := by
      rw [hstart]
    refine ⟨?_, ?_⟩
    · rw [s4]
      simp only [hflag, true_and]
    · rw [s1, hstate]
  · intro hd hs
    subst hd
    refine ⟨?_, ?_⟩
    · rw [CustomTrainingStateMachine.processTrainingShotAttempt_ignored m hs]
    · intro hb hevents
      obtain ⟨-, -, -, s4⟩ := CustomTrainingStateMachine.processEvents_touches_and_goals
        true events hevents (m.processTrainingShotAttempt true)
      rw [s4, CustomTrainingStateMachine.processTrainingShotAttempt_ignored m hs]
      simp [hb]

/-- Witness of C14, amended: in a debug build, from `PreparingNewShot` with the touch flag
still set from the attempt before, a touch, a goal and two more touches. -/
theorem C14_initial_hit_is_notified_once_witness :
    ((preparingMachine.processTrainingShotAttempt true).processEvents true
        [TrainingEvent.carTouch, TrainingEvent.hitGoal, TrainingEvent.carTouch,
          TrainingEvent.carTouch])._statUpdater =
      (preparingMachine.processTrainingShotAttempt true)._statUpdater ++
        (if 1 ≤ [TrainingEvent.carTouch, TrainingEvent.hitGoal, TrainingEvent.carTouch,
            TrainingEvent.carTouch].count TrainingEvent.carTouch then
          [StatUpdaterCall.processInitialBallHit]
        else []) :=
  ((C14_initial_hit_is_notified_once true preparingMachine preparingMachine
    [TrainingEvent.carTouch, TrainingEvent.hitGoal, TrainingEvent.carTouch,
      TrainingEvent.carTouch]).2.1 (Or.inr rfl) (by decide)).1

/-- C15, as stated, fails: a pack load and a round change that ends in `PreparingNewShot`
both leave the two attempt flags set. -/
theorem C15_counterexample :
    (scoringMachine.processOnTrainingModeLoaded false 3)._goalWasScoredInCurrentAttempt
      = true ∧
    (scoringMachine.processOnTrainingModeLoaded false 3)._ballWasHitInCurrentAttempt = true ∧
    (scoringMachine.processsEventRoundChanged false 2)._currentState =
      CustomTrainingState.PreparingNewShot ∧
    (scoringMachine.processsEventRoundChanged false 2)._goalWasScoredInCurrentAttempt
      = true ∧
    (scoringMachine.processsEventRoundChanged false 2)._ballWasHitInCurrentAttempt = true := by
  decide

/-- C15, amended. `processOnTrainingModeLoaded` and `processsEventRoundChanged` leave the
goal flag and the touch flag as they were, for every prior state, every flag values and
both build configurations.  The two flags are cleared by `processTrainingShotAttempt` when
the attempt start is accepted (the guard of the debug build is absent, or the state is
`PreparingNewShot`): it moves to `AttemptInProgress` with both flags false. -/
theorem C15_flags_are_cleared_at_attempt_start (DEBUG_STATE_MACHINE : Bool)
    (m : CustomTrainingStateMachine) (n : Int) :
    (m.processOnTrainingModeLoaded DEBUG_STATE_MACHINE n)._goalWasScoredInCurrentAttempt =
      m._goalWasScoredInCurrentAttempt ∧
    (m.processOnTrainingModeLoaded DEBUG_STATE_MACHINE n)._ballWasHitInCurrentAttempt =
      m._ballWasHitInCurrentAttempt ∧
    (m.processsEventRoundChanged DEBUG_STATE_MACHINE n)._goalWasScoredInCurrentAttempt =
      m._goalWasScoredInCurrentAttempt ∧
    (m.processsEventRoundChanged DEBUG_STATE_MACHINE n)._ballWasHitInCurrentAttempt =
      m._ballWasHitInCurrentAttempt ∧
    (DEBUG_STATE_MACHINE = false ∨
        m._currentState = CustomTrainingState.PreparingNewShot →
      (m.processTrainingShotAttempt DEBUG_STATE_MACHINE)._currentState =
        CustomTrainingState.AttemptInProgress ∧
      (m.processTrainingShotAttempt DEBUG_STATE_MACHINE)._goalWasScoredInCurrentAttempt =
        false ∧
      (m.processTrainingShotAttempt DEBUG_STATE_MACHINE)._ballWasHitInCurrentAttempt =
        false) := by
  obtain ⟨f1, f2, f3, f4⟩ :=
    CustomTrainingStateMachine.flags_untouched DEBUG_STATE_MACHINE m n
  refine ⟨f1, f2, f3, f4, ?_⟩
  intro h
  rw [CustomTrainingStateMachine.processTrainingShotAttempt_accepted _ m h]
  exact ⟨rfl, rfl, rfl⟩

/-- Witness of C15, amended: in a debug build the machine that waits for the next attempt
with both flags set starts the attempt with both flags false. -/
theorem C15_flags_are_cleared_at_attempt_start_witness :
    (preparingMachine.processTrainingShotAttempt true)._currentState =
      CustomTrainingState.AttemptInProgress ∧
    (preparingMachine.processTrainingShotAttempt true)._goalWasScoredInCurrentAttempt =
      false ∧
    (preparingMachine.processTrainingShotAttempt true)._ballWasHitInCurrentAttempt =
      false :=
  (C15_flags_are_cleared_at_attempt_start true preparingMachine 2).2.2.2.2 (Or.inr rfl)

/-- C16. A file whose version number is the first supported one (version 1.0), whose
second line has the shot-count tag and a shot count `N > 0`, and whose remaining lines
are `N + 1` version-1.0 blocks, is read into the overall snapshot and exactly `N`
per-shot snapshots: each holds the counters and percentages of its block, in file order,
every version-1.1 member is at its initial value 0 (part of `IsBlock_1_0`), and the
tracker holds what it held before, so no impact location is registered. -/
theorem C16_version_1_0_file_is_read (std : FloatParsing) (defs : StatFileDefs)
    (versionLine shotCountLine : List Char) (blocks : List (List (List Char)))
    (overall : StatsData) (perShot : List StatsData) (registered : List Vector)
    (hversion :
      indexInVector defs.SupportedVersionNumbers (getLineValues versionLine).2 = 0)
    (htag : (getLineValues shotCountLine).1 = defs.NumberOfShots)
    (hcount : stoi (getLineValues shotCountLine).2 = Except.ok (perShot.length : Int))
    (hpos : 0 < perShot.length)
    (hblocks : List.Forall₂ (IsBlock_1_0 std) blocks (overall :: perShot)) :
    readStats std defs (some (versionLine :: shotCountLine :: blocks.flatten)) registered =
      Except.ok ({ AllShotStats := overall, PerShotStats := perShot }, registered) := by
  obtain ⟨first, others, hfirst, hothers, rfl⟩ := List.forall₂_cons_right_iff.mp hblocks
  have hlen : others.length = perShot.length := hothers.length_eq
  have hv : ¬ indexInVector defs.SupportedVersionNumbers (getLineValues versionLine).2 < 0 := by
    omega
  have hloop := readBlocks_of_isBlock_1_0 std defs others perShot hothers overall [] []
    registered
  rw [List.append_nil, List.nil_append, List.nil_append, List.length_nil, Nat.zero_add,
    hlen] at hloop
  refine readStats_of_some std defs _ registered _ { lines := [], registered := registered } ?_
  rw [readStatsFromStream_header std defs versionLine shotCountLine _ registered _ hv hcount,
    if_neg (by simp only [htag, ne_eq, not_true_eq_false, false_or]; omega), hversion,
    Int.toNat_ofNat, readBlocks_succ, List.flatten_cons]
  have hobj : ShotStats.objectToBeFilled
      { AllShotStats := {}, PerShotStats := List.replicate perShot.length {} } 0 = {} := rfl
  rw [hobj, Reader.bind_of_some _ _ _ _ _
    (readBlock_of_isBlock_1_0 std defs first overall hfirst others.flatten registered)]
  exact hloop

/-- Witness of C16: `exampleFile`, a version-1.0 file for one shot with two blocks that
hold three missed attempts each. -/
theorem C16_version_1_0_file_is_read_witness :
    readStats plainDecimalParsing exampleDefs
        (some ("Version\t1.0".toList :: "NumberOfShots\t1".toList ::
          [exampleBlock, exampleBlock].flatten)) [] =
      Except.ok ({ AllShotStats := exampleData, PerShotStats := [exampleData] }, []) :=
  C16_version_1_0_file_is_read plainDecimalParsing exampleDefs "Version\t1.0".toList
    "NumberOfShots\t1".toList [exampleBlock, exampleBlock] exampleData [exampleData] []
    (by decide) (by decide) (by decide) (by decide)
    (List.Forall₂.cons (by decide) (List.Forall₂.cons (by decide) List.Forall₂.nil))

/-- C17, the divergence. A negative value below the range of `int` does not give the empty
result: `std::stoi` throws `std::out_of_range` and the exception leaves `readStats`.  This
holds for such a value as the shot count of a file with a supported version, and for such
a value on a counter line (a line with a tag, read into an `int` member) of a file with a
supported version, the shot-count tag and a positive shot count, after blocks that are
complete and lines of the block that are accepted. -/
theorem C17_negative_value_below_int_range_escapes (std : FloatParsing) (defs : StatFileDefs)
    (versionLine shotCountLine : List Char) (numberOfShots : Int)
    (complete : List (List (List Char))) (store : StatsData → Int → StatsData)
    (good : List (List Char)) (bad : List Char) (tail : List (List Char))
    (registered : List Vector)
    (hsupported :
      0 ≤ indexInVector defs.SupportedVersionNumbers (getLineValues versionLine).2) :
    ((getLineValues shotCountLine).1 = defs.NumberOfShots →
      stoi (getLineValues shotCountLine).2 = Except.ok numberOfShots →
      0 < numberOfShots →
      (complete.length : Int) ≤ numberOfShots →
      (∀ block ∈ complete,
        List.Forall₂ (LineReader.Accepts std defs)
          (blockLines (indexInVector defs.SupportedVersionNumbers
            (getLineValues versionLine).2)) block) →
      AcceptedPrefix std defs
        (blockLines (indexInVector defs.SupportedVersionNumbers
          (getLineValues versionLine).2)) good →
      (blockLines (indexInVector defs.SupportedVersionNumbers
          (getLineValues versionLine).2))[good.length]? =
        some (LineReader.field (FieldReader.intField store)) →
      HasKeyAndValue bad →
      IsIntBelowRange (getLineValues bad).2 →
      readStats std defs
          (some (versionLine :: shotCountLine ::
            (complete.flatten ++ (good ++ bad :: tail))))
          registered = Except.error StdException.out_of_range) ∧
    (∀ (line : List Char) (body : List (List Char)),
      IsIntBelowRange (getLineValues line).2 →
      readStats std defs (some (versionLine :: line :: body)) registered =
        Except.error StdException.out_of_range) := by
  have hv : ¬ indexInVector defs.SupportedVersionNumbers (getLineValues versionLine).2 < 0 := by
    omega
  constructor
  · intro htag hcount hpos hcomplete hblocks hgood hreader hline hvalue
    refine readStats_of_error std defs _ registered _ ?_
    rw [readStatsFromStream_header std defs versionLine shotCountLine _ registered _ hv
        hcount,
      if_neg (by simp only [htag, ne_eq, not_true_eq_false, false_or]; omega)]
    exact readBlocks_of_throw std defs _ complete store good bad tail _ hblocks hgood
      hreader hline (stoi_of_isIntBelowRange _ hvalue) _ (by omega) 0 _ registered
  · intro line body hl
    exact readStats_of_error std defs _ registered _
      (readStatsFromStream_throws std defs versionLine line body registered _ hv
        (stoi_of_isIntBelowRange _ hl))

/-- Witness of C17: in `belowRangeGoalsFile` the separator and the attempts line of the
overall block are accepted and the goals line holds `-2147483649`;
`std::out_of_range` leaves `readStats`. -/
theorem C17_negative_value_below_int_range_escapes_witness :
    readStats plainDecimalParsing exampleDefs (some belowRangeGoalsFile) [] =
      Except.error StdException.out_of_range :=
  (C17_negative_value_below_int_range_escapes plainDecimalParsing exampleDefs
    "Version\t1.0".toList "NumberOfShots\t1".toList 1 []
    (fun d v => { d with Stats := { d.Stats with Goals := v } })
    ["----".toList, "Attempts\t3".toList] "Goals\t-2147483649".toList
    ["InitialHits\t0".toList] [] (by decide)).1 (by decide) (by decide) (by decide)
    (by decide) (fun _ hb => absurd hb (List.not_mem_nil _))
    (List.Forall₂.cons trivial (List.Forall₂.cons ⟨3, by decide⟩ List.Forall₂.nil))
    rfl (by decide) (by decide)

/-- C18, the divergence. In a file with a supported version, the version tag, the
shot-count tag and a positive shot count, whose attempts line has a tag and a value on
which `std::stoi` throws, the exception leaves both `readStats` and `peekAttemptAmount`:
neither returns its failure result. -/
theorem C18_unparseable_number_escapes (std : FloatParsing) (defs : StatFileDefs)
    (versionLine shotCountLine separator attemptsLine : List Char)
    (rest : List (List Char)) (numberOfShots : Int) (registered : List Vector)
    (e : StdException)
    (hversionTag : (getLineValues versionLine).1 = defs.Version)
    (hsupported :
      0 ≤ indexInVector defs.SupportedVersionNumbers (getLineValues versionLine).2)
    (hshotCountTag : (getLineValues shotCountLine).1 = defs.NumberOfShots)
    (hcount : stoi (getLineValues shotCountLine).2 = Except.ok numberOfShots)
    (hpos : 0 < numberOfShots)
    (hline : HasKeyAndValue attemptsLine)
    (hthrows : stoi (getLineValues attemptsLine).2 = Except.error e) :
    readStats std defs
        (some (versionLine :: shotCountLine :: separator :: attemptsLine :: rest))
        registered = Except.error e ∧
    peekAttemptAmount defs
        (some (versionLine :: shotCountLine :: separator :: attemptsLine :: rest)) =
      Except.error e := by
  have hv : ¬ indexInVector defs.SupportedVersionNumbers (getLineValues versionLine).2 < 0 := by
    omega
  constructor
  · refine readStats_of_error std defs _ registered e ?_
    rw [readStatsFromStream_header std defs versionLine shotCountLine _ registered _ hv
        hcount,
      if_neg (by simp only [hshotCountTag, ne_eq, not_true_eq_false, false_or]; omega),
      readBlocks_succ,
      Reader.bind_of_error _ _ _ _
        (readBlock_throws std defs _ separator attemptsLine rest registered e _ hline
          hthrows)]
  · unfold peekAttemptAmount
    simp only [peekAttemptAmountFromStream_throws defs versionLine shotCountLine separator
      attemptsLine rest [] e hversionTag hv hthrows]

/-- Witness of C18: `unparseableAttemptsFile`, whose attempts line reads `Attempts<TAB>abc`;
`std::invalid_argument` leaves both operations. -/
theorem C18_unparseable_number_escapes_witness :
    readStats plainDecimalParsing exampleDefs (some unparseableAttemptsFile) [] =
        Except.error StdException.invalid_argument ∧
    peekAttemptAmount exampleDefs (some unparseableAttemptsFile) =
      Except.error StdException.invalid_argument :=
  C18_unparseable_number_escapes plainDecimalParsing exampleDefs "Version\t1.0".toList
    "NumberOfShots\t1".toList "----".toList "Attempts\tabc".toList ["Goals\t0".toList] 1 []
    StdException.invalid_argument (by decide) (by decide) (by decide) (by decide)
    (by decide) (by decide) (by decide)

/-- C20. For a well-formed file (version tag and supported version number on line 1,
shot-count tag and a shot count `N > 0` on line 2, then `N + 1` complete blocks of that
version, the second line of the first block carrying the attempts tag), `readStats`
returns a structure read from the blocks, not its failure result, and `peekAttemptAmount`
returns exactly the `Attempts` value of the overall snapshot of that structure. -/
theorem C20_peek_agrees_with_full_parse (std : FloatParsing) (defs : StatFileDefs)
    (versionLine shotCountLine : List Char) (blocks : List (List (List Char)))
    (numberOfShots : Int) (registered : List Vector)
    (hversionTag : (getLineValues versionLine).1 = defs.Version)
    (hsupported :
      0 ≤ indexInVector defs.SupportedVersionNumbers (getLineValues versionLine).2)
    (hshotCountTag : (getLineValues shotCountLine).1 = defs.NumberOfShots)
    (hcount : stoi (getLineValues shotCountLine).2 = Except.ok numberOfShots)
    (hpos : 0 < numberOfShots)
    (hlength : (blocks.length : Int) = numberOfShots + 1)
    (hblocks : ∀ block ∈ blocks,
      List.Forall₂ (LineReader.Accepts std defs)
        (blockLines (indexInVector defs.SupportedVersionNumbers
          (getLineValues versionLine).2)) block)
    (hattemptsTag : (getLineValues (blocks.flatten.getD 1 [])).1 = defs.Attempts) :
    ∃ (stats : ShotStats) (tracked : List Vector),
      readStats std defs (some (versionLine :: shotCountLine :: blocks.flatten))
          registered = Except.ok (stats, tracked) ∧
      peekAttemptAmount defs (some (versionLine :: shotCountLine :: blocks.flatten)) =
        Except.ok stats.AllShotStats.Stats.Attempts := by
  have hv : ¬ indexInVector defs.SupportedVersionNumbers (getLineValues versionLine).2 < 0 := by
    omega
  cases blocks with
  | nil => simp at hlength; omega
  | cons first others =>
    obtain ⟨overall, vectors, separator, attemptsLine, tail, rfl, hattempts, hfirst⟩ :=
      readBlock_attempts std defs _ first (hblocks first (List.mem_cons_self _ _))
        (ShotStats.objectToBeFilled
          { AllShotStats := {}, PerShotStats := List.replicate numberOfShots.toNat {} } 0)
        others.flatten registered
    obtain ⟨stats, more, hloop, hall⟩ := readBlocks_of_accepts std defs _ others
      (fun b hb => hblocks b (List.mem_cons_of_mem _ hb)) 1
      (ShotStats.fill
        { AllShotStats := {}, PerShotStats := List.replicate numberOfShots.toNat {} } 0
        overall) [] (registered ++ vectors)
    have hothers : others.length = numberOfShots.toNat := by
      simp only [List.length_cons, Nat.cast_add, Nat.cast_one] at hlength
      omega
    have hall : stats.AllShotStats = overall := hall (le_refl 1)
    rw [List.append_nil, hothers] at hloop
    simp only [List.flatten_cons, List.cons_append, List.getD_cons_succ,
      List.getD_cons_zero] at hattemptsTag
    refine ⟨stats, registered ++ vectors ++ more, ?_, ?_⟩
    · refine readStats_of_some std defs _ registered stats
        { lines := [], registered := registered ++ vectors ++ more } ?_
      rw [readStatsFromStream_header std defs versionLine shotCountLine _ registered _ hv
          hcount,
        if_neg (by simp only [hshotCountTag, ne_eq, not_true_eq_false, false_or]; omega),
        readBlocks_succ, List.flatten_cons, Reader.bind_of_some _ _ _ _ _ hfirst]
      exact hloop
    · have hpeek := peekAttemptAmountFromStream_of_lines defs versionLine shotCountLine
        separator attemptsLine (tail ++ others.flatten) [] overall.Stats.Attempts
        hversionTag hv hattempts.2.1
      rw [if_neg (by
        simp only [hattemptsTag, ne_eq, not_true_eq_false, false_or, not_lt]
        exact hattempts.2.2)] at hpeek
      unfold peekAttemptAmount
      simp only [List.flatten_cons, List.cons_append, hpeek, hall]

/-- Witness of C20: `exampleFile`; both operations find three attempts. -/
theorem C20_peek_agrees_with_full_parse_witness :
    ∃ (stats : ShotStats) (tracked : List Vector),
      readStats plainDecimalParsing exampleDefs
          (some ("Version\t1.0".toList :: "NumberOfShots\t1".toList ::
            [exampleBlock, exampleBlock].flatten)) [] = Except.ok (stats, tracked) ∧
      peekAttemptAmount exampleDefs
          (some ("Version\t1.0".toList :: "NumberOfShots\t1".toList ::
            [exampleBlock, exampleBlock].flatten)) =
        Except.ok stats.AllShotStats.Stats.Attempts :=
  C20_peek_agrees_with_full_parse plainDecimalParsing exampleDefs "Version\t1.0".toList
    "NumberOfShots\t1".toList [exampleBlock, exampleBlock] 1 [] (by decide) (by decide)
    (by decide) (by decide) (by decide) (by decide)
    (fun block hb => by
      have hblock : block = exampleBlock := by
        simpa using hb
      rw [hblock]
      exact exampleBlock_accepted)
    (by decide)

/-- C21. For a line `ImpactLocations<TAB>count|x1,y1,z1|...|` (the tag not empty and
without a tab, no `|` in the count text, `count` the number of vectors that follow, each
component a text without its separator that `std::stof` reads as the component wherever
it stands before the separator), `readVersion_1_2_additions` succeeds, consumes the line
and registers exactly the `count` vectors with the tracker, after what was registered
before, in the order of the line; with `count = 0` it registers none. -/
theorem C21_impact_locations_are_registered (std : FloatParsing) (defs : StatFileDefs)
    (countText : List Char) (texts : List VectorText) (vectors : List Vector)
    (rest : List (List Char)) (registered : List Vector)
    (htag : defs.ImpactLocations ≠ []) (htab : '\t' ∉ defs.ImpactLocations)
    (hseparator : '|' ∉ countText)
    (hcount : stoi countText = Except.ok (texts.length : Int))
    (htexts : List.Forall₂ (IsVectorText std) texts vectors) :
    readVersion_1_2_additions std defs
        { lines := impactLocationsLine defs countText texts :: rest,
          registered := registered } =
      Except.ok (some (), { lines := rest, registered := registered ++ vectors }) ∧
    vectors.length = texts.length ∧
    (texts = [] → readVersion_1_2_additions std defs
        { lines := impactLocationsLine defs countText texts :: rest,
          registered := registered } =
      Except.ok (some (), { lines := rest, registered := registered })) := by
  have h := readVersion_1_2_additions_of_line std defs countText texts vectors rest
    registered htag htab hseparator hcount htexts
  refine ⟨h, htexts.length_eq.symm, ?_⟩
  intro he
  subst he
  cases htexts
  rw [h, List.append_nil]

/-- Witness of C21: the line `ImpactLocations<TAB>2|1,2,3|4,5,6|` registers the vectors
`(1,2,3)` and `(4,5,6)`, in this order, after a vector that was registered before. -/
theorem C21_impact_locations_are_registered_witness :
    readVersion_1_2_additions plainDecimalParsing exampleDefs
        { lines := ["ImpactLocations\t2|1,2,3|4,5,6|".toList, "----".toList],
          registered := [{ X := 7, Y := 8, Z := 9 }] } =
      Except.ok (some (),
        { lines := ["----".toList],
          registered := [{ X := 7, Y := 8, Z := 9 }, { X := 1, Y := 2, Z := 3 },
            { X := 4, Y := 5, Z := 6 }] }) :=
  (C21_impact_locations_are_registered plainDecimalParsing exampleDefs "2".toList
    [{ X := ['1'], Y := ['2'], Z := ['3'] }, { X := ['4'], Y := ['5'], Z := ['6'] }]
    [{ X := 1, Y := 2, Z := 3 }, { X := 4, Y := 5, Z := 6 }] ["----".toList]
    [{ X := 7, Y := 8, Z := 9 }] (by decide) (by decide) (by decide) (by decide)
    (List.Forall₂.cons
      ⟨isComponent_of_digit ',' (Or.inl rfl) '1' 1 (by simp),
        isComponent_of_digit ',' (Or.inl rfl) '2' 2 (by simp),
        isComponent_of_digit '|' (Or.inr rfl) '3' 3 (by simp)⟩
      (List.Forall₂.cons
        ⟨isComponent_of_digit ',' (Or.inl rfl) '4' 4 (by simp),
          isComponent_of_digit ',' (Or.inl rfl) '5' 5 (by simp),
          isComponent_of_digit '|' (Or.inr rfl) '6' 6 (by simp)⟩
        List.Forall₂.nil))).1

/-- C22. The result of `getAvailableResourcePaths` is sorted in descending order: every
path is greater than or equal to every path after it, in particular to the one that follows
it.  When the folder exists and the iteration over it completes, the result is a
permutation of the paths of the regular files of the folder, nothing else.  When the folder
does not exist the result is empty, and when the iteration is cut short by a
`filesystem_error` the result is a permutation of the regular files visited before. -/
theorem C22_resource_paths_are_sorted_regular_files (folder : ResourceFolder) :
    List.Sorted (fun a b => a ≥ b) (getAvailableResourcePaths folder) ∧
    (∀ (i : Nat) (path next : List Char),
      (getAvailableResourcePaths folder)[i]? = some path →
      (getAvailableResourcePaths folder)[i + 1]? = some next → path ≥ next) ∧
    (folder.folderExists = true → folder.failsAfter = none →
      List.Perm (getAvailableResourcePaths folder)
        ((folder.entries.filter (fun entry => entry.isRegularFile)).map
          (fun entry => entry.path))) ∧
    (folder.folderExists = false → getAvailableResourcePaths folder = []) ∧
    (folder.folderExists = true →
      List.Perm (getAvailableResourcePaths folder)
        ((folder.visited.filter (fun entry => entry.isRegularFile)).map
          (fun entry => entry.path))) := by
  have hsorted : List.Sorted (fun a b : List Char => a ≥ b)
      (getAvailableResourcePaths folder) := List.sorted_insertionSort _ _
  have hvisited : folder.folderExists = true →
      List.Perm (getAvailableResourcePaths folder)
        ((folder.visited.filter (fun entry => entry.isRegularFile)).map
          (fun entry => entry.path)) := by
    intro he
    unfold getAvailableResourcePaths sortDescending
    simp only [he, if_true]
    exact List.perm_insertionSort _ _
  refine ⟨hsorted, ?_, ?_, ?_, hvisited⟩
  · intro i path next hp hn
    obtain ⟨hi, rfl⟩ := List.getElem?_eq_some.mp hp
    obtain ⟨hj, rfl⟩ := List.getElem?_eq_some.mp hn
    exact List.pairwise_iff_getElem.mp hsorted i (i + 1) hi hj (Nat.lt_succ_self i)
  · intro he hf
    have h := hvisited he
    unfold ResourceFolder.visited at h
    rw [hf] at h
    exact h
  · intro he
    unfold getAvailableResourcePaths sortDescending
    simp only [he]
    rfl

/-- Witness of C22: `exampleFolder`; the result consists of the two files, the sub-folder
is left out. -/
theorem C22_resource_paths_are_sorted_regular_files_witness :
    List.Perm (getAvailableResourcePaths exampleFolder)
      ["A1B2/2023-01-05.txt".toList, "A1B2/2023-02-11.txt".toList] :=
  (C22_resource_paths_are_sorted_regular_files exampleFolder).2.2.1 rfl rfl

/-- C23. For all `a` and `b`, `a.getDifferences b` has every compared `int` member equal to
the value of `a` minus that of `b`, `LongestMissStreak` equal to the value of `b` minus that
of `a`, and the members that are not compared (`Attempts`, `GoalStreakCounter`,
`MissStreakCounter`, `CloseMisses`) equal to 0; `a.getDifferences a` is all zeros, and the
`int` members of `a.getDifferences b` are the negations of those of `b.getDifferences a`.
When the `int` members of `a` and `b` are counts, every difference lies strictly between
`-2^31` and `2^31`, so no subtraction leaves the range of `int`. -/
theorem C23_getDifferences_is_signed_difference (a b : PlayerStats) :
    ((a.getDifferences b).Goals = a.Goals - b.Goals ∧
      (a.getDifferences b).LongestGoalStreak = a.LongestGoalStreak - b.LongestGoalStreak ∧
      (a.getDifferences b).InitialHits = a.InitialHits - b.InitialHits ∧
      (a.getDifferences b).MaxAirDribbleTouches =
        a.MaxAirDribbleTouches - b.MaxAirDribbleTouches ∧
      (a.getDifferences b).DoubleTapGoals = a.DoubleTapGoals - b.DoubleTapGoals ∧
      (a.getDifferences b).TotalFlipResets = a.TotalFlipResets - b.TotalFlipResets ∧
      (a.getDifferences b).MaxFlipResets = a.MaxFlipResets - b.MaxFlipResets ∧
      (a.getDifferences b).FlipResetAttemptsScored =
        a.FlipResetAttemptsScored - b.FlipResetAttemptsScored) ∧
    (a.getDifferences b).LongestMissStreak = b.LongestMissStreak - a.LongestMissStreak ∧
    ((a.getDifferences b).Attempts = 0 ∧ (a.getDifferences b).GoalStreakCounter = 0 ∧
      (a.getDifferences b).MissStreakCounter = 0 ∧ (a.getDifferences b).CloseMisses = 0) ∧
    a.getDifferences a = {} ∧
    (a.getDifferences b).intMembers = (b.getDifferences a).intMembers.map (fun x => -x) ∧
    (a.HoldsCounts → b.HoldsCounts →
      ∀ member ∈ (a.getDifferences b).intMembers, -2 ^ 31 < member ∧ member < 2 ^ 31) := by
  refine ⟨⟨rfl, rfl, rfl, rfl, rfl, rfl, rfl, rfl⟩, rfl, ⟨rfl, rfl, rfl, rfl⟩, ?_, ?_, ?_⟩
  · simp [PlayerStats.getDifferences, toFloat]
  · simp [PlayerStats.getDifferences, PlayerStats.intMembers]
  · intro ha hb member hm
    simp only [PlayerStats.HoldsCounts, PlayerStats.intMembers, List.mem_cons,
      List.mem_nil_iff, or_false, forall_eq_or_imp, forall_eq] at ha hb
    simp only [PlayerStats.getDifferences, PlayerStats.intMembers, List.mem_cons,
      List.mem_nil_iff, or_false] at hm
    rcases hm with h | h | h | h | h | h | h | h | h | h | h | h | h <;>
      subst h <;> constructor <;> omega

/-- Witness of C23: two sessions whose members are counts; the goal difference is `-1`,
within the range of `int`. -/
theorem C23_getDifferences_is_signed_difference_witness :
    (examplePlayerStats.getDifferences otherPlayerStats).Goals = -1 ∧
    ∀ member ∈ (examplePlayerStats.getDifferences otherPlayerStats).intMembers,
      -2 ^ 31 < member ∧ member < 2 ^ 31 :=
  ⟨by
      rw [(C23_getDifferences_is_signed_difference examplePlayerStats
        otherPlayerStats).1.1]
      decide,
    (C23_getDifferences_is_signed_difference examplePlayerStats otherPlayerStats).2.2.2.2.2
      (by
        intro member hm
        simp only [PlayerStats.intMembers, examplePlayerStats, List.mem_cons,
          List.mem_nil_iff, or_false] at hm
        rcases hm with h | h | h | h | h | h | h | h | h | h | h | h | h <;>
          subst h <;> constructor <;> norm_num)
      (by
        intro member hm
        simp only [PlayerStats.intMembers, otherPlayerStats, List.mem_cons,
          List.mem_nil_iff, or_false] at hm
        rcases hm with h | h | h | h | h | h | h | h | h | h | h | h | h <;>
          subst h <;> constructor <;> norm_num)⟩

/-- C24, the divergence. In a file of the third supported version with a positive shot
count that ends after its first block, this block being complete (its lines are accepted
by the statements of the block readers and its last line holds impact locations),
`readStats` returns the empty failure result, and the tracker holds the impact locations
of the first block after those it held before: they are registered although the parse
fails. -/
theorem C24_failed_parse_registers_impact_locations (std : FloatParsing)
    (defs : StatFileDefs) (versionLine shotCountLine : List Char)
    (fieldLines : List (List Char)) (impactLine : List Char) (vectors : List Vector)
    (numberOfShots : Int) (registered : List Vector)
    (hversion :
      indexInVector defs.SupportedVersionNumbers (getLineValues versionLine).2 = 2)
    (htag : (getLineValues shotCountLine).1 = defs.NumberOfShots)
    (hcount : stoi (getLineValues shotCountLine).2 = Except.ok numberOfShots)
    (hpos : 0 < numberOfShots)
    (hfields : List.Forall₂ (FieldReader.Accepts std)
      (FieldReader.skipLine :: fields_1_0 ++ fields_1_1) fieldLines)
    (himpact : readVersion_1_2_additions std defs
        { lines := [impactLine], registered := [] } =
      Except.ok (some (), { lines := [], registered := vectors })) :
    readStats std defs
        (some (versionLine :: shotCountLine :: (fieldLines ++ [impactLine]))) registered =
      Except.ok ({}, registered ++ vectors) := by
  have hv : ¬ indexInVector defs.SupportedVersionNumbers (getLineValues versionLine).2 < 0 := by
    omega
  obtain ⟨k, hk⟩ : ∃ k : Nat, numberOfShots.toNat = k + 1 :=
    ⟨numberOfShots.toNat - 1, by omega⟩
  obtain ⟨filled, hb⟩ := readBlock_of_impact std defs fieldLines impactLine vectors hfields
    himpact
    (ShotStats.objectToBeFilled
      { AllShotStats := {}, PerShotStats := List.replicate numberOfShots.toNat {} } 0)
    [] registered
  rw [List.append_nil] at hb
  refine readStats_of_none std defs _ registered
    { lines := [], registered := registered ++ vectors } ?_
  rw [readStatsFromStream_header std defs versionLine shotCountLine _ registered _ hv hcount,
    if_neg (by simp only [htag, ne_eq, not_true_eq_false, false_or]; omega), hversion,
    readBlocks_succ, Reader.bind_of_some _ _ _ _ _ hb, hk, readBlocks_succ,
    Reader.bind_of_none _ _ _ _ (readBlock_of_nil std defs 2 _ _)]

/-- Witness of C24: `truncatedImpactFile`; the parse fails and the tracker has received
the vector `(1,2,3)`. -/
theorem C24_failed_parse_registers_impact_locations_witness :
    readStats plainDecimalParsing exampleDefs (some truncatedImpactFile) [] =
      Except.ok ({}, [{ X := 1, Y := 2, Z := 3 }]) :=
  C24_failed_parse_registers_impact_locations plainDecimalParsing exampleDefs
    "Version\t1.2".toList "NumberOfShots\t1".toList (exampleBlock ++ exampleAdditions_1_1)
    "ImpactLocations\t1|1,2,3|".toList [{ X := 1, Y := 2, Z := 3 }] 1 []
    (by decide) (by decide) (by decide) (by decide) exampleBlock_1_1_accepted
    (readVersion_1_2_additions_of_line plainDecimalParsing exampleDefs "1".toList
      [{ X := ['1'], Y := ['2'], Z := ['3'] }] [{ X := 1, Y := 2, Z := 3 }] [] []
      (by decide) (by decide) (by decide) (by decide)
      (List.Forall₂.cons
        ⟨isComponent_of_digit ',' (Or.inl rfl) '1' 1 (by simp),
          isComponent_of_digit ',' (Or.inl rfl) '2' 2 (by simp),
          isComponent_of_digit '|' (Or.inr rfl) '3' 3 (by simp)⟩
        List.Forall₂.nil))

/-- C25, as stated, fails: with the plugin enabled, a training-pack initialisation that
arrives while the game is not in custom training resets the statistics and sets the
first-spawn flag. -/
theorem C25_counterexample :
    usedCounter._enabled = true ∧
    usedCounter._stats.Attempts = 7 ∧
    (usedCounter.onHookedEvent false HookedEvent.OnInit)._stats.Attempts = 0 ∧
    usedCounter._isFirstSpawn = false ∧
    (usedCounter.onHookedEvent false HookedEvent.OnInit)._isFirstSpawn = true := by
  refine ⟨rfl, rfl, ?_, rfl, ?_⟩ <;>
    simp [GoalPercentageCounter.onHookedEvent, GoalPercentageCounter.onInit, usedCounter,
      GoalPercentageCounter.reset, GoalPercentageCounter.update,
      GoalPercentageCounter.storeSuccessPercentage]

/-- C25, amended. A goal event and a car spawn are dropped, the counter staying as it is,
when the game is not in custom training, when the plugin is disabled, and during a goal
replay.  A training-pack initialisation is dropped when the plugin is disabled; with the
plugin enabled it resets the statistics and sets the first-spawn flag, whether the game is
in custom training or not. -/
theorem C25_guards_of_the_hooked_events (c : GoalPercentageCounter) (inCustomTraining : Bool)
    (event : HookedEvent) :
    (inCustomTraining = false → event ≠ HookedEvent.OnInit →
      c.onHookedEvent inCustomTraining event = c) ∧
    (c._enabled = false → c.onHookedEvent inCustomTraining event = c) ∧
    (c._goalReplayIsActive = true → event ≠ HookedEvent.OnInit →
      c.onHookedEvent inCustomTraining event = c) ∧
    (c._enabled = true →
      c.onHookedEvent inCustomTraining HookedEvent.OnInit =
        { c.reset.update false true with _isFirstSpawn := true }) := by
  refine ⟨?_, ?_, ?_, ?_⟩
  · intro h he
    subst h
    cases event with
    | OnHitGoal => rfl
    | AddCar => rfl
    | OnInit => exact absurd rfl he
  · intro h
    cases event <;> cases inCustomTraining <;>
      simp [GoalPercentageCounter.onHookedEvent, GoalPercentageCounter.onHitGoal,
        GoalPercentageCounter.onAddCar, GoalPercentageCounter.onInit, h]
  · intro h he
    cases event with
    | OnHitGoal =>
      cases inCustomTraining <;>
        simp [GoalPercentageCounter.onHookedEvent, GoalPercentageCounter.onHitGoal, h]
    | AddCar =>
      cases inCustomTraining <;>
        simp [GoalPercentageCounter.onHookedEvent, GoalPercentageCounter.onAddCar, h]
    | OnInit => exact absurd rfl he
  · intro h
    simp [GoalPercentageCounter.onHookedEvent, GoalPercentageCounter.onInit, h]

/-- Witness of C25, amended: a goal event outside custom training leaves the used counter
as it is. -/
theorem C25_guards_of_the_hooked_events_witness :
    usedCounter.onHookedEvent false HookedEvent.OnHitGoal = usedCounter :=
  (C25_guards_of_the_hooked_events usedCounter false HookedEvent.OnHitGoal).1 rfl
    (by decide)

/-- C26. For every sequence of events processed by the state machine from the state that
its constructor leaves (in either build configuration), every `processGoal` and every
`processMiss` call of the trace is immediately followed by `updateData`, and at every point
of the trace the `processGoal` and `processMiss` calls made so far do not exceed the
`processAttempt` calls made so far. -/
theorem C26_outcomes_are_updated_and_bounded (DEBUG_STATE_MACHINE : Bool)
    (goalWasScored ballWasHit : Bool) (pluginState : PluginState)
    (events : List TrainingEvent) :
    OutcomesAreUpdated
      ((CustomTrainingStateMachine.construct goalWasScored ballWasHit
        pluginState).processEvents DEBUG_STATE_MACHINE events)._statUpdater ∧
    OutcomesAreBounded
      ((CustomTrainingStateMachine.construct goalWasScored ballWasHit
        pluginState).processEvents DEBUG_STATE_MACHINE events)._statUpdater := by
  have h := CustomTrainingStateMachine.traceInvariant_run DEBUG_STATE_MACHINE events _
    (CustomTrainingStateMachine.traceInvariant_construct goalWasScored ballWasHit
      pluginState)
  exact ⟨h.1, h.2.1⟩
